import Mathlib

/-!
UProbe deployment engine (`uprobe_manager.cc`) and the kernel-side header
probe of `go_grpc.c`.

A shallow embedding of `pl::stirling::UProbeManager` and of the free functions
of `src/stirling/source_connectors/socket_tracer/uprobe_manager.cc`, and (in
the namespace `bcc_bpf`) of `probe_http2_client_operate_headers` of
`src/stirling/bcc_bpf/go_grpc.c`.

* The manager object is the record `UProbeManager`; every member function is a
  function taking the manager and returning the new manager.
* Everything the file calls but does not define (the BCC back end, the ELF and
  DWARF readers, the proc parser, the path resolver, the file system, the
  symbol-address resolvers) is a field of `Env`: an arbitrary outcome for every
  call.
* `absl::flat_hash_set` values are lists: the list order is the (unspecified)
  iteration order of the set, and the theorems quantify over every list.
* `std::string` and `std::filesystem::path` are `String`; the empty path is `""`.
* Process ids are natural numbers (kernel pids are far below `2^31`, so the
  `uint32_t`/`int32_t` conversions of the source are identities); probe counts
  are natural numbers (`int` in the source, never near `2^31`).
-/

namespace pl.stirling

/-! ## Status values -/

/-- `StatusOr<T>`: a value, or an error carrying its message. -/
inductive StatusOr (α : Type) where
  | ok (v : α)
  | error (msg : String)
deriving DecidableEq, Repr

/-- `Status`: `StatusOr` with no payload. -/
abbrev Status := StatusOr Unit

/-- `Status::OK()`. -/
abbrev Status.OK : Status := StatusOr.ok ()

/-- `status.ok()`. -/
def StatusOr.isOk {α : Type} : StatusOr α → Bool
  | .ok _ => true
  | .error _ => false

/-! ## Data model -/

/-- `bpf_tools::BPFProbeAttachType`. The source names three enumerators;
`other` stands for any further enumerator, which reaches the `default:` branch
of the switch in `AttachUProbeTmpl`. -/
inductive BPFProbeAttachType where
  | kEntry
  | kReturn
  | kReturnInsts
  | other (code : Nat)
deriving DecidableEq, Repr

/-- `obj_tools::SymbolMatchType`, never inspected by this file: the enumerator's code. -/
abbrev SymbolMatchType := Nat

/-- `bpf_tools::UProbeSpec`, fields in the order of the aggregate initialiser
of `AttachUProbeTmpl`. -/
structure UProbeSpec where
  binary_path : String
  symbol : String
  address : Nat
  pid : Int
  attach_type : BPFProbeAttachType
  probe_fn : String
deriving DecidableEq, Repr

/-- `UProbeTmpl`: a probe template. -/
structure UProbeTmpl where
  symbol : String
  match_type : SymbolMatchType
  probe_fn : String
  attach_type : BPFProbeAttachType
deriving DecidableEq, Repr

/-- `ElfReader::SymbolInfo`. -/
structure SymbolInfo where
  name : String
  address : Nat
  size : Nat
deriving DecidableEq, Repr

/-- `md::UPID`: the triple (asid, pid, start time). -/
structure UPID where
  asid : Nat
  pid : Nat
  start_ts : Nat
deriving DecidableEq, Repr

/-- The kernel-side key `upid_t` of the `mmap_events` table. -/
structure upid_t where
  pid : Nat
  start_time_ticks : Nat
deriving DecidableEq, Repr

/-- The fixed-layout records of `symaddrs.h` (declared outside this file):
the field values in declaration order. -/
abbrev openssl_symaddrs_t := List Int

/-- See `openssl_symaddrs_t`. -/
abbrev go_common_symaddrs_t := List Int

/-- See `openssl_symaddrs_t`. -/
abbrev go_http2_symaddrs_t := List Int

/-- See `openssl_symaddrs_t`. -/
abbrev go_tls_symaddrs_t := List Int

/-- `obj_tools::ElfReader`, known by the binary it was created from. -/
structure ElfReader where
  binary : String
deriving DecidableEq, Repr

/-- `obj_tools::DwarfReader`, known by the binary it was created from. -/
structure DwarfReader where
  binary : String
deriving DecidableEq, Repr

/-- The probe family on whose behalf an attach request is made: which of
`AttachOpenSSLUProbes`, `AttachGoTLSUProbes`, `AttachGoHTTP2Probes` is running. -/
inductive Family where
  | OpenSSL
  | GoTLS
  | GoHTTP2
deriving DecidableEq, Repr

/-- One `bcc_->AttachUProbe(spec)` request as the back end received it, with
its outcome. `family` and `invocation` are ghost fields: the `Attach*` member
function that was running, and the number of that invocation. -/
structure AttachCall where
  family : Family
  invocation : Nat
  spec : UProbeSpec
  status : Status
deriving DecidableEq, Repr

/-- `ebpf::BPFHashTable<K, V>`: the key/value entries, at most one per key. -/
abbrev BPFHashTable (κ ν : Type) := List (κ × ν)

/-- `table.remove_value(key)`. -/
def BPFHashTable.remove_value {κ ν : Type} [DecidableEq κ] (t : BPFHashTable κ ν) (key : κ) :
    BPFHashTable κ ν :=
  t.filter (fun kv => decide (kv.1 ≠ key))

/-- `table.update_value(key, value)` when the kernel accepts the write
(`code = 0`): insert or overwrite. A rejected write leaves the table as it was. -/
def BPFHashTable.update_value {κ ν : Type} [DecidableEq κ] (t : BPFHashTable κ ν)
    (code : Int) (key : κ) (value : ν) : BPFHashTable κ ν :=
  if code = 0 then (key, value) :: t.remove_value key else t

/-- `table.get_table_offline()`: a snapshot of the entries. -/
def BPFHashTable.get_table_offline {κ ν : Type} (t : BPFHashTable κ ν) : List (κ × ν) := t

/-- Whether a key has an entry. -/
def BPFHashTable.containsKey {κ ν : Type} [DecidableEq κ] (t : BPFHashTable κ ν) (key : κ) : Bool :=
  t.any (fun kv => decide (kv.1 = key))

/-- Modelled from the spec: the process tracker `ProcTracker` (its class is
declared and defined outside this file). The three sets of section 3 of the
specification: current, new since the last update, deleted since the last update. -/
structure ProcTracker where
  upids : List UPID
  new_upids : List UPID
  deleted_upids : List UPID
deriving DecidableEq, Repr

/-- Modelled from the spec: `ProcTracker::Update`. After `update(observed)`,
current equals observed, new equals observed minus the previous current, and
deleted equals the previous current minus observed. -/
def ProcTracker.Update (t : ProcTracker) (observed : List UPID) : ProcTracker :=
  { upids := observed
    new_upids := observed.filter (fun u => decide (u ∉ t.upids))
    deleted_upids := t.upids.filter (fun u => decide (u ∉ observed)) }

/-- The collaborators of `uprobe_manager.cc` and the constants it takes from
its header: one arbitrary outcome for every call the file makes. -/
structure Env where
  /-- `getpid()`. -/
  getpid : Nat
  /-- The fixed OpenSSL probe list. -/
  kOpenSSLUProbes : List UProbeSpec
  /-- The Go-TLS probe templates. -/
  kGoTLSUProbeTmpls : List UProbeTmpl
  /-- The Go-HTTP/2 probe templates. -/
  kHTTP2ProbeTmpls : List UProbeTmpl
  /-- `bpf_tools::UProbeSpec::kDefaultPID`. -/
  kDefaultPID : Int
  /-- `bcc_->AttachUProbe(spec)`, given the requests the back end has received so far. -/
  AttachUProbe : List AttachCall → UProbeSpec → Status
  /-- `elf_reader->ListFuncSymbols(symbol, match_type)`. -/
  ListFuncSymbols : ElfReader → String → SymbolMatchType → StatusOr (List SymbolInfo)
  /-- `elf_reader->FuncRetInstAddrs(symbol_info)`. -/
  FuncRetInstAddrs : ElfReader → SymbolInfo → StatusOr (List Nat)
  /-- `elf_reader->SymbolAddress(name)`. -/
  SymbolAddress : ElfReader → String → Option Nat
  /-- `ElfReader::Create(binary)`. -/
  ElfReader_Create : String → StatusOr ElfReader
  /-- `DwarfReader::Create(binary)`. -/
  DwarfReader_Create : String → StatusOr DwarfReader
  /-- `OpenSSLSymAddrs(libcrypto_path)`. -/
  OpenSSLSymAddrs : String → StatusOr openssl_symaddrs_t
  /-- `GoCommonSymAddrs(elf_reader, dwarf_reader)`. -/
  GoCommonSymAddrs : ElfReader → DwarfReader → StatusOr go_common_symaddrs_t
  /-- `GoHTTP2SymAddrs(elf_reader, dwarf_reader)`. -/
  GoHTTP2SymAddrs : ElfReader → DwarfReader → StatusOr go_http2_symaddrs_t
  /-- `GoTLSSymAddrs(elf_reader, dwarf_reader)`. -/
  GoTLSSymAddrs : ElfReader → DwarfReader → StatusOr go_tls_symaddrs_t
  /-- The status code of `update_value(pid, ..)` on the table of the given name. -/
  update_value_code : String → Nat → Int
  /-- `FilePathResolver::Create(pid)`; `none` is the call without a pid. -/
  FilePathResolver_Create : Option Nat → Status
  /-- `fp_resolver->SetMountNamespace(pid)`. -/
  SetMountNamespace : Nat → Status
  /-- `fp_resolver->ResolvePath(path)` of a resolver bound to the given pid. -/
  ResolvePath : Nat → String → StatusOr String
  /-- `proc_parser->GetMapPaths(pid)`, in the iteration order of the returned set. -/
  GetMapPaths : Nat → StatusOr (List String)
  /-- `ProcExe(pid)`. -/
  ProcExe : Nat → StatusOr String
  /-- `sysconfig.ToHostPath(path)`. -/
  ToHostPath : String → String
  /-- `fs::Exists(path)`. -/
  fs_Exists : String → Status

/-- `absl::EndsWith(text, suffix)`. -/
def EndsWith (text suffix : String) : Bool :=
  suffix.data.isSuffixOf text.data

/-- The state of a `UProbeManager` together with the state of the objects it
points to: the BPF tables, the flag `FLAGS_stirling_rescan_for_dlopen`, and the
back end `bcc_`, which is the list of attach requests received so far (oldest
first). `ghost_family` and `ghost_invocation` are ghost fields that tag those
requests; no decision of the code reads them. -/
structure UProbeManager where
  cfg_enable_http2_tracing_ : Bool
  cfg_disable_self_probing_ : Bool
  FLAGS_stirling_rescan_for_dlopen : Bool
  openssl_symaddrs_map_ : BPFHashTable Nat openssl_symaddrs_t
  go_common_symaddrs_map_ : BPFHashTable Nat go_common_symaddrs_t
  go_http2_symaddrs_map_ : BPFHashTable Nat go_http2_symaddrs_t
  go_tls_symaddrs_map_ : BPFHashTable Nat go_tls_symaddrs_t
  mmap_events_ : BPFHashTable upid_t Bool
  proc_tracker_ : ProcTracker
  openssl_probed_binaries_ : List String
  go_tls_probed_binaries_ : List String
  http2_probed_binaries_ : List String
  bcc_ : List AttachCall
  ghost_family : Family
  ghost_invocation : Nat
deriving DecidableEq, Repr

namespace UProbeManager

/-- A freshly constructed and initialised manager: `Init` stores the two
configuration values and takes the handles of the BPF tables, whatever they
hold; nothing is probed and nothing has been observed yet. -/
def Init (enable_http2_tracing disable_self_probing rescan_for_dlopen : Bool)
    (openssl : BPFHashTable Nat openssl_symaddrs_t)
    (go_common : BPFHashTable Nat go_common_symaddrs_t)
    (go_http2 : BPFHashTable Nat go_http2_symaddrs_t)
    (go_tls : BPFHashTable Nat go_tls_symaddrs_t)
    (mmap_events : BPFHashTable upid_t Bool) : UProbeManager :=
  { cfg_enable_http2_tracing_ := enable_http2_tracing
    cfg_disable_self_probing_ := disable_self_probing
    FLAGS_stirling_rescan_for_dlopen := rescan_for_dlopen
    openssl_symaddrs_map_ := openssl
    go_common_symaddrs_map_ := go_common
    go_http2_symaddrs_map_ := go_http2
    go_tls_symaddrs_map_ := go_tls
    mmap_events_ := mmap_events
    proc_tracker_ := { upids := [], new_upids := [], deleted_upids := [] }
    openssl_probed_binaries_ := []
    go_tls_probed_binaries_ := []
    http2_probed_binaries_ := []
    bcc_ := []
    ghost_family := Family.OpenSSL
    ghost_invocation := 0 }

/-- Ghost step at the entry of an `Attach*` member function: a new invocation
number, and the family it works for. -/
def enter (f : Family) (m : UProbeManager) : UProbeManager :=
  { m with ghost_family := f, ghost_invocation := m.ghost_invocation + 1 }

/-- `bcc_->AttachUProbe(spec)`: the back end records the request and answers. -/
def AttachUProbe (env : Env) (spec : UProbeSpec) (m : UProbeManager) : Status × UProbeManager :=
  let s := env.AttachUProbe m.bcc_ spec
  (s, { m with bcc_ := m.bcc_ ++ [{ family := m.ghost_family, invocation := m.ghost_invocation,
                                    spec := spec, status := s }] })

/-- The loop `for (const uint64_t& addr : ret_inst_addrs)` of the `kReturnInsts`
case. The spec and the count are the loop-carried locals. -/
def attachRetInstAddrs (env : Env) :
    List Nat → UProbeSpec → Nat → UProbeManager → StatusOr (UProbeSpec × Nat) × UProbeManager
  | [], spec, uprobe_count, m => (.ok (spec, uprobe_count), m)
  | addr :: rest, spec, uprobe_count, m =>
    let spec1 := { spec with attach_type := BPFProbeAttachType.kEntry, address := addr }
    match AttachUProbe env spec1 m with
    | (.error e, m1) => (.error e, m1)
    | (.ok _, m1) => attachRetInstAddrs env rest spec1 (uprobe_count + 1) m1

/-- The body of `for (const auto& symbol_info : symbol_infos)`: the switch on
`tmpl.attach_type`. The `default:` branch only logs (`LOG(DFATAL)`, which does
not abort a release build). -/
def attachSymbolInfo (env : Env) (elf_reader : ElfReader) (tmpl : UProbeTmpl)
    (symbol_info : SymbolInfo) (spec : UProbeSpec) (uprobe_count : Nat) (m : UProbeManager) :
    StatusOr (UProbeSpec × Nat) × UProbeManager :=
  match tmpl.attach_type with
  | .kEntry | .kReturn =>
    let spec1 := { spec with symbol := symbol_info.name }
    match AttachUProbe env spec1 m with
    | (.error e, m1) => (.error e, m1)
    | (.ok _, m1) => (.ok (spec1, uprobe_count + 1), m1)
  | .kReturnInsts =>
    match env.FuncRetInstAddrs elf_reader symbol_info with
    | .error e => (.error e, m)
    | .ok ret_inst_addrs => attachRetInstAddrs env ret_inst_addrs spec uprobe_count m
  | .other _ => (.ok (spec, uprobe_count), m)

/-- The loop `for (const auto& symbol_info : symbol_infos)`. -/
def attachSymbolInfos (env : Env) (elf_reader : ElfReader) (tmpl : UProbeTmpl) :
    List SymbolInfo → UProbeSpec → Nat → UProbeManager →
      StatusOr (UProbeSpec × Nat) × UProbeManager
  | [], spec, uprobe_count, m => (.ok (spec, uprobe_count), m)
  | symbol_info :: rest, spec, uprobe_count, m =>
    match attachSymbolInfo env elf_reader tmpl symbol_info spec uprobe_count m with
    | (.error e, m1) => (.error e, m1)
    | (.ok (spec1, count1), m1) => attachSymbolInfos env elf_reader tmpl rest spec1 count1 m1

/-- The spec an iteration of the template loop starts from. -/
def tmplSpec (env : Env) (binary : String) (tmpl : UProbeTmpl) : UProbeSpec :=
  { binary_path := binary
    symbol := ""
    address := 0
    pid := env.kDefaultPID
    attach_type := tmpl.attach_type
    probe_fn := tmpl.probe_fn }

/-- The loop `for (const auto& tmpl : probe_tmpls)` of `AttachUProbeTmpl`,
entered with the given `uprobe_count`. -/
def attachTmpls (env : Env) (binary : String) (elf_reader : ElfReader) :
    List UProbeTmpl → Nat → UProbeManager → StatusOr Nat × UProbeManager
  | [], uprobe_count, m => (.ok uprobe_count, m)
  | tmpl :: rest, uprobe_count, m =>
    match env.ListFuncSymbols elf_reader tmpl.symbol tmpl.match_type with
    | .error _ => attachTmpls env binary elf_reader rest uprobe_count m
    | .ok symbol_infos =>
      match attachSymbolInfos env elf_reader tmpl symbol_infos (tmplSpec env binary tmpl)
          uprobe_count m with
      | (.error e, m1) => (.error e, m1)
      | (.ok (_, count1), m1) => attachTmpls env binary elf_reader rest count1 m1

/-- `UProbeManager::AttachUProbeTmpl`. -/
def AttachUProbeTmpl (env : Env) (probe_tmpls : List UProbeTmpl) (binary : String)
    (elf_reader : ElfReader) (m : UProbeManager) : StatusOr Nat × UProbeManager :=
  attachTmpls env binary elf_reader probe_tmpls 0 m

/-- `UpdateOpenSSLSymAddrs`, on the manager's `openssl_symaddrs_map_`. A
rejected table write is only logged. -/
def UpdateOpenSSLSymAddrs (env : Env) (libcrypto_path : String) (pid : Nat)
    (m : UProbeManager) : Status × UProbeManager :=
  match env.OpenSSLSymAddrs libcrypto_path with
  | .error e => (.error e, m)
  | .ok symaddrs =>
    (Status.OK,
      { m with
        openssl_symaddrs_map_ :=
          m.openssl_symaddrs_map_.update_value (env.update_value_code "openssl_symaddrs_map" pid)
            pid symaddrs })

/-- The loop `for (auto& pid : pids) { map->update_value(pid, symaddrs); .. }`
shared by the three Go `Update*SymAddrs` functions. -/
def updateValues {ν : Type} (code : Nat → Int) (symaddrs : ν) :
    List Nat → BPFHashTable Nat ν → BPFHashTable Nat ν
  | [], t => t
  | pid :: rest, t => updateValues code symaddrs rest (t.update_value (code pid) pid symaddrs)

/-- `UpdateGoCommonSymAddrs`, on the manager's `go_common_symaddrs_map_`. -/
def UpdateGoCommonSymAddrs (env : Env) (elf_reader : ElfReader) (dwarf_reader : DwarfReader)
    (pids : List Nat) (m : UProbeManager) : Status × UProbeManager :=
  match env.GoCommonSymAddrs elf_reader dwarf_reader with
  | .error e => (.error e, m)
  | .ok symaddrs =>
    (Status.OK,
      { m with
        go_common_symaddrs_map_ :=
          updateValues (env.update_value_code "go_common_symaddrs_map") symaddrs pids
            m.go_common_symaddrs_map_ })

/-- `UpdateGoHTTP2SymAddrs`, on the manager's `go_http2_symaddrs_map_`. -/
def UpdateGoHTTP2SymAddrs (env : Env) (elf_reader : ElfReader) (dwarf_reader : DwarfReader)
    (pids : List Nat) (m : UProbeManager) : Status × UProbeManager :=
  match env.GoHTTP2SymAddrs elf_reader dwarf_reader with
  | .error e => (.error e, m)
  | .ok symaddrs =>
    (Status.OK,
      { m with
        go_http2_symaddrs_map_ :=
          updateValues (env.update_value_code "http2_symaddrs_map") symaddrs pids
            m.go_http2_symaddrs_map_ })

/-- `UpdateGoTLSSymAddrs`, on the manager's `go_tls_symaddrs_map_`. -/
def UpdateGoTLSSymAddrs (env : Env) (elf_reader : ElfReader) (dwarf_reader : DwarfReader)
    (pids : List Nat) (m : UProbeManager) : Status × UProbeManager :=
  match env.GoTLSSymAddrs elf_reader dwarf_reader with
  | .error e => (.error e, m)
  | .ok symaddrs =>
    (Status.OK,
      { m with
        go_tls_symaddrs_map_ :=
          updateValues (env.update_value_code "go_tls_symaddrs_map") symaddrs pids
            m.go_tls_symaddrs_map_ })

/-- `UProbeManager::AttachGoHTTP2Probes`. -/
def AttachGoHTTP2Probes (env : Env) (binary : String) (elf_reader : ElfReader)
    (dwarf_reader : DwarfReader) (pids : List Nat) (m : UProbeManager) :
    StatusOr Nat × UProbeManager :=
  let m0 := enter Family.GoHTTP2 m
  -- Step 1: Update BPF symaddrs for this binary.
  match UpdateGoHTTP2SymAddrs env elf_reader dwarf_reader pids m0 with
  | (.error _, m1) => (.ok 0, m1)
  | (.ok _, m1) =>
    -- Step 2: Deploy uprobes on all new binaries.
    if binary ∈ m1.http2_probed_binaries_ then
      (.ok 0, m1)
    else
      AttachUProbeTmpl env env.kHTTP2ProbeTmpls binary elf_reader
        { m1 with http2_probed_binaries_ := binary :: m1.http2_probed_binaries_ }

/-- The loop `for (const auto& mapped_lib_path : mapped_lib_paths)` of
`FindLibraryPaths`: the resolved path it assigns before `break`, if it does. -/
def findMappedLib (env : Env) (pid : Nat) (lib_name : String) : List String → Option String
  | [] => none
  | mapped_lib_path :: rest =>
    if EndsWith mapped_lib_path lib_name then
      match env.ResolvePath pid mapped_lib_path with
      | .error _ => findMappedLib env pid lib_name rest
      | .ok container_lib => some container_lib
    else
      findMappedLib env pid lib_name rest

/-- The loop `for (const auto& [lib_idx, lib_name] : Enumerate(lib_names))` of
`FindLibraryPaths`, carrying `container_libs` and `found_vector`. -/
def findLibraryLoop (env : Env) (pid : Nat) (mapped_lib_paths : List String) :
    List (Nat × String) → List String → List Bool → List String
  | [], container_libs, _ => container_libs
  | (lib_idx, lib_name) :: rest, container_libs, found_vector =>
    if found_vector.getD lib_idx false then
      findLibraryLoop env pid mapped_lib_paths rest container_libs found_vector
    else
      match findMappedLib env pid lib_name mapped_lib_paths with
      | none => findLibraryLoop env pid mapped_lib_paths rest container_libs found_vector
      | some container_lib =>
        findLibraryLoop env pid mapped_lib_paths rest (container_libs.set lib_idx container_lib)
          (found_vector.set lib_idx true)

/-- `FindLibraryPaths(lib_names, pid, proc_parser)`. -/
def FindLibraryPaths (env : Env) (lib_names : List String) (pid : Nat) :
    StatusOr (List String) :=
  match env.FilePathResolver_Create (some pid) with
  | .error e => .error e
  | .ok _ =>
    match env.GetMapPaths pid with
    | .error e => .error e
    | .ok mapped_lib_paths =>
      .ok (findLibraryLoop env pid mapped_lib_paths lib_names.enum
        (List.replicate lib_names.length "") (List.replicate lib_names.length false))

/-- The loop `for (auto spec : kOpenSSLUProbes)` of `AttachOpenSSLUProbes`. -/
def attachOpenSSLSpecs (env : Env) (container_libssl : String) :
    List UProbeSpec → UProbeManager → Status × UProbeManager
  | [], m => (Status.OK, m)
  | spec :: rest, m =>
    match AttachUProbe env { spec with binary_path := container_libssl } m with
    | (.error e, m1) => (.error e, m1)
    | (.ok _, m1) => attachOpenSSLSpecs env container_libssl rest m1

/-- `UProbeManager::AttachOpenSSLUProbes`, on the manager's `openssl_symaddrs_map_`. -/
def AttachOpenSSLUProbes (env : Env) (pid : Nat) (m : UProbeManager) :
    StatusOr Nat × UProbeManager :=
  let m0 := enter Family.OpenSSL m
  -- Find paths to libssl.so and libcrypto.so for the pid, if they are in use (i.e. mapped).
  match FindLibraryPaths env ["libssl.so.1.1", "libcrypto.so.1.1"] pid with
  | .error e => (.error e, m0)
  | .ok container_lib_paths =>
    let container_libssl := container_lib_paths.getD 0 ""
    let container_libcrypto := container_lib_paths.getD 1 ""
    if container_libssl = "" ∨ container_libcrypto = "" then
      -- Return "0" to indicate zero probes were attached. This is not an error.
      (.ok 0, m0)
    else
      -- Convert to host path, in case we're running inside a container ourselves.
      let host_libssl := env.ToHostPath container_libssl
      let host_libcrypto := env.ToHostPath container_libcrypto
      match env.fs_Exists host_libssl with
      | .error e => (.error e, m0)
      | .ok _ =>
        match env.fs_Exists host_libcrypto with
        | .error e => (.error e, m0)
        | .ok _ =>
          match UpdateOpenSSLSymAddrs env host_libcrypto pid m0 with
          | (.error e, m1) => (.error e, m1)
          | (.ok _, m1) =>
            -- Only try probing .so files that we haven't already set probes on.
            if host_libssl ∈ m1.openssl_probed_binaries_ then
              (.ok 0, m1)
            else
              match attachOpenSSLSpecs env host_libssl env.kOpenSSLUProbes
                  { m1 with openssl_probed_binaries_ := host_libssl :: m1.openssl_probed_binaries_ }
              with
              | (.error e, m2) => (.error e, m2)
              | (.ok _, m2) => (.ok env.kOpenSSLUProbes.length, m2)

/-- `UProbeManager::AttachGoTLSUProbes`. -/
def AttachGoTLSUProbes (env : Env) (binary : String) (elf_reader : ElfReader)
    (dwarf_reader : DwarfReader) (pids : List Nat) (m : UProbeManager) :
    StatusOr Nat × UProbeManager :=
  let m0 := enter Family.GoTLS m
  -- Step 1: Update BPF symbols_map on all new PIDs.
  match UpdateGoTLSSymAddrs env elf_reader dwarf_reader pids m0 with
  | (.error _, m1) => (.ok 0, m1)
  | (.ok _, m1) =>
    -- Step 2: Deploy uprobes on all new binaries.
    if binary ∈ m1.go_tls_probed_binaries_ then
      (.ok 0, m1)
    else
      AttachUProbeTmpl env env.kGoTLSUProbeTmpls binary elf_reader
        { m1 with go_tls_probed_binaries_ := binary :: m1.go_tls_probed_binaries_ }

end UProbeManager

/-- `pids[key].push_back(pid)` on a `std::map<std::string, std::vector<int32_t>>`,
whose entries are kept in increasing key order. -/
def mapPushBack : List (String × List Nat) → String → Nat → List (String × List Nat)
  | [], key, pid => [(key, [pid])]
  | (k, v) :: rest, key, pid =>
    if key = k then (k, v ++ [pid]) :: rest
    else if key < k then (key, [pid]) :: (k, v) :: rest
    else (k, v) :: mapPushBack rest key pid

/-- The loop `for (const auto& upid : upids)` of `ConvertPIDsListToMap`. -/
def convertPIDsLoop (env : Env) :
    List UPID → List (String × List Nat) → List (String × List Nat)
  | [], pids => pids
  | upid :: rest, pids =>
    match env.ProcExe upid.pid with
    | .error _ => convertPIDsLoop env rest pids
    | .ok proc_exe =>
      match env.SetMountNamespace upid.pid with
      | .error _ => convertPIDsLoop env rest pids
      | .ok _ =>
        match env.ResolvePath upid.pid proc_exe with
        | .error _ => convertPIDsLoop env rest pids
        | .ok exe_path =>
          let host_exe_path := env.ToHostPath exe_path
          match env.fs_Exists host_exe_path with
          | .error _ => convertPIDsLoop env rest pids
          | .ok _ => convertPIDsLoop env rest (mapPushBack pids host_exe_path upid.pid)

/-- `ConvertPIDsListToMap(upids)`: key = binary name, value = PIDs. -/
def ConvertPIDsListToMap (env : Env) (upids : List UPID) : List (String × List Nat) :=
  match env.FilePathResolver_Create none with
  | .error _ => []
  | .ok _ => convertPIDsLoop env upids []

namespace UProbeManager

/-- `UProbeManager::CleanupSymaddrMaps`: only the Go-HTTP/2 table is cleaned. -/
def CleanupSymaddrMaps : List UPID → UProbeManager → UProbeManager
  | [], m => m
  | pid :: rest, m =>
    CleanupSymaddrMaps rest
      { m with go_http2_symaddrs_map_ := m.go_http2_symaddrs_map_.remove_value pid.pid }

/-- The loop of `DeployOpenSSLUProbes`, carrying `uprobe_count`. -/
def deployOpenSSLLoop (env : Env) : List UPID → Nat → UProbeManager → Nat × UProbeManager
  | [], uprobe_count, m => (uprobe_count, m)
  | pid :: rest, uprobe_count, m =>
    if m.cfg_disable_self_probing_ = true ∧ pid.pid = env.getpid then
      deployOpenSSLLoop env rest uprobe_count m
    else
      match AttachOpenSSLUProbes env pid.pid m with
      | (.error _, m1) => deployOpenSSLLoop env rest uprobe_count m1
      | (.ok n, m1) => deployOpenSSLLoop env rest (uprobe_count + n) m1

/-- `UProbeManager::DeployOpenSSLUProbes`. -/
def DeployOpenSSLUProbes (env : Env) (pids : List UPID) (m : UProbeManager) :
    Nat × UProbeManager :=
  deployOpenSSLLoop env pids 0 m

/-- The body of the loop of `DeployGoUProbes` for one `(binary, pid_vec)`. -/
def deployGoBinary (env : Env) (binary : String) (pid_vec : List Nat) (uprobe_count : Nat)
    (m : UProbeManager) : Nat × UProbeManager :=
  if m.cfg_disable_self_probing_ = true ∧ pid_vec.length = 1 ∧ pid_vec.head? = some env.getpid then
    -- Don't try to attach uprobes to self.
    (uprobe_count, m)
  else
    -- Read binary's symbols.
    match env.ElfReader_Create binary with
    | .error _ => (uprobe_count, m)
    | .ok elf_reader =>
      -- Avoid going passed this point if not a golang program.
      if (env.SymbolAddress elf_reader "runtime.buildVersion").isSome = false then
        (uprobe_count, m)
      else
        match env.DwarfReader_Create binary with
        | .error _ => (uprobe_count, m)
        | .ok dwarf_reader =>
          match UpdateGoCommonSymAddrs env elf_reader dwarf_reader pid_vec m with
          | (.error _, m1) => (uprobe_count, m1)
          | (.ok _, m1) =>
            -- GoTLS Probes.
            let r2 := AttachGoTLSUProbes env binary elf_reader dwarf_reader pid_vec m1
            let count2 :=
              match r2.1 with
              | .error _ => uprobe_count
              | .ok n => uprobe_count + n
            -- Go HTTP2 Probes.
            if r2.2.cfg_enable_http2_tracing_ = true then
              let r3 := AttachGoHTTP2Probes env binary elf_reader dwarf_reader pid_vec r2.2
              match r3.1 with
              | .error _ => (count2, r3.2)
              | .ok n => (count2 + n, r3.2)
            else
              (count2, r2.2)

/-- The loop of `DeployGoUProbes` over the entries of the map, carrying `uprobe_count`. -/
def deployGoLoop (env : Env) : List (String × List Nat) → Nat → UProbeManager → Nat × UProbeManager
  | [], uprobe_count, m => (uprobe_count, m)
  | (binary, pid_vec) :: rest, uprobe_count, m =>
    let r := deployGoBinary env binary pid_vec uprobe_count m
    deployGoLoop env rest r.1 r.2

/-- `UProbeManager::DeployGoUProbes`. -/
def DeployGoUProbes (env : Env) (pids : List UPID) (m : UProbeManager) : Nat × UProbeManager :=
  deployGoLoop env (ConvertPIDsListToMap env pids) 0 m

/-- The loop `for (const auto& event : mmap_event_entries)` of
`PIDsToRescanForUProbes`, carrying `upids_to_rescan`. -/
def rescanLoop (asid : Nat) :
    List (upid_t × Bool) → List UPID → UProbeManager → List UPID × UProbeManager
  | [], upids_to_rescan, m => (upids_to_rescan, m)
  | event :: rest, upids_to_rescan, m =>
    let pid := event.1
    let upid : UPID := { asid := asid, pid := pid.pid, start_ts := pid.start_time_ticks }
    let upids_to_rescan1 :=
      if upid ∈ m.proc_tracker_.upids ∧ upid ∉ m.proc_tracker_.new_upids then
        (if upid ∈ upids_to_rescan then upids_to_rescan else upids_to_rescan ++ [upid])
      else upids_to_rescan
    rescanLoop asid rest upids_to_rescan1
      { m with mmap_events_ := m.mmap_events_.remove_value pid }

/-- `UProbeManager::PIDsToRescanForUProbes`. -/
def PIDsToRescanForUProbes (m : UProbeManager) : List UPID × UProbeManager :=
  -- Copy the snapshotted pids.
  let mmap_event_entries := m.mmap_events_.get_table_offline
  -- Get the ASID, using an entry from proc_tracker.
  match m.proc_tracker_.upids with
  | [] => ([], m)
  | first :: _ => rescanLoop first.asid mmap_event_entries [] m

/-- The statement `if (FLAGS_stirling_rescan_for_dlopen) { uprobe_count +=
DeployOpenSSLUProbes(PIDsToRescanForUProbes()); }` of `DeployUProbes`. -/
def deployRescan (env : Env) (uprobe_count : Nat) (m : UProbeManager) : Nat × UProbeManager :=
  if m.FLAGS_stirling_rescan_for_dlopen = true then
    let rescan := PIDsToRescanForUProbes m
    let r := DeployOpenSSLUProbes env rescan.1 rescan.2
    (uprobe_count + r.1, r.2)
  else (uprobe_count, m)

/-- The body of `UProbeManager::DeployUProbes`, with the `uprobe_count` it logs. -/
def deployUProbesCount (env : Env) (pids : List UPID) (m : UProbeManager) :
    Nat × UProbeManager :=
  let m1 := { m with proc_tracker_ := m.proc_tracker_.Update pids }
  -- Before deploying new probes, clean-up map entries for old processes that are now dead.
  let m2 := CleanupSymaddrMaps m1.proc_tracker_.deleted_upids m1
  let r3 := DeployOpenSSLUProbes env m2.proc_tracker_.new_upids m2
  let r4 := deployRescan env r3.1 r3.2
  let r5 := DeployGoUProbes env r4.2.proc_tracker_.new_upids r4.2
  (r4.1 + r5.1, r5.2)

/-- `UProbeManager::DeployUProbes`. -/
def DeployUProbes (env : Env) (pids : List UPID) (m : UProbeManager) : UProbeManager :=
  (deployUProbesCount env pids m).2

/-- The attach requests the back end received between two states of the manager. -/
def callsSince (before after : UProbeManager) : List AttachCall :=
  after.bcc_.drop before.bcc_.length

/-- How a run of the attach loops that started with `count0` and issued the
requests `new` may end: with the count raised by one per request, all of them
accepted; or with an error after accepted requests only (a failed
`FuncRetInstAddrs`); or with the error of the last request, the only rejected one. -/
def AttachOutcome {α : Type} (count0 : Nat) (countOf : α → Nat) (r : StatusOr α)
    (new : List AttachCall) : Prop :=
  match r with
  | .ok v => countOf v = count0 + new.length ∧ ∀ c ∈ new, c.status = Status.OK
  | .error e =>
    (∀ c ∈ new, c.status = Status.OK) ∨
      ∃ init c, new = init ++ [c] ∧ c.status = .error e ∧ ∀ x ∈ init, x.status = Status.OK

/-- The request the specification expects for a symbol matched by a template
whose attach mode is entry or return: it carries the symbol's name. -/
def symbolSpec (env : Env) (binary : String) (tmpl : UProbeTmpl) (symbol_info : SymbolInfo) :
    UProbeSpec :=
  { binary_path := binary
    symbol := symbol_info.name
    address := 0
    pid := env.kDefaultPID
    attach_type := tmpl.attach_type
    probe_fn := tmpl.probe_fn }

/-- The request the specification expects for one return instruction of a symbol
matched by a return-by-instruction-addresses template: an entry probe at the address. -/
def retInstSpec (env : Env) (binary : String) (tmpl : UProbeTmpl) (addr : Nat) : UProbeSpec :=
  { binary_path := binary
    symbol := ""
    address := addr
    pid := env.kDefaultPID
    attach_type := BPFProbeAttachType.kEntry
    probe_fn := tmpl.probe_fn }

/-- How `AttachUProbeTmpl` goes on once the symbol loop of a template has
processed one symbol with result `r`: the remaining symbols `spost` of the
template, then the remaining templates `post`. -/
def resumeAfterSymbol (env : Env) (binary : String) (elf_reader : ElfReader) (tmpl : UProbeTmpl)
    (spost : List SymbolInfo) (post : List UProbeTmpl)
    (r : StatusOr (UProbeSpec × Nat) × UProbeManager) : StatusOr Nat × UProbeManager :=
  match r with
  | (.error e, m2) => (.error e, m2)
  | (.ok (spec2, c2), m2) =>
    match attachSymbolInfos env elf_reader tmpl spost spec2 c2 m2 with
    | (.error e, m3) => (.error e, m3)
    | (.ok (_, c3), m3) => attachTmpls env binary elf_reader post c3 m3

/-- The manager after the back end has received the further requests `new`. -/
def withCalls (m : UProbeManager) (new : List AttachCall) : UProbeManager :=
  { m with bcc_ := m.bcc_ ++ new }

/-- What a run of the attach loops from `m` with count `count0` does: it only
appends requests to the back end, it ends as `AttachOutcome` says, and (when
`P`, read as "no `FuncRetInstAddrs` call fails", holds) it fails only with a
rejected request. -/
def Ran {α : Type} (P : Prop) (count0 : Nat) (countOf : α → Nat) (m : UProbeManager)
    (res : StatusOr α × UProbeManager) : Prop :=
  ∃ new, res.2 = m.withCalls new ∧ AttachOutcome count0 countOf res.1 new ∧
    (P → res.1.isOk = false → ∃ c ∈ new, c.status ≠ Status.OK)

/-- Every `FuncRetInstAddrs` call the symbol loop of `tmpl` can make on `syms` succeeds. -/
def RetInstsOk (env : Env) (elf : ElfReader) (tmpl : UProbeTmpl) (syms : List SymbolInfo) : Prop :=
  tmpl.attach_type = BPFProbeAttachType.kReturnInsts →
    ∀ s ∈ syms, (env.FuncRetInstAddrs elf s).isOk = true

/-- Every `FuncRetInstAddrs` call the template loop can make on `tmpls` succeeds. -/
def AllRetInstsOk (env : Env) (elf : ElfReader) (tmpls : List UProbeTmpl) : Prop :=
  ∀ t ∈ tmpls, ∀ syms, env.ListFuncSymbols elf t.symbol t.match_type = .ok syms →
    RetInstsOk env elf t syms

/-- The probed-binary set of a family. -/
def probed (m : UProbeManager) : Family → List String
  | .OpenSSL => m.openssl_probed_binaries_
  | .GoTLS => m.go_tls_probed_binaries_
  | .GoHTTP2 => m.http2_probed_binaries_

/-- At-most-once attach per (binary, family), on the requests received so far:
two requests for the same family and binary path come from the same invocation
of the family's `Attach*` function. With it, what keeps it true: every
requested binary is in its family's probed-binary set, and no request carries
an invocation number beyond the current one. -/
def AttachedOnce (m : UProbeManager) : Prop :=
  (∀ c ∈ m.bcc_, c.spec.binary_path ∈ m.probed c.family) ∧
    (∀ c ∈ m.bcc_, c.invocation ≤ m.ghost_invocation) ∧
    (∀ c1 ∈ m.bcc_, ∀ c2 ∈ m.bcc_, c1.family = c2.family →
      c1.spec.binary_path = c2.spec.binary_path → c1.invocation = c2.invocation)

/-- What no function below `DeployUProbes` changes: the configuration, the
tracker and the mmap-event table. -/
def Frame (m m1 : UProbeManager) : Prop :=
  m1.cfg_enable_http2_tracing_ = m.cfg_enable_http2_tracing_ ∧
    m1.cfg_disable_self_probing_ = m.cfg_disable_self_probing_ ∧
    m1.FLAGS_stirling_rescan_for_dlopen = m.FLAGS_stirling_rescan_for_dlopen ∧
    m1.proc_tracker_ = m.proc_tracker_ ∧
    m1.mmap_events_ = m.mmap_events_

/-- The effect of one invocation of the `Attach*` function of family `F` on the
back end and the probed-binary sets: either no request is issued and the sets
are as before, or a binary `b` (one that `P` holds of) that was not in the
family's set is inserted and every request issued is tagged with the family and
this invocation and carries `b`. -/
def AttachStep (F : Family) (P : String → Prop) (m m1 : UProbeManager) : Prop :=
  Frame m m1 ∧ m1.ghost_invocation = m.ghost_invocation + 1 ∧
    (∀ G, G ≠ F → m1.probed G = m.probed G) ∧
    ((m1.bcc_ = m.bcc_ ∧ m1.probed F = m.probed F) ∨
      ∃ b new, P b ∧ b ∉ m.probed F ∧ m1.probed F = b :: m.probed F ∧
        m1.bcc_ = m.bcc_ ++ new ∧
        ∀ c ∈ new, c.family = F ∧ c.invocation = m1.ghost_invocation ∧ c.spec.binary_path = b)

/-- The effect of a deployment pass: the frame is kept, at-most-once attach is
kept, and every request issued satisfies `Q`. -/
def Pass (Q : AttachCall → Prop) (m m1 : UProbeManager) : Prop :=
  Frame m m1 ∧ (AttachedOnce m → AttachedOnce m1) ∧
    ∃ new, m1.bcc_ = m.bcc_ ++ new ∧ ∀ c ∈ new, Q c

/-- Between `m` and `m1` the back end only received further requests, each
tagged with family `f` and invocation `n` and carrying the binary `b`; nothing
else changed. -/
def Emits (f : Family) (n : Nat) (b : String) (m m1 : UProbeManager) : Prop :=
  ∃ new, m1 = m.withCalls new ∧
    ∀ c ∈ new, c.family = f ∧ c.invocation = n ∧ c.spec.binary_path = b

/-- Whether the Go pass skips a `(binary, pid_vec)` entry as the agent itself. -/
def skipsSelf (env : Env) (disable_self_probing : Bool) (pid_vec : List Nat) : Prop :=
  disable_self_probing = true ∧ pid_vec.length = 1 ∧ pid_vec.head? = some env.getpid

/-- The requests the Go pass may issue on the entries `entries` of the map: a
Go-TLS or Go-HTTP/2 request carrying the binary of an entry that is not skipped. -/
def GoCall (env : Env) (disable_self_probing : Bool) (entries : List (String × List Nat))
    (c : AttachCall) : Prop :=
  c.family ≠ Family.OpenSSL ∧
    ∃ e ∈ entries, c.spec.binary_path = e.1 ∧ ¬ skipsSelf env disable_self_probing e.2

/-- One step of a run of the manager: the three flags are set (by `Init` and by
the flag library), then `DeployUProbes(pids)` runs in the environment `env`. -/
structure DeployCall where
  env : Env
  enable_http2_tracing : Bool
  disable_self_probing : Bool
  rescan_for_dlopen : Bool
  pids : List UPID

/-- Setting the three flags. -/
def setFlags (enable_http2_tracing disable_self_probing rescan_for_dlopen : Bool)
    (m : UProbeManager) : UProbeManager :=
  { m with
    cfg_enable_http2_tracing_ := enable_http2_tracing
    cfg_disable_self_probing_ := disable_self_probing
    FLAGS_stirling_rescan_for_dlopen := rescan_for_dlopen }

/-- A sequence of `DeployUProbes` calls, each with its own flag settings,
observation and outcomes of the collaborators. -/
def runDeploys : List DeployCall → UProbeManager → UProbeManager
  | [], m => m
  | call :: rest, m =>
    runDeploys rest
      (DeployUProbes call.env call.pids
        (setFlags call.enable_http2_tracing call.disable_self_probing call.rescan_for_dlopen m))

/-- The observation of the last call of a sequence; the empty set before any call. -/
def lastObservation (calls : List DeployCall) : List UPID :=
  match calls.getLast? with
  | some call => call.pids
  | none => []

/-- Whether the mmap-event snapshot has an entry for the process of `u`: an
entry whose key holds the pid and the start time of `u` (the key has no asid). -/
def hasMmapEvent (snapshot : List (upid_t × Bool)) (u : UPID) : Prop :=
  ∃ ev ∈ snapshot, ev.1.pid = u.pid ∧ ev.1.start_time_ticks = u.start_ts

instance (snapshot : List (upid_t × Bool)) (u : UPID) : Decidable (hasMmapEvent snapshot u) := by
  unfold hasMmapEvent
  infer_instance

/-- A manager whose tracker holds two identities with different asids, both
seen before, and whose mmap-event table has an entry for the second one. -/
def mixedAsidManager : UProbeManager :=
  { Init false false true [] [] [] [] [({ pid := 20, start_time_ticks := 7 }, true)] with
    proc_tracker_ :=
      { upids := [{ asid := 1, pid := 10, start_ts := 5 }, { asid := 2, pid := 20, start_ts := 7 }]
        new_upids := []
        deleted_upids := [] } }

/-- Between `m` and `m1` the back end only received further requests, each
satisfying `Q`. -/
def Issues (Q : AttachCall → Prop) (m m1 : UProbeManager) : Prop :=
  ∃ new, m1.bcc_ = m.bcc_ ++ new ∧ ∀ c ∈ new, Q c

/-- A host on which every process runs the Go binary `/agent`, the agent's own
executable (the agent's pid is 100): the binary has the Go symbols, every probe
attaches, and there is one Go-TLS template. -/
def agentHost : Env :=
  { getpid := 100
    kOpenSSLUProbes := []
    kGoTLSUProbeTmpls := [{ symbol := "crypto/tls.(*Conn).Write", match_type := 0,
                            probe_fn := "probe_entry_tls_conn_write",
                            attach_type := BPFProbeAttachType.kEntry }]
    kHTTP2ProbeTmpls := []
    kDefaultPID := -1
    AttachUProbe := fun _ _ => Status.OK
    ListFuncSymbols := fun _ symbol _ => .ok [{ name := symbol, address := 4096, size := 64 }]
    FuncRetInstAddrs := fun _ _ => .ok []
    SymbolAddress := fun _ _ => some 1
    ElfReader_Create := fun binary => .ok { binary := binary }
    DwarfReader_Create := fun binary => .ok { binary := binary }
    OpenSSLSymAddrs := fun _ => .error "no OpenSSL symbols"
    GoCommonSymAddrs := fun _ _ => .ok []
    GoHTTP2SymAddrs := fun _ _ => .ok []
    GoTLSSymAddrs := fun _ _ => .ok []
    update_value_code := fun _ _ => 0
    FilePathResolver_Create := fun _ => Status.OK
    SetMountNamespace := fun _ => Status.OK
    ResolvePath := fun _ path => .ok path
    GetMapPaths := fun _ => .ok []
    ProcExe := fun _ => .ok "/agent"
    ToHostPath := fun path => path
    fs_Exists := fun _ => Status.OK }

/-- The agent's own process on `agentHost`. -/
def agentUPID : UPID := { asid := 1, pid := 100, start_ts := 1 }

/-- Another process on `agentHost`, running the same binary as the agent. -/
def otherUPID : UPID := { asid := 1, pid := 101, start_ts := 2 }

/-- The process `pid` can be inspected and lacks at least one of the two
OpenSSL libraries: its path resolver is created, its mapped paths are read, and
no mapped path ends with `libssl.so.1.1`, or none ends with `libcrypto.so.1.1`. -/
def LacksOpenSSL (env : Env) (pid : Nat) : Prop :=
  env.FilePathResolver_Create (some pid) = Status.OK ∧
    ∃ paths, env.GetMapPaths pid = .ok paths ∧
      ((∀ p ∈ paths, EndsWith p "libssl.so.1.1" = false) ∨
        (∀ p ∈ paths, EndsWith p "libcrypto.so.1.1" = false))

/-- The executable of the process `pid` has no `runtime.buildVersion` symbol:
whatever host path its executable resolves to, an ELF reader opened on that
path finds no such symbol. -/
def NotGoBinary (env : Env) (pid : Nat) : Prop :=
  ∀ proc_exe exe_path elf_reader, env.ProcExe pid = .ok proc_exe →
    env.ResolvePath pid proc_exe = .ok exe_path →
    env.ElfReader_Create (env.ToHostPath exe_path) = .ok elf_reader →
    env.SymbolAddress elf_reader "runtime.buildVersion" = none

/-- The back end and the four symbol tables are the same in `m` and `m1`. -/
def SameTables (m m1 : UProbeManager) : Prop :=
  m1.bcc_ = m.bcc_ ∧ m1.openssl_symaddrs_map_ = m.openssl_symaddrs_map_ ∧
    m1.go_common_symaddrs_map_ = m.go_common_symaddrs_map_ ∧
    m1.go_http2_symaddrs_map_ = m.go_http2_symaddrs_map_ ∧
    m1.go_tls_symaddrs_map_ = m.go_tls_symaddrs_map_

/-- A host with one plain process, pid 7: it maps only the C library, and its
executable `/bin/cat` has no Go symbols. -/
def plainHost : Env :=
  { agentHost with
    GetMapPaths := fun _ => .ok ["/lib/libc.so.6"]
    ProcExe := fun _ => .ok "/bin/cat"
    SymbolAddress := fun _ _ => none }

/-- A binary in which every symbol but `missing` is found, and every function
has three return instructions, at 4100, 4120 and 4140. -/
def threeReturns : Env :=
  { agentHost with
    ListFuncSymbols := fun _ symbol _ =>
      if symbol = "missing" then .error "symbol not found"
      else .ok [{ name := symbol, address := 4096, size := 64 }]
    FuncRetInstAddrs := fun _ _ => .ok [4100, 4120, 4140] }

/-- A return-by-instruction-addresses template for the function `foo`. -/
def fooReturnTmpl : UProbeTmpl :=
  { symbol := "foo", match_type := 0, probe_fn := "probe_ret_foo",
    attach_type := BPFProbeAttachType.kReturnInsts }

/-- An entry template for the function `foo`. -/
def fooEntryTmpl : UProbeTmpl :=
  { symbol := "foo", match_type := 0, probe_fn := "probe_entry_foo",
    attach_type := BPFProbeAttachType.kEntry }

/-- A template for a function the binary does not have. -/
def missingTmpl : UProbeTmpl :=
  { symbol := "missing", match_type := 0, probe_fn := "probe_missing",
    attach_type := BPFProbeAttachType.kEntry }

/-- The symbol `foo` as `threeReturns` lists it. -/
def fooSymbol : SymbolInfo := { name := "foo", address := 4096, size := 64 }

/-- The symbol `bar`. -/
def barSymbol : SymbolInfo := { name := "bar", address := 8192, size := 64 }

/-- A binary in which every template matches the two symbols `foo` and `bar`,
on a back end that rejects every attach request. -/
def rejectingBackEnd : Env :=
  { threeReturns with
    ListFuncSymbols := fun _ _ _ => .ok [fooSymbol, barSymbol]
    AttachUProbe := fun _ _ => .error "attach rejected" }

/-- A binary in which every template matches the two symbols `foo` and `bar`;
the return instructions of `foo` cannot be found, those of `bar` are at 4100,
4120 and 4140. Every attach request is accepted. -/
def brokenFirstSymbol : Env :=
  { threeReturns with
    ListFuncSymbols := fun _ _ _ => .ok [fooSymbol, barSymbol]
    FuncRetInstAddrs := fun _ symbol_info =>
      if symbol_info.name = "foo" then .error "cannot disassemble"
      else .ok [4100, 4120, 4140] }

/-- A freshly initialised manager with empty tables and all flags off. -/
def freshManager : UProbeManager := Init false false false [] [] [] [] []

/-- A manager that has observed no process yet, with rescanning enabled and one
entry in the mmap-event table. -/
def emptyTrackerManager : UProbeManager :=
  Init false false true [] [] [] [] [({ pid := 20, start_time_ticks := 7 }, true)]

/-- The host `agentHost` with one Go-HTTP/2 template. -/
def http2Host : Env :=
  { agentHost with
    kHTTP2ProbeTmpls := [{ symbol := "golang.org/x/net/http2.(*Framer).WriteHeaders",
                           match_type := 0, probe_fn := "probe_http2_framer_write_headers",
                           attach_type := BPFProbeAttachType.kEntry }] }

/-- A host whose processes map `libssl.so.1.1` and `libcrypto.so.1.1` and run
`/usr/bin/curl`, which is not a Go binary. The OpenSSL probe list has two
entries, and the OpenSSL symbol record resolves. -/
def opensslHost : Env :=
  { agentHost with
    kOpenSSLUProbes :=
      [{ binary_path := "", symbol := "SSL_write", address := 0, pid := -1,
         attach_type := BPFProbeAttachType.kEntry, probe_fn := "probe_entry_SSL_write" },
       { binary_path := "", symbol := "SSL_write", address := 0, pid := -1,
         attach_type := BPFProbeAttachType.kReturn, probe_fn := "probe_ret_SSL_write" }]
    GetMapPaths := fun _ => .ok ["/usr/lib/libssl.so.1.1", "/usr/lib/libcrypto.so.1.1"]
    OpenSSLSymAddrs := fun _ => .ok [96]
    ProcExe := fun _ => .ok "/usr/bin/curl"
    SymbolAddress := fun _ _ => none }

/-- The host `opensslHost` when the kernel rejects every write to a symbol
table (the table is full, say). -/
def fullTableHost : Env :=
  { opensslHost with update_value_code := fun _ _ => 1 }

/-- A symbol table `t1` that came from `t` by writes only, each for a key that
`P` holds of: no key of `t` lost its entry, and every entry of `t1` is an entry
of `t` or has such a key. -/
def Published {ν : Type} (P : Nat → Prop) (t t1 : BPFHashTable Nat ν) : Prop :=
  (∀ k, t.containsKey k = true → t1.containsKey k = true) ∧ (∀ kv ∈ t1, kv ∈ t ∨ P kv.1)

/-- What the OpenSSL pass and the rescan pass leave alone and what they write:
the Go tables and the Go probed-binary sets are as before, and the OpenSSL
table only received writes. -/
def OpenSSLPassEffect (m m1 : UProbeManager) : Prop :=
  m1.go_common_symaddrs_map_ = m.go_common_symaddrs_map_ ∧
    m1.go_http2_symaddrs_map_ = m.go_http2_symaddrs_map_ ∧
    m1.go_tls_symaddrs_map_ = m.go_tls_symaddrs_map_ ∧
    m1.go_tls_probed_binaries_ = m.go_tls_probed_binaries_ ∧
    m1.http2_probed_binaries_ = m.http2_probed_binaries_ ∧
    Published (fun _ => True) m.openssl_symaddrs_map_ m1.openssl_symaddrs_map_

/-- What the Go pass leaves alone and what it writes, with HTTP/2 tracing set to
`http2`: the OpenSSL table and probed-binary set are as before; the Go tables
only received writes, for keys that `P` holds of; with tracing disabled the
Go-HTTP/2 table and probed-binary set are as before; and every request issued is
a Go-TLS request, or a Go-HTTP/2 request with tracing enabled. -/
def GoPassEffect (P : Nat → Prop) (http2 : Bool) (m m1 : UProbeManager) : Prop :=
  m.cfg_enable_http2_tracing_ = http2 ∧ m1.cfg_enable_http2_tracing_ = http2 ∧
    m1.openssl_symaddrs_map_ = m.openssl_symaddrs_map_ ∧
    m1.openssl_probed_binaries_ = m.openssl_probed_binaries_ ∧
    Published P m.go_common_symaddrs_map_ m1.go_common_symaddrs_map_ ∧
    Published P m.go_http2_symaddrs_map_ m1.go_http2_symaddrs_map_ ∧
    Published P m.go_tls_symaddrs_map_ m1.go_tls_symaddrs_map_ ∧
    (http2 = false → m1.go_http2_symaddrs_map_ = m.go_http2_symaddrs_map_ ∧
      m1.http2_probed_binaries_ = m.http2_probed_binaries_) ∧
    Issues (fun c => c.family = Family.GoTLS ∨ (c.family = Family.GoHTTP2 ∧ http2 = true)) m m1

/-- What an `Attach*` result adds to `uprobe_count`: its value, or nothing for an error. -/
def okCount : StatusOr Nat → Nat
  | .ok n => n
  | .error _ => 0

/-- The state in which `AttachGoTLSUProbes` hands a binary that is not yet in
the Go-TLS probed-binary set over to `AttachUProbeTmpl`, in the Go pass of a
Go binary whose Go-common record is `common` and whose Go-TLS record is `tls`:
both records are published for the pids and the binary is in the set. -/
def goTLSAttachState (env : Env) (binary : String) (pid_vec : List Nat)
    (common : go_common_symaddrs_t) (tls : go_tls_symaddrs_t) (m : UProbeManager) :
    UProbeManager :=
  { m with
    go_common_symaddrs_map_ :=
      updateValues (env.update_value_code "go_common_symaddrs_map") common pid_vec
        m.go_common_symaddrs_map_
    go_tls_symaddrs_map_ :=
      updateValues (env.update_value_code "go_tls_symaddrs_map") tls pid_vec
        m.go_tls_symaddrs_map_
    go_tls_probed_binaries_ := binary :: m.go_tls_probed_binaries_
    ghost_family := Family.GoTLS
    ghost_invocation := m.ghost_invocation + 1 }

/-- The host `http2Host` on a back end that rejects the Go-HTTP/2 probe and
accepts every other one. -/
def rejectHttp2Host : Env :=
  { http2Host with
    AttachUProbe := fun _ spec =>
      if spec.probe_fn = "probe_http2_framer_write_headers" then .error "attach rejected"
      else Status.OK }

/-- The host `agentHost` when the memory maps of no process can be read any
more: the processes are gone. -/
def goneHost : Env :=
  { agentHost with GetMapPaths := fun _ => .error "process gone" }

/-- An entry of the Go pass that is dropped before its attach steps: it is
skipped as the agent itself, or a reader of the binary does not open, or the
binary has no `runtime.buildVersion`, or its Go-common record does not resolve. -/
def goBinaryDropped (env : Env) (binary : String) (pid_vec : List Nat) (m : UProbeManager) :
    Prop :=
  skipsSelf env m.cfg_disable_self_probing_ pid_vec ∨
    (∃ e, env.ElfReader_Create binary = .error e) ∨
    (∃ elf, env.ElfReader_Create binary = .ok elf ∧
      ((env.SymbolAddress elf "runtime.buildVersion").isSome = false ∨
        (∃ e, env.DwarfReader_Create binary = .error e) ∨
        ∃ dwarf e, env.DwarfReader_Create binary = .ok dwarf ∧
          env.GoCommonSymAddrs elf dwarf = .error e))

/-- Between `m` and `m1` no probed-binary set lost a binary, the back end only
received further requests, and each of them carries a binary that was not in
its family's set in `m` and is in it in `m1`. -/
def ProbedGrows (m m1 : UProbeManager) : Prop :=
  (∀ F b, b ∈ m.probed F → b ∈ m1.probed F) ∧
    ∃ new, m1.bcc_ = m.bcc_ ++ new ∧
      ∀ c ∈ new, c.spec.binary_path ∉ m.probed c.family ∧ c.spec.binary_path ∈ m1.probed c.family

/-- How an `Attach*` function of family `F`, whose requests are issued by the
loop `attach`, gets from `m` to `r`. Either it issues no request and leaves the
sets as they were. Or it first reaches a state `M` in which a binary `b` that
was not in the family's set is inserted and no request has been issued yet, and
`r` is what the loop makes of `M`: the state `M` with the requests `new` added,
each of the family and for `b`. -/
def InsertsFirst (F : Family) (attach : String → UProbeManager → UProbeManager)
    (m r : UProbeManager) : Prop :=
  (r.bcc_ = m.bcc_ ∧ ∀ G, r.probed G = m.probed G) ∨
    ∃ b M new, b ∉ m.probed F ∧ M.bcc_ = m.bcc_ ∧ M.probed F = b :: m.probed F ∧
      r = attach b M ∧ r = M.withCalls new ∧
      ∀ c ∈ new, c.family = F ∧ c.spec.binary_path = b

/-- The host `opensslHost` on a back end that accepts the entry probe of
`SSL_write` and rejects its return probe, the second entry of the probe list. -/
def rejectReturnHost : Env :=
  { opensslHost with
    AttachUProbe := fun _ spec =>
      if spec.probe_fn = "probe_ret_SSL_write" then .error "attach rejected" else Status.OK }

end UProbeManager

/-! ## The kernel-side probe `probe_http2_client_operate_headers` of `go_grpc.c`

The header `go_grpc_types.h` the probe includes is outside this development. The
records below have the members the probe uses, under the names it uses; `len`
and `cap` are integers of any width and sign; the constant
`HEADER_FIELD_STR_SIZE`, the macro `BPF_LEN_CAP`, the size of a header field and
the memory of the traced process are parameters (`Kernel`). -/

namespace bcc_bpf

/-- The constant of `#define HEADER_COUNT 64`. -/
def HEADER_COUNT : Nat := 64

/-- The record `struct gostring`: the members `ptr` and `len`. -/
structure gostring where
  ptr : Nat
  len : Int
deriving DecidableEq, Repr

/-- The record `struct HPackHeaderField`. -/
structure HPackHeaderField where
  name : gostring
  value : gostring
  sensitive : Bool
deriving DecidableEq, Repr

/-- The record `struct go_ptr_array`, a Go slice: the members `ptr`, `len` and `cap`. -/
structure go_ptr_array where
  ptr : Nat
  len : Int
  cap : Int
deriving DecidableEq, Repr

/-- The type of `event.name` and `event.value`: the members `size` and `msg`. -/
structure header_field_t where
  size : Nat
  msg : List Nat
deriving DecidableEq, Repr

/-- The record `struct ProbeInfo`: the members `fill_probe_info` writes. -/
structure ProbeInfo where
  timestamp_ns : Nat
  tgid : Nat
  tid : Nat
deriving DecidableEq, Repr

/-- The event types the probes of `go_grpc.c` use. -/
inductive EventType where
  | kGRPCWriteHeader
  | kGRPCOperateHeaders
deriving DecidableEq, Repr

/-- The record `struct go_grpc_http2_header_event_t`: the members the probes write. -/
structure go_grpc_http2_header_event_t where
  entry_probe : ProbeInfo
  type : EventType
  fd : Nat
  stream_id : Nat
  name : header_field_t
  value : header_field_t
deriving DecidableEq, Repr

/-- The registers of the probed call, `struct pt_regs`: `PT_REGS_SP(ctx)` is `sp`. -/
structure pt_regs where
  sp : Nat

/-- What the probe takes from outside `go_grpc.c`: two items of the missing
header, the memory of the traced process as the reads of the probe see it (a
dereference at each type, and `bpf_probe_read`, which yields the new content of
its destination), and the two kernel helpers of `fill_probe_info`. -/
structure Kernel where
  HEADER_FIELD_STR_SIZE : Nat
  BPF_LEN_CAP : Int → Nat → Nat
  sizeof_HPackHeaderField : Nat
  deref_ptr : Nat → Nat
  deref_int32 : Nat → Int
  deref_uint32 : Nat → Nat
  deref_go_ptr_array : Nat → go_ptr_array
  bpf_probe_read_field : Nat → HPackHeaderField
  bpf_probe_read : List Nat → Nat → Nat → List Nat
  bpf_get_current_pid_tgid : Nat
  bpf_ktime_get_ns : Nat

/-- `conn_fd(conn_ptr)`. -/
def conn_fd (k : Kernel) (conn_ptr : Nat) : Int :=
  let kDataFieldOffset := 8
  let framer_writer_conn_data_ptr := k.deref_ptr (conn_ptr + kDataFieldOffset)
  let framer_writer_conn_data_fd_ptr := k.deref_ptr framer_writer_conn_data_ptr
  let kFDFieldOffset := 16
  let fd := k.deref_int32 (framer_writer_conn_data_fd_ptr + kFDFieldOffset)
  fd

/-- `fill_header_field(event, user_space_ptr)`: only `name` and `value` are written. -/
def fill_header_field (k : Kernel) (event : go_grpc_http2_header_event_t)
    (user_space_ptr : Nat) : go_grpc_http2_header_event_t :=
  let field := k.bpf_probe_read_field user_space_ptr
  let name_size := k.BPF_LEN_CAP field.name.len k.HEADER_FIELD_STR_SIZE
  let name_msg := k.bpf_probe_read event.name.msg name_size field.name.ptr
  let value_size := k.BPF_LEN_CAP field.value.len k.HEADER_FIELD_STR_SIZE
  let value_msg := k.bpf_probe_read event.value.msg value_size field.value.ptr
  { event with
    name := { size := name_size, msg := name_msg }
    value := { size := value_size, msg := value_msg } }

/-- `fill_probe_info(probe_info)`. -/
def fill_probe_info (k : Kernel) : ProbeInfo :=
  let current_pid_tgid := k.bpf_get_current_pid_tgid
  { timestamp_ns := k.bpf_ktime_get_ns
    tgid := current_pid_tgid / 2 ^ 32
    tid := current_pid_tgid % 2 ^ 32 }

/-- The loop `for (unsigned int i = 0, pos = 0; i < HEADER_COUNT && i < fields.len; ++i)`
of `probe_http2_client_operate_headers`, from the value `i` of its counter on.
`perf_submit` appends the event to the perf buffer. -/
def operateHeadersLoop (k : Kernel) (fields_ptr : Nat) (fields_len : Int) (i : Nat)
    (event : go_grpc_http2_header_event_t)
    (go_grpc_header_events : List go_grpc_http2_header_event_t) :
    List go_grpc_http2_header_event_t :=
  if i < HEADER_COUNT ∧ (i : Int) < fields_len then
    let event1 := fill_header_field k event (fields_ptr + i * k.sizeof_HPackHeaderField)
    operateHeadersLoop k fields_ptr fields_len (i + 1) event1 (go_grpc_header_events ++ [event1])
  else go_grpc_header_events
termination_by HEADER_COUNT - i
decreasing_by omega

/-- `probe_http2_client_operate_headers(ctx)`: the value returned and the perf
buffer `go_grpc_header_events` after the call. -/
def probe_http2_client_operate_headers (k : Kernel) (ctx : pt_regs)
    (go_grpc_header_events : List go_grpc_http2_header_event_t) :
    Int × List go_grpc_http2_header_event_t :=
  let sp := ctx.sp
  let http2_client_ptr := k.deref_ptr (sp + 8)
  let kHTTP2ClientConnFieldOffset := 64
  let http2_client_conn_ptr := http2_client_ptr + kHTTP2ClientConnFieldOffset
  let fd : Nat := Int.toNat (conn_fd k http2_client_conn_ptr % 2 ^ 32)
  let kFieldsParamOffset := 16
  let frame_ptr := k.deref_ptr (sp + kFieldsParamOffset)
  let frame_header_ptr := k.deref_ptr frame_ptr
  let kStreamIDOffset := 8
  let stream_id := k.deref_uint32 (frame_header_ptr + kStreamIDOffset)
  let kFieldsOffset := 8
  let fields := k.deref_go_ptr_array (frame_ptr + kFieldsOffset)
  let fields_ptr := fields.ptr
  if fields.len > 100 ∨ fields.len ≤ 0 ∨ fields.cap ≤ 0 then
    (0, go_grpc_header_events)
  else
    let event : go_grpc_http2_header_event_t :=
      { entry_probe := { timestamp_ns := 0, tgid := 0, tid := 0 }
        type := EventType.kGRPCOperateHeaders
        fd := fd
        stream_id := stream_id
        name := { size := 0, msg := List.replicate k.HEADER_FIELD_STR_SIZE 0 }
        value := { size := 0, msg := List.replicate k.HEADER_FIELD_STR_SIZE 0 } }
    let event1 := { event with entry_probe := fill_probe_info k }
    (0, operateHeadersLoop k fields_ptr fields.len 0 event1 go_grpc_header_events)

/-- The header slice `fields` that `probe_http2_client_operate_headers` reads. -/
def operateHeadersFields (k : Kernel) (ctx : pt_regs) : go_ptr_array :=
  k.deref_go_ptr_array (k.deref_ptr (ctx.sp + 16) + 8)

/-- The `fd` of the event of `probe_http2_client_operate_headers`. -/
def operateHeadersFd (k : Kernel) (ctx : pt_regs) : Nat :=
  Int.toNat (conn_fd k (k.deref_ptr (ctx.sp + 8) + 64) % 2 ^ 32)

/-- The `stream_id` of the event of `probe_http2_client_operate_headers`. -/
def operateHeadersStreamId (k : Kernel) (ctx : pt_regs) : Nat :=
  k.deref_uint32 (k.deref_ptr (k.deref_ptr (ctx.sp + 16)) + 8)

/-- The event of `probe_http2_client_operate_headers` when its loop starts. -/
def operateHeadersEvent (k : Kernel) (ctx : pt_regs) : go_grpc_http2_header_event_t :=
  { entry_probe := fill_probe_info k
    type := EventType.kGRPCOperateHeaders
    fd := operateHeadersFd k ctx
    stream_id := operateHeadersStreamId k ctx
    name := { size := 0, msg := List.replicate k.HEADER_FIELD_STR_SIZE 0 }
    value := { size := 0, msg := List.replicate k.HEADER_FIELD_STR_SIZE 0 } }

/-- The specification's reading of the loop: the events for the `n` header
fields at the indices `i`, `i + 1`, ... of the slice at `fields_ptr`, in order;
each is the event before it with `name` and `value` filled from its header
field. -/
def headerEvents (k : Kernel) (fields_ptr : Nat) :
    Nat → Nat → go_grpc_http2_header_event_t → List go_grpc_http2_header_event_t
  | 0, _, _ => []
  | n + 1, i, event =>
    fill_header_field k event (fields_ptr + i * k.sizeof_HPackHeaderField) ::
      headerEvents k fields_ptr n (i + 1)
        (fill_header_field k event (fields_ptr + i * k.sizeof_HPackHeaderField))

/-- A traced process whose `operateHeaders` call received a slice of two header
fields (`len` 2, `cap` 4) at address 4096, on the connection with file
descriptor 5 and the stream 3; a header field takes 40 bytes. -/
def twoHeaders : Kernel :=
  { HEADER_FIELD_STR_SIZE := 128
    BPF_LEN_CAP := fun x cap => if x < cap then x.toNat % cap else cap
    sizeof_HPackHeaderField := 40
    deref_ptr := fun addr => addr + 1000
    deref_int32 := fun _ => 5
    deref_uint32 := fun _ => 3
    deref_go_ptr_array := fun _ => { ptr := 4096, len := 2, cap := 4 }
    bpf_probe_read_field := fun addr =>
      { name := { ptr := addr, len := if addr = 4096 then 7 else 12 }
        value := { ptr := addr + 16, len := if addr = 4096 then 3 else 200 }
        sensitive := false }
    bpf_probe_read := fun dst _ _ => dst
    bpf_get_current_pid_tgid := 0
    bpf_ktime_get_ns := 0 }

end bcc_bpf

namespace UProbeManager

/-! ## The trace of effects of `DeployUProbes`

A second embedding of `DeployUProbes` and of the functions below it, in which
every function also appends the effects it performs to a trace, at the place
where the source performs them: the tracker update, the removals from and the
writes to the symbol tables, the insertions into the probed-binary sets, the
attach requests, and the removals from the mmap-event table. The requests of an
attach loop are taken from the log of the back end, which the loop only
appends to. -/

/-- The four symbol tables. -/
inductive SymaddrTable where
  | OpenSSL
  | GoCommon
  | GoHTTP2
  | GoTLS
deriving DecidableEq, Repr

/-- One effect of a `DeployUProbes` call. -/
inductive Effect where
  /-- The call `proc_tracker_.Update(pids)`. -/
  | trackerUpdate (pids : List UPID)
  /-- A call `remove_value(pid)` on a symbol table. -/
  | remove (table : SymaddrTable) (pid : Nat)
  /-- A call `update_value(pid, symaddrs)` on a symbol table. -/
  | publish (table : SymaddrTable) (pid : Nat)
  /-- The insertion of a new binary into a probed-binary set. -/
  | insert (family : Family) (binary : String)
  /-- A call `bcc_->AttachUProbe(spec)`, as the back end logged it. -/
  | attach (call : AttachCall)
  /-- A call `mmap_events_->remove_value(pid)`. -/
  | mmapRemove (pid : upid_t)
deriving DecidableEq, Repr

/-- The request of an attach effect. -/
def Effect.call? : Effect → Option AttachCall
  | .attach c => some c
  | _ => none

/-- The effects that are removals from a symbol table. -/
def Effect.isRemoval : Effect → Prop
  | .remove _ _ => True
  | _ => False

/-- The effects that are publications, that is writes to a symbol table. -/
def Effect.isPublication : Effect → Prop
  | .publish _ _ => True
  | _ => False

/-- The effect that is the tracker update. -/
def Effect.isTrackerUpdate : Effect → Prop
  | .trackerUpdate _ => True
  | _ => False

/-- The effects of the OpenSSL pass and of the rescan pass: writes to the
OpenSSL table, insertions into the OpenSSL probed-binary set, OpenSSL attach
requests, and removals from the mmap-event table. -/
def Effect.ofOpenSSLPass : Effect → Prop
  | .publish .OpenSSL _ => True
  | .insert .OpenSSL _ => True
  | .attach c => c.family = Family.OpenSSL
  | .mmapRemove _ => True
  | _ => False

/-- The effects of the Go pass: writes to the three Go tables, insertions into
the two Go probed-binary sets, and Go-TLS and Go-HTTP/2 attach requests. -/
def Effect.ofGoPass : Effect → Prop
  | .publish .GoCommon _ => True
  | .publish .GoHTTP2 _ => True
  | .publish .GoTLS _ => True
  | .insert .GoTLS _ => True
  | .insert .GoHTTP2 _ => True
  | .attach c => c.family = Family.GoTLS ∨ c.family = Family.GoHTTP2
  | _ => False

/-- The stage of `DeployUProbes` an effect belongs to, by its kind: 0 for the
tracker update, 1 for a removal from a symbol table, 2 for an effect of the
OpenSSL and rescan passes, 3 for an effect of the Go pass. -/
def Effect.stage : Effect → Nat
  | .trackerUpdate _ => 0
  | .remove _ _ => 1
  | .publish .OpenSSL _ => 2
  | .publish _ _ => 3
  | .insert .OpenSSL _ => 2
  | .insert _ _ => 3
  | .attach c => if c.family = Family.OpenSSL then 2 else 3
  | .mmapRemove _ => 2

/-- A manager together with the trace of the effects performed so far, oldest first. -/
structure Traced where
  m : UProbeManager
  effects : List Effect

/-- `UpdateOpenSSLSymAddrs` with its trace. -/
def UpdateOpenSSLSymAddrsTraced (env : Env) (libcrypto_path : String) (pid : Nat)
    (s : Traced) : Status × Traced :=
  match env.OpenSSLSymAddrs libcrypto_path with
  | .error e => (.error e, s)
  | .ok symaddrs =>
    (Status.OK,
      { m :=
          { s.m with
            openssl_symaddrs_map_ :=
              s.m.openssl_symaddrs_map_.update_value
                (env.update_value_code "openssl_symaddrs_map" pid) pid symaddrs }
        effects := s.effects ++ [Effect.publish SymaddrTable.OpenSSL pid] })

/-- The loop `for (auto& pid : pids) { map->update_value(pid, symaddrs); .. }`
with its trace. -/
def updateValuesTraced {ν : Type} (table : SymaddrTable) (code : Nat → Int) (symaddrs : ν) :
    List Nat → BPFHashTable Nat ν → List Effect → BPFHashTable Nat ν × List Effect
  | [], t, effects => (t, effects)
  | pid :: rest, t, effects =>
    updateValuesTraced table code symaddrs rest (t.update_value (code pid) pid symaddrs)
      (effects ++ [Effect.publish table pid])

/-- `UpdateGoCommonSymAddrs` with its trace. -/
def UpdateGoCommonSymAddrsTraced (env : Env) (elf_reader : ElfReader)
    (dwarf_reader : DwarfReader) (pids : List Nat) (s : Traced) : Status × Traced :=
  match env.GoCommonSymAddrs elf_reader dwarf_reader with
  | .error e => (.error e, s)
  | .ok symaddrs =>
    (Status.OK,
      { m :=
          { s.m with
            go_common_symaddrs_map_ :=
              (updateValuesTraced SymaddrTable.GoCommon
                (env.update_value_code "go_common_symaddrs_map") symaddrs pids
                s.m.go_common_symaddrs_map_ s.effects).1 }
        effects :=
          (updateValuesTraced SymaddrTable.GoCommon
            (env.update_value_code "go_common_symaddrs_map") symaddrs pids
            s.m.go_common_symaddrs_map_ s.effects).2 })

/-- `UpdateGoHTTP2SymAddrs` with its trace. -/
def UpdateGoHTTP2SymAddrsTraced (env : Env) (elf_reader : ElfReader)
    (dwarf_reader : DwarfReader) (pids : List Nat) (s : Traced) : Status × Traced :=
  match env.GoHTTP2SymAddrs elf_reader dwarf_reader with
  | .error e => (.error e, s)
  | .ok symaddrs =>
    (Status.OK,
      { m :=
          { s.m with
            go_http2_symaddrs_map_ :=
              (updateValuesTraced SymaddrTable.GoHTTP2
                (env.update_value_code "http2_symaddrs_map") symaddrs pids
                s.m.go_http2_symaddrs_map_ s.effects).1 }
        effects :=
          (updateValuesTraced SymaddrTable.GoHTTP2
            (env.update_value_code "http2_symaddrs_map") symaddrs pids
            s.m.go_http2_symaddrs_map_ s.effects).2 })

/-- `UpdateGoTLSSymAddrs` with its trace. -/
def UpdateGoTLSSymAddrsTraced (env : Env) (elf_reader : ElfReader)
    (dwarf_reader : DwarfReader) (pids : List Nat) (s : Traced) : Status × Traced :=
  match env.GoTLSSymAddrs elf_reader dwarf_reader with
  | .error e => (.error e, s)
  | .ok symaddrs =>
    (Status.OK,
      { m :=
          { s.m with
            go_tls_symaddrs_map_ :=
              (updateValuesTraced SymaddrTable.GoTLS
                (env.update_value_code "go_tls_symaddrs_map") symaddrs pids
                s.m.go_tls_symaddrs_map_ s.effects).1 }
        effects :=
          (updateValuesTraced SymaddrTable.GoTLS
            (env.update_value_code "go_tls_symaddrs_map") symaddrs pids
            s.m.go_tls_symaddrs_map_ s.effects).2 })

/-- The trace after an attach loop that led from `M` to `m1`, entered once the
binary was inserted into the set of the family: the insertion, then the
requests the back end logged during the loop. -/
def afterAttachLoop (family : Family) (binary : String) (effects : List Effect)
    (M m1 : UProbeManager) : Traced :=
  { m := m1
    effects := effects ++ [Effect.insert family binary] ++ (callsSince M m1).map Effect.attach }

/-- `UProbeManager::AttachGoHTTP2Probes` with its trace. -/
def AttachGoHTTP2ProbesTraced (env : Env) (binary : String) (elf_reader : ElfReader)
    (dwarf_reader : DwarfReader) (pids : List Nat) (s : Traced) : StatusOr Nat × Traced :=
  let s0 : Traced := { m := enter Family.GoHTTP2 s.m, effects := s.effects }
  -- Step 1: Update BPF symaddrs for this binary.
  match UpdateGoHTTP2SymAddrsTraced env elf_reader dwarf_reader pids s0 with
  | (.error _, s1) => (.ok 0, s1)
  | (.ok _, s1) =>
    -- Step 2: Deploy uprobes on all new binaries.
    if binary ∈ s1.m.http2_probed_binaries_ then
      (.ok 0, s1)
    else
      ((AttachUProbeTmpl env env.kHTTP2ProbeTmpls binary elf_reader
          { s1.m with http2_probed_binaries_ := binary :: s1.m.http2_probed_binaries_ }).1,
        afterAttachLoop Family.GoHTTP2 binary s1.effects
          { s1.m with http2_probed_binaries_ := binary :: s1.m.http2_probed_binaries_ }
          (AttachUProbeTmpl env env.kHTTP2ProbeTmpls binary elf_reader
            { s1.m with http2_probed_binaries_ := binary :: s1.m.http2_probed_binaries_ }).2)

/-- `UProbeManager::AttachGoTLSUProbes` with its trace. -/
def AttachGoTLSUProbesTraced (env : Env) (binary : String) (elf_reader : ElfReader)
    (dwarf_reader : DwarfReader) (pids : List Nat) (s : Traced) : StatusOr Nat × Traced :=
  let s0 : Traced := { m := enter Family.GoTLS s.m, effects := s.effects }
  -- Step 1: Update BPF symbols_map on all new PIDs.
  match UpdateGoTLSSymAddrsTraced env elf_reader dwarf_reader pids s0 with
  | (.error _, s1) => (.ok 0, s1)
  | (.ok _, s1) =>
    -- Step 2: Deploy uprobes on all new binaries.
    if binary ∈ s1.m.go_tls_probed_binaries_ then
      (.ok 0, s1)
    else
      ((AttachUProbeTmpl env env.kGoTLSUProbeTmpls binary elf_reader
          { s1.m with go_tls_probed_binaries_ := binary :: s1.m.go_tls_probed_binaries_ }).1,
        afterAttachLoop Family.GoTLS binary s1.effects
          { s1.m with go_tls_probed_binaries_ := binary :: s1.m.go_tls_probed_binaries_ }
          (AttachUProbeTmpl env env.kGoTLSUProbeTmpls binary elf_reader
            { s1.m with go_tls_probed_binaries_ := binary :: s1.m.go_tls_probed_binaries_ }).2)

/-- `UProbeManager::AttachOpenSSLUProbes` with its trace. -/
def AttachOpenSSLUProbesTraced (env : Env) (pid : Nat) (s : Traced) : StatusOr Nat × Traced :=
  let s0 : Traced := { m := enter Family.OpenSSL s.m, effects := s.effects }
  -- Find paths to libssl.so and libcrypto.so for the pid, if they are in use (i.e. mapped).
  match FindLibraryPaths env ["libssl.so.1.1", "libcrypto.so.1.1"] pid with
  | .error e => (.error e, s0)
  | .ok container_lib_paths =>
    let container_libssl := container_lib_paths.getD 0 ""
    let container_libcrypto := container_lib_paths.getD 1 ""
    if container_libssl = "" ∨ container_libcrypto = "" then
      (.ok 0, s0)
    else
      let host_libssl := env.ToHostPath container_libssl
      let host_libcrypto := env.ToHostPath container_libcrypto
      match env.fs_Exists host_libssl with
      | .error e => (.error e, s0)
      | .ok _ =>
        match env.fs_Exists host_libcrypto with
        | .error e => (.error e, s0)
        | .ok _ =>
          match UpdateOpenSSLSymAddrsTraced env host_libcrypto pid s0 with
          | (.error e, s1) => (.error e, s1)
          | (.ok _, s1) =>
            -- Only try probing .so files that we haven't already set probes on.
            if host_libssl ∈ s1.m.openssl_probed_binaries_ then
              (.ok 0, s1)
            else
              match attachOpenSSLSpecs env host_libssl env.kOpenSSLUProbes
                  { s1.m with
                    openssl_probed_binaries_ := host_libssl :: s1.m.openssl_probed_binaries_ }
              with
              | (.error e, m2) =>
                (.error e,
                  afterAttachLoop Family.OpenSSL host_libssl s1.effects
                    { s1.m with
                      openssl_probed_binaries_ := host_libssl :: s1.m.openssl_probed_binaries_ }
                    m2)
              | (.ok _, m2) =>
                (.ok env.kOpenSSLUProbes.length,
                  afterAttachLoop Family.OpenSSL host_libssl s1.effects
                    { s1.m with
                      openssl_probed_binaries_ := host_libssl :: s1.m.openssl_probed_binaries_ }
                    m2)

/-- `UProbeManager::CleanupSymaddrMaps` with its trace. -/
def CleanupSymaddrMapsTraced : List UPID → Traced → Traced
  | [], s => s
  | pid :: rest, s =>
    CleanupSymaddrMapsTraced rest
      { m := { s.m with go_http2_symaddrs_map_ := s.m.go_http2_symaddrs_map_.remove_value pid.pid }
        effects := s.effects ++ [Effect.remove SymaddrTable.GoHTTP2 pid.pid] }

/-- The loop of `DeployOpenSSLUProbes` with its trace. -/
def deployOpenSSLLoopTraced (env : Env) : List UPID → Nat → Traced → Nat × Traced
  | [], uprobe_count, s => (uprobe_count, s)
  | pid :: rest, uprobe_count, s =>
    if s.m.cfg_disable_self_probing_ = true ∧ pid.pid = env.getpid then
      deployOpenSSLLoopTraced env rest uprobe_count s
    else
      match AttachOpenSSLUProbesTraced env pid.pid s with
      | (.error _, s1) => deployOpenSSLLoopTraced env rest uprobe_count s1
      | (.ok n, s1) => deployOpenSSLLoopTraced env rest (uprobe_count + n) s1

/-- `UProbeManager::DeployOpenSSLUProbes` with its trace. -/
def DeployOpenSSLUProbesTraced (env : Env) (pids : List UPID) (s : Traced) : Nat × Traced :=
  deployOpenSSLLoopTraced env pids 0 s

/-- The body of the loop of `DeployGoUProbes` with its trace. -/
def deployGoBinaryTraced (env : Env) (binary : String) (pid_vec : List Nat) (uprobe_count : Nat)
    (s : Traced) : Nat × Traced :=
  if s.m.cfg_disable_self_probing_ = true ∧ pid_vec.length = 1 ∧
      pid_vec.head? = some env.getpid then
    (uprobe_count, s)
  else
    match env.ElfReader_Create binary with
    | .error _ => (uprobe_count, s)
    | .ok elf_reader =>
      if (env.SymbolAddress elf_reader "runtime.buildVersion").isSome = false then
        (uprobe_count, s)
      else
        match env.DwarfReader_Create binary with
        | .error _ => (uprobe_count, s)
        | .ok dwarf_reader =>
          match UpdateGoCommonSymAddrsTraced env elf_reader dwarf_reader pid_vec s with
          | (.error _, s1) => (uprobe_count, s1)
          | (.ok _, s1) =>
            -- GoTLS Probes.
            let r2 := AttachGoTLSUProbesTraced env binary elf_reader dwarf_reader pid_vec s1
            let count2 :=
              match r2.1 with
              | .error _ => uprobe_count
              | .ok n => uprobe_count + n
            -- Go HTTP2 Probes.
            if r2.2.m.cfg_enable_http2_tracing_ = true then
              let r3 := AttachGoHTTP2ProbesTraced env binary elf_reader dwarf_reader pid_vec r2.2
              match r3.1 with
              | .error _ => (count2, r3.2)
              | .ok n => (count2 + n, r3.2)
            else
              (count2, r2.2)

/-- The loop of `DeployGoUProbes` with its trace. -/
def deployGoLoopTraced (env : Env) : List (String × List Nat) → Nat → Traced → Nat × Traced
  | [], uprobe_count, s => (uprobe_count, s)
  | (binary, pid_vec) :: rest, uprobe_count, s =>
    deployGoLoopTraced env rest (deployGoBinaryTraced env binary pid_vec uprobe_count s).1
      (deployGoBinaryTraced env binary pid_vec uprobe_count s).2

/-- `UProbeManager::DeployGoUProbes` with its trace. -/
def DeployGoUProbesTraced (env : Env) (pids : List UPID) (s : Traced) : Nat × Traced :=
  deployGoLoopTraced env (ConvertPIDsListToMap env pids) 0 s

/-- The loop of `PIDsToRescanForUProbes` with its trace. -/
def rescanLoopTraced (asid : Nat) :
    List (upid_t × Bool) → List UPID → Traced → List UPID × Traced
  | [], upids_to_rescan, s => (upids_to_rescan, s)
  | event :: rest, upids_to_rescan, s =>
    let pid := event.1
    let upid : UPID := { asid := asid, pid := pid.pid, start_ts := pid.start_time_ticks }
    let upids_to_rescan1 :=
      if upid ∈ s.m.proc_tracker_.upids ∧ upid ∉ s.m.proc_tracker_.new_upids then
        (if upid ∈ upids_to_rescan then upids_to_rescan else upids_to_rescan ++ [upid])
      else upids_to_rescan
    rescanLoopTraced asid rest upids_to_rescan1
      { m := { s.m with mmap_events_ := s.m.mmap_events_.remove_value pid }
        effects := s.effects ++ [Effect.mmapRemove pid] }

/-- `UProbeManager::PIDsToRescanForUProbes` with its trace. -/
def PIDsToRescanForUProbesTraced (s : Traced) : List UPID × Traced :=
  let mmap_event_entries := s.m.mmap_events_.get_table_offline
  match s.m.proc_tracker_.upids with
  | [] => ([], s)
  | first :: _ => rescanLoopTraced first.asid mmap_event_entries [] s

/-- The rescan statement of `DeployUProbes` with its trace. -/
def deployRescanTraced (env : Env) (uprobe_count : Nat) (s : Traced) : Nat × Traced :=
  if s.m.FLAGS_stirling_rescan_for_dlopen = true then
    (uprobe_count +
        (DeployOpenSSLUProbesTraced env (PIDsToRescanForUProbesTraced s).1
          (PIDsToRescanForUProbesTraced s).2).1,
      (DeployOpenSSLUProbesTraced env (PIDsToRescanForUProbesTraced s).1
        (PIDsToRescanForUProbesTraced s).2).2)
  else (uprobe_count, s)

/-- `UProbeManager::DeployUProbes` with its trace: the statements of the body in
the order of the source, each appending its effects. -/
def DeployUProbesTraced (env : Env) (pids : List UPID) (s : Traced) : Traced :=
  -- proc_tracker_.Update(pids);
  let s1 : Traced :=
    { m := { s.m with proc_tracker_ := s.m.proc_tracker_.Update pids }
      effects := s.effects ++ [Effect.trackerUpdate pids] }
  -- CleanupSymaddrMaps(proc_tracker_.deleted_upids());
  let s2 := CleanupSymaddrMapsTraced s1.m.proc_tracker_.deleted_upids s1
  -- uprobe_count += DeployOpenSSLUProbes(proc_tracker_.new_upids());
  let r3 := DeployOpenSSLUProbesTraced env s2.m.proc_tracker_.new_upids s2
  -- if (FLAGS_stirling_rescan_for_dlopen) { .. DeployOpenSSLUProbes(PIDsToRescanForUProbes()); }
  let r4 := deployRescanTraced env r3.1 r3.2
  -- uprobe_count += DeployGoUProbes(proc_tracker_.new_upids());
  let r5 := DeployGoUProbesTraced env r4.2.m.proc_tracker_.new_upids r4.2
  r5.2

/-- From `s` to `s1` the trace received further effects only, each of which
`P` holds of, and the attach effects among them are the requests the back end
received in between, in the same order. -/
def Performs (P : Effect → Prop) (s s1 : Traced) : Prop :=
  ∃ new, s1.effects = s.effects ++ new ∧ (∀ e ∈ new, P e) ∧
    s1.m.bcc_ = s.m.bcc_ ++ new.filterMap Effect.call?

/-- The host `http2Host` whose processes also map `libssl.so.1.1` and
`libcrypto.so.1.1`, with the OpenSSL probe list of `opensslHost`: every process
is an OpenSSL user and runs the Go binary `/agent`. -/
def mixedHost : Env :=
  { http2Host with
    kOpenSSLUProbes := opensslHost.kOpenSSLUProbes
    GetMapPaths := opensslHost.GetMapPaths
    OpenSSLSymAddrs := opensslHost.OpenSSLSymAddrs }

/-! ## Basic facts about the attach loops -/

@[simp]
theorem withCalls_nil (m : UProbeManager) : m.withCalls [] = m := by
  simp [withCalls]

@[simp]
theorem withCalls_withCalls (m : UProbeManager) (a b : List AttachCall) :
    (m.withCalls a).withCalls b = m.withCalls (a ++ b) := by
  simp [withCalls]

@[simp]
theorem withCalls_bcc (m : UProbeManager) (a : List AttachCall) :
    (m.withCalls a).bcc_ = m.bcc_ ++ a := rfl

@[simp]
theorem withCalls_ghost_family (m : UProbeManager) (a : List AttachCall) :
    (m.withCalls a).ghost_family = m.ghost_family := rfl

@[simp]
theorem withCalls_ghost_invocation (m : UProbeManager) (a : List AttachCall) :
    (m.withCalls a).ghost_invocation = m.ghost_invocation := rfl

@[simp]
theorem callsSince_withCalls (m : UProbeManager) (new : List AttachCall) :
    callsSince m (m.withCalls new) = new := by
  simp [callsSince]

theorem AttachUProbe_eq (env : Env) (spec : UProbeSpec) (m : UProbeManager) :
    AttachUProbe env spec m =
      (env.AttachUProbe m.bcc_ spec,
        m.withCalls [{ family := m.ghost_family, invocation := m.ghost_invocation,
                       spec := spec, status := env.AttachUProbe m.bcc_ spec }]) :=
  rfl

theorem status_cases (s : Status) : s = Status.OK ∨ ∃ e, s = .error e := by
  cases s with
  | ok v => left; rfl
  | error e => right; exact ⟨e, rfl⟩

theorem AttachOutcome_nil_ok {α : Type} (count : Nat) (countOf : α → Nat) (v : α)
    (h : countOf v = count) : AttachOutcome count countOf (.ok v) [] := by
  simp [AttachOutcome, h]

/-- A request that was accepted, followed by a run that ends as `AttachOutcome` says. -/
theorem AttachOutcome_cons {α : Type} (count : Nat) (countOf : α → Nat) (r : StatusOr α)
    (c : AttachCall) (new : List AttachCall) (hc : c.status = Status.OK)
    (h : AttachOutcome (count + 1) countOf r new) : AttachOutcome count countOf r (c :: new) := by
  cases r with
  | ok v =>
    obtain ⟨h1, h2⟩ := h
    refine ⟨by simp [h1]; omega, ?_⟩
    intro x hx
    rcases List.mem_cons.1 hx with rfl | hx
    · exact hc
    · exact h2 x hx
  | error e =>
    rcases h with hall | ⟨init, c', hn, hs, hall⟩
    · left
      intro x hx
      rcases List.mem_cons.1 hx with rfl | hx
      · exact hc
      · exact hall x hx
    · right
      refine ⟨c :: init, c', by simp [hn], hs, ?_⟩
      intro x hx
      rcases List.mem_cons.1 hx with rfl | hx
      · exact hc
      · exact hall x hx

/-- Two runs one after the other, the first one ending well. -/
theorem AttachOutcome_append {α : Type} (count mid : Nat) (countOf : α → Nat) (r : StatusOr α)
    (a b : List AttachCall) (ha : ∀ c ∈ a, c.status = Status.OK) (hmid : mid = count + a.length)
    (h : AttachOutcome mid countOf r b) : AttachOutcome count countOf r (a ++ b) := by
  induction a generalizing count with
  | nil => simpa [hmid] using h
  | cons c a ih =>
    refine AttachOutcome_cons count countOf r c (a ++ b) (ha c (List.mem_cons_self _ _)) ?_
    refine ih (count + 1) (fun x hx => ha x (List.mem_cons_of_mem _ hx)) ?_
    simp [hmid]; omega

theorem Ran_refl {α : Type} (P : Prop) (count0 : Nat) (countOf : α → Nat) (m : UProbeManager)
    (v : α) (h : countOf v = count0) : Ran P count0 countOf m (.ok v, m) :=
  ⟨[], by simp, AttachOutcome_nil_ok _ _ _ h, by simp [StatusOr.isOk]⟩

theorem Ran_fail_call {α : Type} (P : Prop) (count0 : Nat) (countOf : α → Nat)
    (m : UProbeManager) (c : AttachCall) (e : String) (h : c.status = .error e) :
    Ran P count0 countOf m (.error e, m.withCalls [c]) :=
  ⟨[c], rfl, Or.inr ⟨[], c, rfl, h, by simp⟩, fun _ _ => ⟨c, List.mem_singleton.2 rfl, by simp [h]⟩⟩

theorem Ran_fail_other {α : Type} (P : Prop) (count0 : Nat) (countOf : α → Nat)
    (m : UProbeManager) (e : String) (h : ¬ P) : Ran P count0 countOf m (.error e, m) :=
  ⟨[], by simp, Or.inl (by simp), fun hP => absurd hP h⟩

theorem Ran_cons {α : Type} (P : Prop) (count0 : Nat) (countOf : α → Nat) (m : UProbeManager)
    (c : AttachCall) (res : StatusOr α × UProbeManager) (hc : c.status = Status.OK)
    (h : Ran P (count0 + 1) countOf (m.withCalls [c]) res) : Ran P count0 countOf m res := by
  obtain ⟨new, h1, h2, h3⟩ := h
  refine ⟨c :: new, by simp [h1], AttachOutcome_cons _ _ _ _ _ hc h2, ?_⟩
  intro hP hf
  obtain ⟨x, hx, hs⟩ := h3 hP hf
  exact ⟨x, List.mem_cons_of_mem _ hx, hs⟩

theorem Ran_trans {α β : Type} (P : Prop) (count0 : Nat) (countOf1 : β → Nat) (countOf : α → Nat)
    (m m1 : UProbeManager) (v : β) (res : StatusOr α × UProbeManager)
    (h1 : Ran P count0 countOf1 m (.ok v, m1)) (h2 : Ran P (countOf1 v) countOf m1 res) :
    Ran P count0 countOf m res := by
  obtain ⟨a, ha1, ⟨ha2, ha3⟩, _⟩ := h1
  obtain ⟨b, hb1, hb2, hb3⟩ := h2
  simp only at ha1
  refine ⟨a ++ b, by simp [hb1, ha1], AttachOutcome_append _ _ _ _ _ _ ha3 ha2 hb2, ?_⟩
  intro hP hf
  obtain ⟨x, hx, hs⟩ := hb3 hP hf
  exact ⟨x, List.mem_append_right _ hx, hs⟩

theorem Ran_error {α β : Type} (P : Prop) (count0 : Nat) (countOf1 : β → Nat) (countOf : α → Nat)
    (m m1 : UProbeManager) (e : String) (h : Ran P count0 countOf1 m (.error e, m1)) :
    Ran P count0 countOf m (.error e, m1) := by
  obtain ⟨a, ha1, ha2, ha3⟩ := h
  exact ⟨a, ha1, ha2, ha3⟩

/-- The return-address loop. -/
theorem attachRetInstAddrs_ran (env : Env) (P : Prop) (addrs : List Nat) :
    ∀ (spec : UProbeSpec) (count : Nat) (m : UProbeManager),
      Ran P count (fun v => v.2) m (attachRetInstAddrs env addrs spec count m) := by
  induction addrs with
  | nil =>
    intro spec count m
    exact Ran_refl _ _ _ _ _ rfl
  | cons a rest ih =>
    intro spec count m
    simp only [attachRetInstAddrs, AttachUProbe_eq]
    rcases status_cases (env.AttachUProbe m.bcc_
        { spec with attach_type := BPFProbeAttachType.kEntry, address := a }) with h | ⟨e, h⟩
    · rw [h]
      exact Ran_cons _ _ _ _ _ _ rfl (ih _ _ _)
    · rw [h]
      exact Ran_fail_call _ _ _ _ _ _ rfl

theorem Ran_mono {α : Type} (P Q : Prop) (count0 : Nat) (countOf : α → Nat) (m : UProbeManager)
    (res : StatusOr α × UProbeManager) (hPQ : Q → P) (h : Ran P count0 countOf m res) :
    Ran Q count0 countOf m res := by
  obtain ⟨a, ha1, ha2, ha3⟩ := h
  exact ⟨a, ha1, ha2, fun hQ => ha3 (hPQ hQ)⟩

/-- The switch on the attach type, for one symbol. -/
theorem attachSymbolInfo_ran (env : Env) (elf : ElfReader) (tmpl : UProbeTmpl) (s : SymbolInfo)
    (spec : UProbeSpec) (count : Nat) (m : UProbeManager) :
    Ran (RetInstsOk env elf tmpl [s]) count (fun v => v.2) m
      (attachSymbolInfo env elf tmpl s spec count m) := by
  unfold attachSymbolInfo
  split
  · simp only [AttachUProbe_eq]
    rcases status_cases (env.AttachUProbe m.bcc_ { spec with symbol := s.name }) with h | ⟨e, h⟩
    · rw [h]
      exact Ran_cons _ _ _ _ _ _ rfl (Ran_refl _ _ _ _ _ rfl)
    · rw [h]
      exact Ran_fail_call _ _ _ _ _ _ rfl
  · simp only [AttachUProbe_eq]
    rcases status_cases (env.AttachUProbe m.bcc_ { spec with symbol := s.name }) with h | ⟨e, h⟩
    · rw [h]
      exact Ran_cons _ _ _ _ _ _ rfl (Ran_refl _ _ _ _ _ rfl)
    · rw [h]
      exact Ran_fail_call _ _ _ _ _ _ rfl
  · rename_i hty
    split
    · rename_i e he
      refine Ran_fail_other _ _ _ _ _ ?_
      intro hall
      have := hall hty s (List.mem_singleton.2 rfl)
      simp [he, StatusOr.isOk] at this
    · exact attachRetInstAddrs_ran _ _ _ _ _ _
  · exact Ran_refl _ _ _ _ _ rfl

/-- The loop over the symbols of one template. -/
theorem attachSymbolInfos_ran (env : Env) (elf : ElfReader) (tmpl : UProbeTmpl)
    (syms : List SymbolInfo) :
    ∀ (spec : UProbeSpec) (count : Nat) (m : UProbeManager),
      Ran (RetInstsOk env elf tmpl syms) count (fun v => v.2) m
        (attachSymbolInfos env elf tmpl syms spec count m) := by
  induction syms with
  | nil =>
    intro spec count m
    exact Ran_refl _ _ _ _ _ rfl
  | cons s rest ih =>
    intro spec count m
    simp only [attachSymbolInfos]
    have h := Ran_mono _ (RetInstsOk env elf tmpl (s :: rest)) _ _ _ _
      (fun hq hty x hx => hq hty x (by simp at hx; simp [hx]))
      (attachSymbolInfo_ran env elf tmpl s spec count m)
    revert h
    generalize attachSymbolInfo env elf tmpl s spec count m = r
    intro h
    rcases r with ⟨_ | e, m1⟩
    · rename_i v
      exact Ran_trans _ _ _ _ _ _ _ _ h
        (Ran_mono _ _ _ _ _ _ (fun hq hty x hx => hq hty x (List.mem_cons_of_mem _ hx)) (ih _ _ _))
    · exact Ran_error _ _ _ _ _ _ _ h

/-- The loop over the templates. -/
theorem attachTmpls_ran (env : Env) (binary : String) (elf : ElfReader) (tmpls : List UProbeTmpl) :
    ∀ (count : Nat) (m : UProbeManager),
      Ran (AllRetInstsOk env elf tmpls) count id m
        (attachTmpls env binary elf tmpls count m) := by
  induction tmpls with
  | nil =>
    intro count m
    exact Ran_refl _ _ _ _ _ rfl
  | cons t rest ih =>
    intro count m
    simp only [attachTmpls]
    have hrest : AllRetInstsOk env elf (t :: rest) → AllRetInstsOk env elf rest :=
      fun hq x hx => hq x (List.mem_cons_of_mem _ hx)
    split
    · exact Ran_mono _ _ _ _ _ _ hrest (ih _ _)
    · rename_i syms hsyms
      have h := Ran_mono _ (AllRetInstsOk env elf (t :: rest)) _ _ _ _
        (fun hq => hq t (List.mem_cons_self _ _) syms hsyms)
        (attachSymbolInfos_ran env elf t syms (tmplSpec env binary t) count m)
      revert h
      generalize attachSymbolInfos env elf t syms (tmplSpec env binary t) count m = r
      intro h
      rcases r with ⟨_ | e, m1⟩
      · rename_i v
        exact Ran_trans _ _ _ _ _ _ _ _ h (Ran_mono _ _ _ _ _ _ hrest (ih _ _))
      · exact Ran_error _ _ _ _ _ _ _ h

/-- The template loop on `pre ++ rest` runs `pre` and, if that ends well, `rest`. -/
theorem attachTmpls_append (env : Env) (binary : String) (elf : ElfReader)
    (pre rest : List UProbeTmpl) :
    ∀ (count : Nat) (m : UProbeManager),
      attachTmpls env binary elf (pre ++ rest) count m =
        match attachTmpls env binary elf pre count m with
        | (.ok c, m1) => attachTmpls env binary elf rest c m1
        | (.error e, m1) => (.error e, m1) := by
  induction pre with
  | nil => intro count m; rfl
  | cons t pre ih =>
    intro count m
    simp only [List.cons_append, attachTmpls]
    split
    · exact ih _ _
    · split
      · rfl
      · exact ih _ _

/-- The symbol loop on `pre ++ rest` runs `pre` and, if that ends well, `rest`. -/
theorem attachSymbolInfos_append (env : Env) (elf : ElfReader) (tmpl : UProbeTmpl)
    (pre rest : List SymbolInfo) :
    ∀ (spec : UProbeSpec) (count : Nat) (m : UProbeManager),
      attachSymbolInfos env elf tmpl (pre ++ rest) spec count m =
        match attachSymbolInfos env elf tmpl pre spec count m with
        | (.ok (spec1, c), m1) => attachSymbolInfos env elf tmpl rest spec1 c m1
        | (.error e, m1) => (.error e, m1) := by
  induction pre with
  | nil => intro spec count m; rfl
  | cons s pre ih =>
    intro spec count m
    simp only [List.cons_append, attachSymbolInfos]
    split
    · rfl
    · exact ih _ _ _

/-! ## C6, C7: the requests issued for one symbol -/

/-- The return-address loop changes only the attach type and the address of the spec. -/
theorem attachRetInstAddrs_spec (env : Env) (addrs : List Nat) :
    ∀ (spec : UProbeSpec) (count : Nat) (m : UProbeManager) (spec1 : UProbeSpec) (c1 : Nat)
      (m1 : UProbeManager),
      attachRetInstAddrs env addrs spec count m = (.ok (spec1, c1), m1) →
        spec1.binary_path = spec.binary_path ∧ spec1.symbol = spec.symbol ∧
          spec1.pid = spec.pid ∧ spec1.probe_fn = spec.probe_fn := by
  induction addrs with
  | nil =>
    intro spec count m spec1 c1 m1 h
    simp only [attachRetInstAddrs, Prod.mk.injEq, StatusOr.ok.injEq] at h
    obtain ⟨⟨rfl, _⟩, _⟩ := h
    simp
  | cons a rest ih =>
    intro spec count m spec1 c1 m1 h
    simp only [attachRetInstAddrs] at h
    split at h
    · simp at h
    · simpa using ih _ _ _ _ _ _ h

/-- The switch changes only the symbol of the spec (entry and return templates)
or only its attach type and address (return-instruction templates). -/
theorem attachSymbolInfo_spec (env : Env) (elf : ElfReader) (tmpl : UProbeTmpl) (s : SymbolInfo)
    (spec : UProbeSpec) (count : Nat) (m : UProbeManager) (spec1 : UProbeSpec) (c1 : Nat)
    (m1 : UProbeManager) (h : attachSymbolInfo env elf tmpl s spec count m = (.ok (spec1, c1), m1)) :
    spec1.binary_path = spec.binary_path ∧ spec1.pid = spec.pid ∧ spec1.probe_fn = spec.probe_fn ∧
      (tmpl.attach_type ≠ BPFProbeAttachType.kReturnInsts →
        spec1.address = spec.address ∧ spec1.attach_type = spec.attach_type) ∧
      (tmpl.attach_type = BPFProbeAttachType.kReturnInsts → spec1.symbol = spec.symbol) := by
  unfold attachSymbolInfo at h
  split at h
  · rename_i hty
    simp only [AttachUProbe_eq] at h
    split at h
    · simp at h
    · simp only [Prod.mk.injEq, StatusOr.ok.injEq] at h
      obtain ⟨⟨rfl, _⟩, _⟩ := h
      simp [hty]
  · rename_i hty
    simp only [AttachUProbe_eq] at h
    split at h
    · simp at h
    · simp only [Prod.mk.injEq, StatusOr.ok.injEq] at h
      obtain ⟨⟨rfl, _⟩, _⟩ := h
      simp [hty]
  · rename_i hty
    split at h
    · simp at h
    · obtain ⟨h1, h2, h3, h4⟩ := attachRetInstAddrs_spec _ _ _ _ _ _ _ _ h
      exact ⟨h1, h3, h4, fun hne => absurd hty hne, fun _ => h2⟩
  · rename_i hty
    simp only [Prod.mk.injEq, StatusOr.ok.injEq] at h
    obtain ⟨⟨rfl, _⟩, _⟩ := h
    simp [hty]

/-- The symbol loop changes the spec as `attachSymbolInfo_spec` says. -/
theorem attachSymbolInfos_spec (env : Env) (elf : ElfReader) (tmpl : UProbeTmpl)
    (syms : List SymbolInfo) :
    ∀ (spec : UProbeSpec) (count : Nat) (m : UProbeManager) (spec1 : UProbeSpec) (c1 : Nat)
      (m1 : UProbeManager),
      attachSymbolInfos env elf tmpl syms spec count m = (.ok (spec1, c1), m1) →
        spec1.binary_path = spec.binary_path ∧ spec1.pid = spec.pid ∧
          spec1.probe_fn = spec.probe_fn ∧
          (tmpl.attach_type ≠ BPFProbeAttachType.kReturnInsts →
            spec1.address = spec.address ∧ spec1.attach_type = spec.attach_type) ∧
          (tmpl.attach_type = BPFProbeAttachType.kReturnInsts → spec1.symbol = spec.symbol) := by
  induction syms with
  | nil =>
    intro spec count m spec1 c1 m1 h
    simp only [attachSymbolInfos, Prod.mk.injEq, StatusOr.ok.injEq] at h
    obtain ⟨⟨rfl, _⟩, _⟩ := h
    simp
  | cons s rest ih =>
    intro spec count m spec1 c1 m1 h
    simp only [attachSymbolInfos] at h
    split at h
    · simp at h
    · rename_i spec2 c2 m2 h2
      obtain ⟨a1, a2, a3, a4, a5⟩ := attachSymbolInfo_spec _ _ _ _ _ _ _ _ _ _ h2
      obtain ⟨b1, b2, b3, b4, b5⟩ := ih _ _ _ _ _ _ h
      refine ⟨b1.trans a1, b2.trans a2, b3.trans a3, ?_, ?_⟩
      · intro hne
        exact ⟨(b4 hne).1.trans (a4 hne).1, (b4 hne).2.trans (a4 hne).2⟩
      · intro he
        exact (b5 he).trans (a5 he)

/-- Where `AttachUProbeTmpl` stands once the templates `pre` and the symbols
`spre` of the next template `t` have been processed without an error. -/
theorem AttachUProbeTmpl_resume (env : Env) (pre post : List UProbeTmpl) (t : UProbeTmpl)
    (spre spost : List SymbolInfo) (s : SymbolInfo) (binary : String) (elf : ElfReader)
    (m m0 m1 : UProbeManager) (c0 c1 : Nat) (spec1 : UProbeSpec)
    (hsyms : env.ListFuncSymbols elf t.symbol t.match_type = .ok (spre ++ s :: spost))
    (hpre : AttachUProbeTmpl env pre binary elf m = (.ok c0, m0))
    (hspre : attachSymbolInfos env elf t spre (tmplSpec env binary t) c0 m0
      = (.ok (spec1, c1), m1)) :
    AttachUProbeTmpl env (pre ++ t :: post) binary elf m =
      resumeAfterSymbol env binary elf t spost post (attachSymbolInfo env elf t s spec1 c1 m1) := by
  unfold AttachUProbeTmpl at hpre ⊢
  rw [attachTmpls_append, hpre]
  simp only [attachTmpls, hsyms]
  rw [attachSymbolInfos_append, hspre]
  simp only [attachSymbolInfos, resumeAfterSymbol]
  rcases attachSymbolInfo env elf t s spec1 c1 m1 with ⟨_ | e, m2⟩
  · rfl
  · rfl

/-- C7, as stated, fails. The entry template matches `foo` and `bar`, and the
back end rejects the request for `foo`: `AttachUProbeTmpl` returns that error at
once, and no request is issued for `bar`. -/
theorem AttachUProbeTmpl_no_request_after_rejection :
    rejectingBackEnd.ListFuncSymbols { binary := "/bin/foo" } fooEntryTmpl.symbol
        fooEntryTmpl.match_type = .ok [fooSymbol, barSymbol] ∧
      (AttachUProbeTmpl rejectingBackEnd [fooEntryTmpl] "/bin/foo" { binary := "/bin/foo" }
          freshManager).1 = .error "attach rejected" ∧
      (callsSince freshManager
          (AttachUProbeTmpl rejectingBackEnd [fooEntryTmpl] "/bin/foo" { binary := "/bin/foo" }
            freshManager).2).map (fun c => c.spec.symbol) = ["foo"] := by
  decide

/-- C7, amended. When the loops of `AttachUProbeTmpl` reach symbol `s` of a template `t`
whose attach type is `kEntry` or `kReturn` (the templates `pre` before `t` and
the symbols `spre` before `s` were processed without an error), processing `s`
issues exactly one `AttachUProbe` request: it carries the symbol's name,
address 0, the template's attach type, the given binary path and the template's
probe function. If it is accepted the count grows by one, otherwise its error is
returned; the run of `AttachUProbeTmpl` is this step followed by the remaining
symbols and templates. -/
theorem AttachUProbeTmpl_entry_or_return_symbol (env : Env) (pre post : List UProbeTmpl)
    (t : UProbeTmpl) (spre spost : List SymbolInfo) (s : SymbolInfo) (binary : String)
    (elf_reader : ElfReader) (m m0 m1 : UProbeManager) (c0 c1 : Nat) (spec1 : UProbeSpec)
    (hty : t.attach_type = BPFProbeAttachType.kEntry ∨ t.attach_type = BPFProbeAttachType.kReturn)
    (hsyms : env.ListFuncSymbols elf_reader t.symbol t.match_type = .ok (spre ++ s :: spost))
    (hpre : AttachUProbeTmpl env pre binary elf_reader m = (.ok c0, m0))
    (hspre : attachSymbolInfos env elf_reader t spre (tmplSpec env binary t) c0 m0
      = (.ok (spec1, c1), m1)) :
    attachSymbolInfo env elf_reader t s spec1 c1 m1 =
        ((match env.AttachUProbe m1.bcc_ (symbolSpec env binary t s) with
          | .ok _ => .ok (symbolSpec env binary t s, c1 + 1)
          | .error e => .error e),
         m1.withCalls [{ family := m1.ghost_family, invocation := m1.ghost_invocation,
                         spec := symbolSpec env binary t s,
                         status := env.AttachUProbe m1.bcc_ (symbolSpec env binary t s) }]) ∧
      AttachUProbeTmpl env (pre ++ t :: post) binary elf_reader m =
        resumeAfterSymbol env binary elf_reader t spost post
          (attachSymbolInfo env elf_reader t s spec1 c1 m1) := by
  refine ⟨?_, AttachUProbeTmpl_resume env pre post t spre spost s binary elf_reader m m0 m1 c0 c1
    spec1 hsyms hpre hspre⟩
  obtain ⟨h1, h2, h3, h4, _⟩ := attachSymbolInfos_spec _ _ _ _ _ _ _ _ _ _ hspre
  have hne : t.attach_type ≠ BPFProbeAttachType.kReturnInsts := by
    rcases hty with h | h <;> simp [h]
  obtain ⟨h5, h6⟩ := h4 hne
  have hspec : { spec1 with symbol := s.name } = symbolSpec env binary t s := by
    simp only [tmplSpec] at h1 h2 h3 h5 h6
    simp [symbolSpec, h1, h2, h3, h5, h6]
  unfold attachSymbolInfo
  rcases hty with h | h
  · simp only [h, AttachUProbe_eq]
    rw [hspec]
    rcases env.AttachUProbe m1.bcc_ (symbolSpec env binary t s) with _ | e <;> rfl
  · simp only [h, AttachUProbe_eq]
    rw [hspec]
    rcases env.AttachUProbe m1.bcc_ (symbolSpec env binary t s) with _ | e <;> rfl

/-- The amended C7 on `threeReturns`: the entry template for `foo` gives one request, for
the symbol `foo` at address 0. -/
theorem AttachUProbeTmpl_entry_or_return_symbol_witness :
    attachSymbolInfo threeReturns { binary := "/bin/foo" } fooEntryTmpl fooSymbol
        (tmplSpec threeReturns "/bin/foo" fooEntryTmpl) 0 freshManager =
        ((match threeReturns.AttachUProbe freshManager.bcc_
              (symbolSpec threeReturns "/bin/foo" fooEntryTmpl fooSymbol) with
          | .ok _ => .ok (symbolSpec threeReturns "/bin/foo" fooEntryTmpl fooSymbol, 0 + 1)
          | .error e => .error e),
         freshManager.withCalls
           [{ family := freshManager.ghost_family, invocation := freshManager.ghost_invocation,
              spec := symbolSpec threeReturns "/bin/foo" fooEntryTmpl fooSymbol,
              status := threeReturns.AttachUProbe freshManager.bcc_
                (symbolSpec threeReturns "/bin/foo" fooEntryTmpl fooSymbol) }]) ∧
      AttachUProbeTmpl threeReturns ([] ++ fooEntryTmpl :: [fooReturnTmpl]) "/bin/foo"
          { binary := "/bin/foo" } freshManager =
        resumeAfterSymbol threeReturns "/bin/foo" { binary := "/bin/foo" } fooEntryTmpl []
          [fooReturnTmpl]
          (attachSymbolInfo threeReturns { binary := "/bin/foo" } fooEntryTmpl fooSymbol
            (tmplSpec threeReturns "/bin/foo" fooEntryTmpl) 0 freshManager) :=
  AttachUProbeTmpl_entry_or_return_symbol threeReturns [] [fooReturnTmpl] fooEntryTmpl [] []
    fooSymbol "/bin/foo" { binary := "/bin/foo" } freshManager freshManager freshManager 0 0
    (tmplSpec threeReturns "/bin/foo" fooEntryTmpl) (Or.inl rfl) (by decide) rfl rfl

/-- The return-address loop when no request is rejected: one entry request per
address, in list order. -/
theorem attachRetInstAddrs_all_ok (env : Env) (hok : ∀ log spec, env.AttachUProbe log spec = Status.OK)
    (addrs : List Nat) :
    ∀ (spec : UProbeSpec) (count : Nat) (m : UProbeManager),
      ∃ spec2, attachRetInstAddrs env addrs spec count m =
        (.ok (spec2, count + addrs.length),
          m.withCalls (addrs.map (fun a =>
            { family := m.ghost_family, invocation := m.ghost_invocation,
              spec := { spec with attach_type := BPFProbeAttachType.kEntry, address := a },
              status := Status.OK }))) := by
  induction addrs with
  | nil => intro spec count m; exact ⟨spec, by simp [attachRetInstAddrs]⟩
  | cons a rest ih =>
    intro spec count m
    simp only [attachRetInstAddrs, AttachUProbe_eq, hok]
    obtain ⟨spec2, h⟩ := ih { spec with attach_type := BPFProbeAttachType.kEntry, address := a }
      (count + 1) (m.withCalls [{ family := m.ghost_family, invocation := m.ghost_invocation,
                                  spec := { spec with attach_type := BPFProbeAttachType.kEntry,
                                                      address := a },
                                  status := Status.OK }])
    refine ⟨spec2, ?_⟩
    rw [h]
    simp [Nat.add_assoc, Nat.add_comm 1]

/-- C6, as stated, fails. The return template matches `foo` and `bar`, no
attach request is rejected, and `FuncRetInstAddrs` returns three addresses for
`bar`; but it fails for `foo`, `AttachUProbeTmpl` returns that error at once,
and no request is issued for `bar`. -/
theorem AttachUProbeTmpl_no_request_after_failed_disassembly :
    brokenFirstSymbol.ListFuncSymbols { binary := "/bin/foo" } fooReturnTmpl.symbol
        fooReturnTmpl.match_type = .ok [fooSymbol, barSymbol] ∧
      brokenFirstSymbol.FuncRetInstAddrs { binary := "/bin/foo" } barSymbol
        = .ok [4100, 4120, 4140] ∧
      (∀ log spec, brokenFirstSymbol.AttachUProbe log spec = Status.OK) ∧
      (AttachUProbeTmpl brokenFirstSymbol [fooReturnTmpl] "/bin/foo" { binary := "/bin/foo" }
          freshManager).1 = .error "cannot disassemble" ∧
      callsSince freshManager
          (AttachUProbeTmpl brokenFirstSymbol [fooReturnTmpl] "/bin/foo" { binary := "/bin/foo" }
            freshManager).2 = [] :=
  ⟨by decide, by decide, fun _ _ => rfl, by decide, by decide⟩

/-- C6, amended. When the loops of `AttachUProbeTmpl` reach symbol `s` of a template `t`
whose attach type is `kReturnInsts` (the templates `pre` before `t` and the
symbols `spre` before `s` were processed without an error), `FuncRetInstAddrs`
returns `addrs` for `s`, and no attach request is rejected, then processing `s`
issues exactly one request per address, in list order: each is an entry probe
(`kEntry`) at that address, with the given binary path and the template's probe
function; the count grows by the number of addresses, and the run of
`AttachUProbeTmpl` is this step followed by the remaining symbols and templates. -/
theorem AttachUProbeTmpl_return_insts_symbol (env : Env) (pre post : List UProbeTmpl)
    (t : UProbeTmpl) (spre spost : List SymbolInfo) (s : SymbolInfo) (addrs : List Nat)
    (binary : String) (elf_reader : ElfReader) (m m0 m1 : UProbeManager) (c0 c1 : Nat)
    (spec1 : UProbeSpec)
    (hty : t.attach_type = BPFProbeAttachType.kReturnInsts)
    (hsyms : env.ListFuncSymbols elf_reader t.symbol t.match_type = .ok (spre ++ s :: spost))
    (hret : env.FuncRetInstAddrs elf_reader s = .ok addrs)
    (hok : ∀ log spec, env.AttachUProbe log spec = Status.OK)
    (hpre : AttachUProbeTmpl env pre binary elf_reader m = (.ok c0, m0))
    (hspre : attachSymbolInfos env elf_reader t spre (tmplSpec env binary t) c0 m0
      = (.ok (spec1, c1), m1)) :
    (∃ spec2, attachSymbolInfo env elf_reader t s spec1 c1 m1 =
        (.ok (spec2, c1 + addrs.length),
         m1.withCalls (addrs.map (fun a =>
           { family := m1.ghost_family, invocation := m1.ghost_invocation,
             spec := retInstSpec env binary t a, status := Status.OK })))) ∧
      AttachUProbeTmpl env (pre ++ t :: post) binary elf_reader m =
        resumeAfterSymbol env binary elf_reader t spost post
          (attachSymbolInfo env elf_reader t s spec1 c1 m1) := by
  refine ⟨?_, AttachUProbeTmpl_resume env pre post t spre spost s binary elf_reader m m0 m1 c0 c1
    spec1 hsyms hpre hspre⟩
  obtain ⟨h1, h2, h3, _, h5⟩ := attachSymbolInfos_spec _ _ _ _ _ _ _ _ _ _ hspre
  have h6 := h5 hty
  have hspec : ∀ a, { spec1 with attach_type := BPFProbeAttachType.kEntry, address := a }
      = retInstSpec env binary t a := by
    intro a
    simp only [tmplSpec] at h1 h2 h3 h6
    simp [retInstSpec, h1, h2, h3, h6]
  obtain ⟨spec2, h⟩ := attachRetInstAddrs_all_ok env hok addrs spec1 c1 m1
  refine ⟨spec2, ?_⟩
  unfold attachSymbolInfo
  simp only [hty, hret]
  rw [h]
  simp only [hspec]

/-- The amended C6 on `threeReturns`: the return template for `foo` gives three entry
requests, at 4100, 4120 and 4140. -/
theorem AttachUProbeTmpl_return_insts_symbol_witness :
    (∃ spec2, attachSymbolInfo threeReturns { binary := "/bin/foo" } fooReturnTmpl fooSymbol
        (tmplSpec threeReturns "/bin/foo" fooReturnTmpl) 0 freshManager =
        (.ok (spec2, 0 + [4100, 4120, 4140].length),
         freshManager.withCalls ([4100, 4120, 4140].map (fun a =>
           { family := freshManager.ghost_family, invocation := freshManager.ghost_invocation,
             spec := retInstSpec threeReturns "/bin/foo" fooReturnTmpl a,
             status := Status.OK })))) ∧
      AttachUProbeTmpl threeReturns ([] ++ fooReturnTmpl :: []) "/bin/foo"
          { binary := "/bin/foo" } freshManager =
        resumeAfterSymbol threeReturns "/bin/foo" { binary := "/bin/foo" } fooReturnTmpl [] []
          (attachSymbolInfo threeReturns { binary := "/bin/foo" } fooReturnTmpl fooSymbol
            (tmplSpec threeReturns "/bin/foo" fooReturnTmpl) 0 freshManager) :=
  AttachUProbeTmpl_return_insts_symbol threeReturns [] [] fooReturnTmpl [] [] fooSymbol
    [4100, 4120, 4140] "/bin/foo" { binary := "/bin/foo" } freshManager freshManager freshManager
    0 0 (tmplSpec threeReturns "/bin/foo" fooReturnTmpl) rfl (by decide) rfl (fun _ _ => rfl)
    rfl rfl

/-! ## C8, C9: the count and the errors of `AttachUProbeTmpl` -/

/-- C8. `AttachUProbeTmpl` only appends attach requests to the back end. If every
request it issued was accepted and every `FuncRetInstAddrs` call succeeds, it
returns OK with the number of requests it issued (and whenever it returns OK, the
value is that number and every request was accepted). If a request was rejected,
that request is the last one issued, every earlier one was accepted, and its
error is the error returned. -/
theorem AttachUProbeTmpl_count_or_first_failure (env : Env) (probe_tmpls : List UProbeTmpl)
    (binary : String) (elf_reader : ElfReader) (m : UProbeManager) :
    (AttachUProbeTmpl env probe_tmpls binary elf_reader m).2 =
        m.withCalls (callsSince m (AttachUProbeTmpl env probe_tmpls binary elf_reader m).2) ∧
      ((∀ c ∈ callsSince m (AttachUProbeTmpl env probe_tmpls binary elf_reader m).2,
            c.status = Status.OK) →
          AllRetInstsOk env elf_reader probe_tmpls →
          (AttachUProbeTmpl env probe_tmpls binary elf_reader m).1 =
            .ok (callsSince m (AttachUProbeTmpl env probe_tmpls binary elf_reader m).2).length) ∧
      (∀ n, (AttachUProbeTmpl env probe_tmpls binary elf_reader m).1 = .ok n →
          n = (callsSince m (AttachUProbeTmpl env probe_tmpls binary elf_reader m).2).length ∧
          ∀ c ∈ callsSince m (AttachUProbeTmpl env probe_tmpls binary elf_reader m).2,
            c.status = Status.OK) ∧
      (∀ c ∈ callsSince m (AttachUProbeTmpl env probe_tmpls binary elf_reader m).2,
          ∀ e, c.status = .error e →
            (AttachUProbeTmpl env probe_tmpls binary elf_reader m).1 = .error e ∧
            ∃ init, callsSince m (AttachUProbeTmpl env probe_tmpls binary elf_reader m).2
                = init ++ [c] ∧ ∀ x ∈ init, x.status = Status.OK) := by
  obtain ⟨new, h1, h2, h3⟩ := attachTmpls_ran env binary elf_reader probe_tmpls 0 m
  change (AttachUProbeTmpl env probe_tmpls binary elf_reader m).2 = _ at h1
  change AttachOutcome 0 id (AttachUProbeTmpl env probe_tmpls binary elf_reader m).1 new at h2
  change _ → (AttachUProbeTmpl env probe_tmpls binary elf_reader m).1.isOk = false → _ at h3
  rw [h1, callsSince_withCalls]
  revert h2 h3
  generalize (AttachUProbeTmpl env probe_tmpls binary elf_reader m).1 = r
  intro h2 h3
  refine ⟨rfl, ?_, ?_, ?_⟩
  · intro hall hP
    cases r with
    | ok n =>
      obtain ⟨hn, _⟩ := h2
      simp only [id] at hn
      simp [hn]
    | error e =>
      obtain ⟨c, hc, hs⟩ := h3 hP rfl
      exact absurd (hall c hc) hs
  · intro n hn
    subst hn
    obtain ⟨hn, hall⟩ := h2
    simp only [id] at hn
    exact ⟨by simp [hn], hall⟩
  · intro c hc e he
    cases r with
    | ok n =>
      have := h2.2 c hc
      rw [he] at this
      cases this
    | error e' =>
      rcases h2 with hall | ⟨init, c', hn, hs, hall⟩
      · have := hall c hc
        rw [he] at this
        cases this
      · rw [hn] at hc
        rcases List.mem_append.1 hc with hc | hc
        · have := hall c hc
          rw [he] at this
          cases this
        · have hcc : c = c' := List.mem_singleton.1 hc
          subst hcc
          rw [he] at hs
          cases hs
          exact ⟨rfl, init, hn, hall⟩

/-- C9. A template whose `ListFuncSymbols` call fails, or returns no symbol, is
skipped: the result and the final state of `AttachUProbeTmpl`, the requests
sent to the back end included, are those of the list without that template. -/
theorem AttachUProbeTmpl_skips_unlisted_symbol (env : Env) (pre post : List UProbeTmpl)
    (t : UProbeTmpl) (binary : String) (elf_reader : ElfReader) (m : UProbeManager)
    (h : (∃ e, env.ListFuncSymbols elf_reader t.symbol t.match_type = .error e) ∨
      env.ListFuncSymbols elf_reader t.symbol t.match_type = .ok []) :
    AttachUProbeTmpl env (pre ++ t :: post) binary elf_reader m =
      AttachUProbeTmpl env (pre ++ post) binary elf_reader m := by
  unfold AttachUProbeTmpl
  rw [attachTmpls_append, attachTmpls_append]
  have key : ∀ c m1, attachTmpls env binary elf_reader (t :: post) c m1 =
      attachTmpls env binary elf_reader post c m1 := by
    intro c m1
    rcases h with ⟨e, h⟩ | h
    · simp [attachTmpls, h]
    · simp [attachTmpls, h, attachSymbolInfos]
  split
  · exact key _ _
  · rfl

/-- C9 on `threeReturns`: the template for the missing symbol, between two
templates for `foo`, is skipped. -/
theorem AttachUProbeTmpl_skips_unlisted_symbol_witness :
    AttachUProbeTmpl threeReturns ([fooEntryTmpl] ++ missingTmpl :: [fooReturnTmpl]) "/bin/foo"
        { binary := "/bin/foo" } freshManager =
      AttachUProbeTmpl threeReturns ([fooEntryTmpl] ++ [fooReturnTmpl]) "/bin/foo"
        { binary := "/bin/foo" } freshManager :=
  AttachUProbeTmpl_skips_unlisted_symbol threeReturns [fooEntryTmpl] [fooReturnTmpl] missingTmpl
    "/bin/foo" { binary := "/bin/foo" } freshManager (Or.inl ⟨"symbol not found", by decide⟩)

/-! ## The effect of the `Attach*` functions -/

theorem Frame_refl (m : UProbeManager) : Frame m m := ⟨rfl, rfl, rfl, rfl, rfl⟩

theorem Frame_trans {m m1 m2 : UProbeManager} (h1 : Frame m m1) (h2 : Frame m1 m2) :
    Frame m m2 := by
  obtain ⟨a1, a2, a3, a4, a5⟩ := h1
  obtain ⟨b1, b2, b3, b4, b5⟩ := h2
  exact ⟨b1.trans a1, b2.trans a2, b3.trans a3, b4.trans a4, b5.trans a5⟩

theorem Frame_withCalls (m : UProbeManager) (new : List AttachCall) : Frame m (m.withCalls new) :=
  ⟨rfl, rfl, rfl, rfl, rfl⟩

theorem AttachedOnce_step {F : Family} {P : String → Prop} {m m1 : UProbeManager}
    (hJ : AttachedOnce m) (h : AttachStep F P m m1) : AttachedOnce m1 := by
  obtain ⟨ha, hb, hc⟩ := hJ
  obtain ⟨_, hinv, hother, hcase⟩ := h
  have hsub : ∀ G x, x ∈ m.probed G → x ∈ m1.probed G := by
    intro G x hx
    by_cases hG : G = F
    · subst hG
      rcases hcase with ⟨_, h2⟩ | ⟨b, new, _, _, h2, _⟩
      · rw [h2]; exact hx
      · rw [h2]; exact List.mem_cons_of_mem _ hx
    · rw [hother G hG]; exact hx
  rcases hcase with ⟨h1, _⟩ | ⟨b, new, _, hnot, hset, hlog, hnew⟩
  · refine ⟨?_, ?_, ?_⟩
    · intro c hc'
      rw [h1] at hc'
      exact hsub _ _ (ha c hc')
    · intro c hc'
      rw [h1] at hc'
      have := hb c hc'
      omega
    · rw [h1]; exact hc
  · refine ⟨?_, ?_, ?_⟩
    · intro c hc'
      rw [hlog] at hc'
      rcases List.mem_append.1 hc' with h | h
      · exact hsub _ _ (ha c h)
      · obtain ⟨h1, _, h3⟩ := hnew c h
        rw [h1, h3, hset]
        exact List.mem_cons_self _ _
    · intro c hc'
      rw [hlog] at hc'
      rcases List.mem_append.1 hc' with h | h
      · have := hb c h
        omega
      · rw [(hnew c h).2.1]
    · intro c1 h1 c2 h2 hf hp
      rw [hlog] at h1 h2
      rcases List.mem_append.1 h1 with h1 | h1 <;> rcases List.mem_append.1 h2 with h2 | h2
      · exact hc c1 h1 c2 h2 hf hp
      · exfalso
        obtain ⟨e1, _, e3⟩ := hnew c2 h2
        apply hnot
        have := ha c1 h1
        rwa [hf, e1, hp, e3] at this
      · exfalso
        obtain ⟨e1, _, e3⟩ := hnew c1 h1
        apply hnot
        have := ha c2 h2
        rwa [← hf, e1, ← hp, e3] at this
      · rw [(hnew c1 h1).2.1, (hnew c2 h2).2.1]

theorem Pass_refl (Q : AttachCall → Prop) (m : UProbeManager) : Pass Q m m :=
  ⟨Frame_refl m, id, [], by simp, by simp⟩

theorem Pass_trans {Q : AttachCall → Prop} {m m1 m2 : UProbeManager} (h1 : Pass Q m m1)
    (h2 : Pass Q m1 m2) : Pass Q m m2 := by
  obtain ⟨f1, j1, a, ha, hqa⟩ := h1
  obtain ⟨f2, j2, b, hb, hqb⟩ := h2
  refine ⟨Frame_trans f1 f2, fun h => j2 (j1 h), a ++ b, by simp [hb, ha], ?_⟩
  intro c hc
  rcases List.mem_append.1 hc with h | h
  · exact hqa c h
  · exact hqb c h

theorem Pass_mono {Q R : AttachCall → Prop} {m m1 : UProbeManager} (hQR : ∀ c, Q c → R c)
    (h : Pass Q m m1) : Pass R m m1 := by
  obtain ⟨f1, j1, a, ha, hqa⟩ := h
  exact ⟨f1, j1, a, ha, fun c hc => hQR c (hqa c hc)⟩

theorem Pass_of_step {F : Family} {P : String → Prop} {m m1 : UProbeManager}
    (h : AttachStep F P m m1) : Pass (fun c => c.family = F ∧ P c.spec.binary_path) m m1 := by
  refine ⟨h.1, fun hJ => AttachedOnce_step hJ h, ?_⟩
  obtain ⟨_, _, _, hcase⟩ := h
  rcases hcase with ⟨h1, _⟩ | ⟨b, new, hP, _, _, hlog, hnew⟩
  · exact ⟨[], by simp [h1], by simp⟩
  · refine ⟨new, hlog, ?_⟩
    intro c hc
    obtain ⟨e1, _, e3⟩ := hnew c hc
    exact ⟨e1, by rw [e3]; exact hP⟩

theorem AttachUProbe_snd (env : Env) (spec : UProbeSpec) (m m1 : UProbeManager) (st : Status)
    (h : AttachUProbe env spec m = (st, m1)) :
    m1 = m.withCalls [{ family := m.ghost_family, invocation := m.ghost_invocation,
                        spec := spec, status := st }] := by
  simp only [AttachUProbe_eq, Prod.mk.injEq] at h
  obtain ⟨rfl, rfl⟩ := h
  rfl

theorem Emits_refl (f : Family) (n : Nat) (b : String) (m : UProbeManager) : Emits f n b m m :=
  ⟨[], by simp, by simp⟩

theorem Emits_one (b : String) (m : UProbeManager) (spec : UProbeSpec) (st : Status)
    (hb : spec.binary_path = b) :
    Emits m.ghost_family m.ghost_invocation b m
      (m.withCalls [{ family := m.ghost_family, invocation := m.ghost_invocation,
                      spec := spec, status := st }]) :=
  ⟨[_], rfl, by simp [hb]⟩

theorem Emits_trans {f : Family} {n : Nat} {b : String} {m m1 m2 : UProbeManager}
    (h1 : Emits f n b m m1) (h2 : Emits f n b m1 m2) : Emits f n b m m2 := by
  obtain ⟨a, rfl, ha⟩ := h1
  obtain ⟨c, rfl, hc⟩ := h2
  refine ⟨a ++ c, by simp, ?_⟩
  intro x hx
  rcases List.mem_append.1 hx with h | h
  · exact ha x h
  · exact hc x h

theorem Emits_ghost {f : Family} {n : Nat} {b : String} {m m1 : UProbeManager}
    (h : Emits f n b m m1) :
    m1.ghost_family = m.ghost_family ∧ m1.ghost_invocation = m.ghost_invocation := by
  obtain ⟨a, rfl, _⟩ := h
  exact ⟨rfl, rfl⟩

/-- The return-address loop tags its requests. -/
theorem attachRetInstAddrs_emits (env : Env) (b : String) (addrs : List Nat) :
    ∀ (spec : UProbeSpec) (count : Nat) (m : UProbeManager), spec.binary_path = b →
      Emits m.ghost_family m.ghost_invocation b m (attachRetInstAddrs env addrs spec count m).2 := by
  induction addrs with
  | nil =>
    intro spec count m _
    exact Emits_refl _ _ _ _
  | cons a rest ih =>
    intro spec count m hb
    simp only [attachRetInstAddrs]
    split
    · rename_i e m1 heq
      have h := AttachUProbe_snd _ _ _ _ _ heq
      subst h
      exact Emits_one b m _ _ hb
    · rename_i v m1 heq
      have h := AttachUProbe_snd _ _ _ _ _ heq
      subst h
      refine Emits_trans ?_ (ih _ _ _ hb)
      exact Emits_one b m _ _ hb

/-- The switch tags its requests. -/
theorem attachSymbolInfo_emits (env : Env) (elf : ElfReader) (tmpl : UProbeTmpl) (b : String)
    (s : SymbolInfo) (spec : UProbeSpec) (count : Nat) (m : UProbeManager)
    (hb : spec.binary_path = b) :
    Emits m.ghost_family m.ghost_invocation b m
      (attachSymbolInfo env elf tmpl s spec count m).2 := by
  unfold attachSymbolInfo
  split
  · simp only []
    split
    · rename_i e m1 heq
      have h := AttachUProbe_snd _ _ _ _ _ heq
      subst h
      exact Emits_one b m _ _ hb
    · rename_i v m1 heq
      have h := AttachUProbe_snd _ _ _ _ _ heq
      subst h
      exact Emits_one b m _ _ hb
  · simp only []
    split
    · rename_i e m1 heq
      have h := AttachUProbe_snd _ _ _ _ _ heq
      subst h
      exact Emits_one b m _ _ hb
    · rename_i v m1 heq
      have h := AttachUProbe_snd _ _ _ _ _ heq
      subst h
      exact Emits_one b m _ _ hb
  · split
    · exact Emits_refl _ _ _ _
    · exact attachRetInstAddrs_emits env b _ _ _ _ hb
  · exact Emits_refl _ _ _ _

/-- The symbol loop tags its requests. -/
theorem attachSymbolInfos_emits (env : Env) (elf : ElfReader) (tmpl : UProbeTmpl) (b : String)
    (syms : List SymbolInfo) :
    ∀ (spec : UProbeSpec) (count : Nat) (m : UProbeManager), spec.binary_path = b →
      Emits m.ghost_family m.ghost_invocation b m
        (attachSymbolInfos env elf tmpl syms spec count m).2 := by
  induction syms with
  | nil =>
    intro spec count m _
    exact Emits_refl _ _ _ _
  | cons s rest ih =>
    intro spec count m hb
    simp only [attachSymbolInfos]
    have ha := attachSymbolInfo_emits env elf tmpl b s spec count m hb
    split
    · rename_i e m1 heq
      rw [heq] at ha
      exact ha
    · rename_i spec1 c1 m1 heq
      have hb1 : spec1.binary_path = b :=
        (attachSymbolInfo_spec _ _ _ _ _ _ _ _ _ _ heq).1.trans hb
      rw [heq] at ha
      have hn := ih spec1 c1 m1 hb1
      rw [(Emits_ghost ha).1, (Emits_ghost ha).2] at hn
      exact Emits_trans ha hn

/-- The template loop tags its requests. -/
theorem attachTmpls_emits (env : Env) (binary : String) (elf : ElfReader)
    (tmpls : List UProbeTmpl) :
    ∀ (count : Nat) (m : UProbeManager),
      Emits m.ghost_family m.ghost_invocation binary m
        (attachTmpls env binary elf tmpls count m).2 := by
  induction tmpls with
  | nil =>
    intro count m
    exact Emits_refl _ _ _ _
  | cons t rest ih =>
    intro count m
    simp only [attachTmpls]
    split
    · exact ih _ _
    · rename_i syms _
      have ha := attachSymbolInfos_emits env elf t binary syms (tmplSpec env binary t) count m rfl
      split
      · rename_i e m1 heq
        rw [heq] at ha
        exact ha
      · rename_i spec1 c1 m1 heq
        rw [heq] at ha
        have hn := ih c1 m1
        rw [(Emits_ghost ha).1, (Emits_ghost ha).2] at hn
        exact Emits_trans ha hn

/-- The OpenSSL attach loop tags its requests. -/
theorem attachOpenSSLSpecs_emits (env : Env) (b : String) (specs : List UProbeSpec) :
    ∀ (m : UProbeManager),
      Emits m.ghost_family m.ghost_invocation b m (attachOpenSSLSpecs env b specs m).2 := by
  induction specs with
  | nil =>
    intro m
    exact Emits_refl _ _ _ _
  | cons sp rest ih =>
    intro m
    simp only [attachOpenSSLSpecs]
    split
    · rename_i e m1 heq
      have h := AttachUProbe_snd _ _ _ _ _ heq
      subst h
      exact Emits_one b m _ _ rfl
    · rename_i v m1 heq
      have h := AttachUProbe_snd _ _ _ _ _ heq
      subst h
      refine Emits_trans ?_ (ih _)
      exact Emits_one b m _ _ rfl

@[simp]
theorem probed_withCalls (m : UProbeManager) (a : List AttachCall) (G : Family) :
    (m.withCalls a).probed G = m.probed G := by
  cases G <;> rfl

/-- `AttachGoTLSUProbes` is an attach step of the Go-TLS family on `binary`. -/
theorem AttachGoTLSUProbes_step (env : Env) (binary : String) (elf : ElfReader)
    (dwarf : DwarfReader) (pids : List Nat) (m : UProbeManager) :
    AttachStep Family.GoTLS (fun b => b = binary) m
      (AttachGoTLSUProbes env binary elf dwarf pids m).2 := by
  unfold AttachGoTLSUProbes UpdateGoTLSSymAddrs
  simp only []
  cases env.GoTLSSymAddrs elf dwarf with
  | error e =>
    refine ⟨⟨rfl, rfl, rfl, rfl, rfl⟩, rfl, ?_, Or.inl ⟨rfl, rfl⟩⟩
    intro G _
    cases G <;> rfl
  | ok symaddrs =>
    simp only []
    split
    · refine ⟨⟨rfl, rfl, rfl, rfl, rfl⟩, rfl, ?_, Or.inl ⟨rfl, rfl⟩⟩
      intro G _
      cases G <;> rfl
    · rename_i hnot
      obtain ⟨new, hm, hnew⟩ := attachTmpls_emits env binary elf env.kGoTLSUProbeTmpls 0
        { (enter Family.GoTLS m) with
          go_tls_symaddrs_map_ :=
            updateValues (env.update_value_code "go_tls_symaddrs_map") symaddrs pids
              (enter Family.GoTLS m).go_tls_symaddrs_map_,
          go_tls_probed_binaries_ := binary :: (enter Family.GoTLS m).go_tls_probed_binaries_ }
      unfold AttachUProbeTmpl
      simp only [enter] at hm hnew hnot ⊢
      rw [hm]
      refine ⟨⟨rfl, rfl, rfl, rfl, rfl⟩, rfl, ?_, Or.inr ⟨binary, new, rfl, hnot, rfl, rfl, hnew⟩⟩
      intro G hG
      cases G <;> first | rfl | exact absurd rfl hG

/-- `AttachGoHTTP2Probes` is an attach step of the Go-HTTP/2 family on `binary`. -/
theorem AttachGoHTTP2Probes_step (env : Env) (binary : String) (elf : ElfReader)
    (dwarf : DwarfReader) (pids : List Nat) (m : UProbeManager) :
    AttachStep Family.GoHTTP2 (fun b => b = binary) m
      (AttachGoHTTP2Probes env binary elf dwarf pids m).2 := by
  unfold AttachGoHTTP2Probes UpdateGoHTTP2SymAddrs
  simp only []
  cases env.GoHTTP2SymAddrs elf dwarf with
  | error e =>
    refine ⟨⟨rfl, rfl, rfl, rfl, rfl⟩, rfl, ?_, Or.inl ⟨rfl, rfl⟩⟩
    intro G _
    cases G <;> rfl
  | ok symaddrs =>
    simp only []
    split
    · refine ⟨⟨rfl, rfl, rfl, rfl, rfl⟩, rfl, ?_, Or.inl ⟨rfl, rfl⟩⟩
      intro G _
      cases G <;> rfl
    · rename_i hnot
      obtain ⟨new, hm, hnew⟩ := attachTmpls_emits env binary elf env.kHTTP2ProbeTmpls 0
        { (enter Family.GoHTTP2 m) with
          go_http2_symaddrs_map_ :=
            updateValues (env.update_value_code "http2_symaddrs_map") symaddrs pids
              (enter Family.GoHTTP2 m).go_http2_symaddrs_map_,
          http2_probed_binaries_ := binary :: (enter Family.GoHTTP2 m).http2_probed_binaries_ }
      unfold AttachUProbeTmpl
      simp only [enter] at hm hnew hnot ⊢
      rw [hm]
      refine ⟨⟨rfl, rfl, rfl, rfl, rfl⟩, rfl, ?_, Or.inr ⟨binary, new, rfl, hnot, rfl, rfl, hnew⟩⟩
      intro G hG
      cases G <;> first | rfl | exact absurd rfl hG

/-- A state that differs from `enter F m` at most in the symbol tables is an
attach step that issues no request. -/
theorem AttachStep_quiet (F : Family) (P : String → Prop) (m m1 : UProbeManager)
    (hf : Frame m m1) (hi : m1.ghost_invocation = m.ghost_invocation + 1)
    (hp : ∀ G, m1.probed G = m.probed G) (hb : m1.bcc_ = m.bcc_) : AttachStep F P m m1 :=
  ⟨hf, hi, fun G _ => hp G, Or.inl ⟨hb, hp F⟩⟩

/-- A state `M` that differs from `enter F m` in the symbol tables and by the
insertion of a new binary `b` in the family's set, followed by requests tagged
for `b`, is an attach step. -/
theorem AttachStep_of_emits (F : Family) (P : String → Prop) (m M r : UProbeManager) (b : String)
    (hE : Emits M.ghost_family M.ghost_invocation b M r)
    (hf : Frame m M) (hF : M.ghost_family = F)
    (hi : M.ghost_invocation = m.ghost_invocation + 1)
    (hp : ∀ G, G ≠ F → M.probed G = m.probed G) (hnot : b ∉ m.probed F)
    (hset : M.probed F = b :: m.probed F) (hb : M.bcc_ = m.bcc_) (hP : P b) :
    AttachStep F P m r := by
  obtain ⟨new, rfl, hnew⟩ := hE
  refine ⟨Frame_trans hf (Frame_withCalls _ _), hi, ?_, Or.inr ⟨b, new, hP, hnot, ?_, ?_, ?_⟩⟩
  · intro G hG
    simpa using hp G hG
  · simpa using hset
  · simp [hb]
  · intro c hc
    obtain ⟨h1, h2, h3⟩ := hnew c hc
    exact ⟨h1.trans hF, by simpa using h2, h3⟩

/-- The end of `AttachOpenSSLUProbes`: the attach loop and the returned value. -/
theorem attachOpenSSLSpecs_result_emits (env : Env) (b : String) (specs : List UProbeSpec)
    (n : Nat) (M : UProbeManager) :
    Emits M.ghost_family M.ghost_invocation b M
      (match attachOpenSSLSpecs env b specs M with
        | (StatusOr.error e, m2) => ((StatusOr.error e : StatusOr Nat), m2)
        | (StatusOr.ok _, m2) => (StatusOr.ok n, m2)).2 := by
  have h := attachOpenSSLSpecs_emits env b specs M
  revert h
  generalize attachOpenSSLSpecs env b specs M = r
  intro h
  rcases r with ⟨_ | _, _⟩ <;> exact h

/-- `AttachOpenSSLUProbes` is an attach step of the OpenSSL family. -/
theorem AttachOpenSSLUProbes_step (env : Env) (pid : Nat) (m : UProbeManager) :
    AttachStep Family.OpenSSL (fun _ => True) m (AttachOpenSSLUProbes env pid m).2 := by
  have hq : AttachStep Family.OpenSSL (fun _ => True) m (enter Family.OpenSSL m) :=
    AttachStep_quiet _ _ _ _ ⟨rfl, rfl, rfl, rfl, rfl⟩ rfl (fun G => by cases G <;> rfl) rfl
  unfold AttachOpenSSLUProbes
  simp only []
  split
  · exact hq
  · split
    · exact hq
    · split
      · exact hq
      · split
        · exact hq
        · unfold UpdateOpenSSLSymAddrs
          split
          · rename_i e m1 heq
            split at heq
            · simp only [Prod.mk.injEq] at heq
              obtain ⟨_, rfl⟩ := heq
              exact hq
            · simp at heq
          · rename_i v m1 heq
            split at heq
            · simp at heq
            · rename_i symaddrs _
              simp only [Prod.mk.injEq] at heq
              obtain ⟨_, rfl⟩ := heq
              split
              · exact AttachStep_quiet _ _ _ _ ⟨rfl, rfl, rfl, rfl, rfl⟩ rfl
                  (fun G => by cases G <;> rfl) rfl
              · rename_i hnot
                refine AttachStep_of_emits _ _ _ _ _ _
                  (attachOpenSSLSpecs_result_emits env _ _ _ _)
                  ⟨rfl, rfl, rfl, rfl, rfl⟩ rfl rfl ?_ hnot rfl rfl trivial
                intro G hG
                cases G <;> first | rfl | exact absurd rfl hG

/-! ## The deployment passes -/

/-- A change that touches neither the frame, the back end, the probed-binary
sets nor the invocation counter is a pass that issues nothing. -/
theorem Pass_quiet (Q : AttachCall → Prop) (m m1 : UProbeManager) (hf : Frame m m1)
    (hb : m1.bcc_ = m.bcc_) (hp : ∀ G, m1.probed G = m.probed G)
    (hi : m1.ghost_invocation = m.ghost_invocation) : Pass Q m m1 := by
  refine ⟨hf, ?_, [], by simp [hb], by simp⟩
  rintro ⟨h1, h2, h3⟩
  refine ⟨?_, ?_, ?_⟩
  · intro c hc
    rw [hb] at hc
    rw [hp]
    exact h1 c hc
  · intro c hc
    rw [hb] at hc
    rw [hi]
    exact h2 c hc
  · rw [hb]
    exact h3

/-- The OpenSSL pass issues OpenSSL requests only. -/
theorem deployOpenSSLLoop_pass (env : Env) (pids : List UPID) :
    ∀ (count : Nat) (m : UProbeManager),
      Pass (fun c => c.family = Family.OpenSSL) m (deployOpenSSLLoop env pids count m).2 := by
  induction pids with
  | nil => intro count m; exact Pass_refl _ _
  | cons pid rest ih =>
    intro count m
    simp only [deployOpenSSLLoop]
    split
    · exact ih _ _
    · have h := Pass_mono (R := fun c => c.family = Family.OpenSSL) (fun c hc => hc.1)
        (Pass_of_step (AttachOpenSSLUProbes_step env pid.pid m))
      revert h
      generalize AttachOpenSSLUProbes env pid.pid m = r
      intro h
      rcases r with ⟨_ | _, m1⟩
      · exact Pass_trans h (ih _ _)
      · exact Pass_trans h (ih _ _)

/-- `UpdateGoCommonSymAddrs` touches the Go-common table only. -/
theorem UpdateGoCommonSymAddrs_pass (Q : AttachCall → Prop) (env : Env) (elf : ElfReader)
    (dwarf : DwarfReader) (pids : List Nat) (m : UProbeManager) :
    Pass Q m (UpdateGoCommonSymAddrs env elf dwarf pids m).2 := by
  unfold UpdateGoCommonSymAddrs
  split
  · exact Pass_refl _ _
  · exact Pass_quiet _ _ _ ⟨rfl, rfl, rfl, rfl, rfl⟩ rfl (fun G => by cases G <;> rfl) rfl

/-- One entry of the Go pass: Go-TLS and Go-HTTP/2 requests for `binary` only,
and none when the entry is skipped as the agent itself. -/
theorem deployGoBinary_pass (env : Env) (binary : String) (pid_vec : List Nat) (count : Nat)
    (m : UProbeManager) :
    Pass (fun c => c.family ≠ Family.OpenSSL ∧ c.spec.binary_path = binary ∧
        ¬ skipsSelf env m.cfg_disable_self_probing_ pid_vec) m
      (deployGoBinary env binary pid_vec count m).2 := by
  unfold deployGoBinary
  split
  · exact Pass_refl _ _
  · rename_i hskip
    split
    · exact Pass_refl _ _
    · rename_i elf _
      split
      · exact Pass_refl _ _
      · split
        · exact Pass_refl _ _
        · rename_i dwarf _
          have h1 := UpdateGoCommonSymAddrs_pass (fun c => c.family ≠ Family.OpenSSL ∧
            c.spec.binary_path = binary ∧ ¬ skipsSelf env m.cfg_disable_self_probing_ pid_vec)
            env elf dwarf pid_vec m
          revert h1
          generalize UpdateGoCommonSymAddrs env elf dwarf pid_vec m = r1
          intro h1
          rcases r1 with ⟨_ | _, m1⟩
          · simp only []
            have h2 : Pass (fun c => c.family ≠ Family.OpenSSL ∧ c.spec.binary_path = binary ∧
                ¬ skipsSelf env m.cfg_disable_self_probing_ pid_vec) m1
                (AttachGoTLSUProbes env binary elf dwarf pid_vec m1).2 :=
              Pass_mono (fun c hc => ⟨by simp [hc.1], hc.2, hskip⟩)
                (Pass_of_step (AttachGoTLSUProbes_step env binary elf dwarf pid_vec m1))
            have h3 : Pass (fun c => c.family ≠ Family.OpenSSL ∧ c.spec.binary_path = binary ∧
                ¬ skipsSelf env m.cfg_disable_self_probing_ pid_vec)
                (AttachGoTLSUProbes env binary elf dwarf pid_vec m1).2
                (AttachGoHTTP2Probes env binary elf dwarf pid_vec
                  (AttachGoTLSUProbes env binary elf dwarf pid_vec m1).2).2 :=
              Pass_mono (fun c hc => ⟨by simp [hc.1], hc.2, hskip⟩)
                (Pass_of_step (AttachGoHTTP2Probes_step env binary elf dwarf pid_vec _))
            split
            · have h : Pass (fun c => c.family ≠ Family.OpenSSL ∧ c.spec.binary_path = binary ∧
                  ¬ skipsSelf env m.cfg_disable_self_probing_ pid_vec) m
                  (AttachGoHTTP2Probes env binary elf dwarf pid_vec
                    (AttachGoTLSUProbes env binary elf dwarf pid_vec m1).2).2 :=
                Pass_trans h1 (Pass_trans h2 h3)
              split <;> exact h
            · exact Pass_trans h1 h2
          · exact h1

/-- The Go pass over the entries of the map. -/
theorem deployGoLoop_pass (env : Env) (self : Bool) (all : List (String × List Nat))
    (entries : List (String × List Nat)) :
    ∀ (count : Nat) (m : UProbeManager), m.cfg_disable_self_probing_ = self →
      (∀ e ∈ entries, e ∈ all) →
      Pass (GoCall env self all) m (deployGoLoop env entries count m).2 := by
  induction entries with
  | nil => intro count m _ _; exact Pass_refl _ _
  | cons e rest ih =>
    intro count m hself hsub
    obtain ⟨binary, pid_vec⟩ := e
    simp only [deployGoLoop]
    have h1 : Pass (GoCall env self all) m (deployGoBinary env binary pid_vec count m).2 :=
      Pass_mono (fun c hc => ⟨hc.1, (binary, pid_vec), hsub _ (List.mem_cons_self _ _), hc.2.1,
        by rw [← hself]; exact hc.2.2⟩) (deployGoBinary_pass env binary pid_vec count m)
    refine Pass_trans h1 (ih _ _ ?_ (fun e he => hsub e (List.mem_cons_of_mem _ he)))
    rw [h1.1.2.1, hself]

/-- `CleanupSymaddrMaps` changes the Go-HTTP/2 table only. -/
theorem CleanupSymaddrMaps_eq (deleted : List UPID) :
    ∀ (m : UProbeManager),
      CleanupSymaddrMaps deleted m =
        { m with
          go_http2_symaddrs_map_ :=
            deleted.foldl (fun t u => BPFHashTable.remove_value t u.pid) m.go_http2_symaddrs_map_ } := by
  induction deleted with
  | nil => intro m; rfl
  | cons u rest ih => intro m; rw [CleanupSymaddrMaps, ih]; rfl

/-- The rescan loop changes the mmap-event table only: it removes the keys of
the events it walks over. -/
theorem rescanLoop_snd (asid : Nat) (events : List (upid_t × Bool)) :
    ∀ (acc : List UPID) (m : UProbeManager),
      (rescanLoop asid events acc m).2 =
        { m with
          mmap_events_ :=
            events.foldl (fun t ev => BPFHashTable.remove_value t ev.1) m.mmap_events_ } := by
  induction events with
  | nil => intro acc m; rfl
  | cons ev rest ih => intro acc m; rw [rescanLoop, ih]; rfl

/-- At-most-once attach only reads the back end, the probed-binary sets and the
invocation counter. -/
theorem AttachedOnce_congr (m m1 : UProbeManager) (hb : m1.bcc_ = m.bcc_)
    (hp : ∀ G, m1.probed G = m.probed G) (hi : m1.ghost_invocation = m.ghost_invocation)
    (h : AttachedOnce m) : AttachedOnce m1 := by
  obtain ⟨h1, h2, h3⟩ := h
  refine ⟨?_, ?_, ?_⟩
  · intro c hc
    rw [hb] at hc
    rw [hp]
    exact h1 c hc
  · intro c hc
    rw [hb] at hc
    rw [hi]
    exact h2 c hc
  · rw [hb]
    exact h3

/-- `PIDsToRescanForUProbes` changes the mmap-event table only. -/
theorem PIDsToRescanForUProbes_snd (m : UProbeManager) :
    ∃ t, (PIDsToRescanForUProbes m).2 = { m with mmap_events_ := t } := by
  unfold PIDsToRescanForUProbes
  simp only []
  split
  · exact ⟨m.mmap_events_, rfl⟩
  · exact ⟨_, rescanLoop_snd _ _ _ _⟩

/-- The rescan statement issues OpenSSL requests only, and keeps everything but
the mmap-event table. -/
theorem deployRescan_attachedOnce (env : Env) (count : Nat) (m : UProbeManager)
    (h : AttachedOnce m) : AttachedOnce (deployRescan env count m).2 := by
  unfold deployRescan
  split
  · obtain ⟨t, ht⟩ := PIDsToRescanForUProbes_snd m
    refine (deployOpenSSLLoop_pass env _ 0 _).2.1 ?_
    rw [ht]
    exact AttachedOnce_congr m _ rfl (fun G => by cases G <;> rfl) rfl h
  · exact h

/-- `DeployUProbes` keeps at-most-once attach. -/
theorem DeployUProbes_attachedOnce (env : Env) (pids : List UPID) (m : UProbeManager)
    (h : AttachedOnce m) : AttachedOnce (DeployUProbes env pids m) := by
  unfold DeployUProbes deployUProbesCount
  simp only []
  refine (deployGoLoop_pass env _ _ _ 0 _ rfl (fun e he => he)).2.1 ?_
  refine deployRescan_attachedOnce env _ _ ?_
  refine (deployOpenSSLLoop_pass env _ 0 _).2.1 ?_
  rw [CleanupSymaddrMaps_eq]
  exact AttachedOnce_congr m _ rfl (fun G => by cases G <;> rfl) rfl h

/-- Setting the flags keeps at-most-once attach. -/
theorem setFlags_attachedOnce (a b c : Bool) (m : UProbeManager) (h : AttachedOnce m) :
    AttachedOnce (setFlags a b c m) :=
  AttachedOnce_congr m _ rfl (fun G => by cases G <;> rfl) rfl h

/-- A sequence of deployments keeps at-most-once attach. -/
theorem runDeploys_attachedOnce (calls : List DeployCall) :
    ∀ (m : UProbeManager), AttachedOnce m → AttachedOnce (runDeploys calls m) := by
  induction calls with
  | nil => intro m h; exact h
  | cons call rest ih =>
    intro m h
    exact ih _ (DeployUProbes_attachedOnce _ _ _ (setFlags_attachedOnce _ _ _ _ h))

/-! ## C1: at-most-once attach per (binary, family) -/

/-- C1. After any sequence of `DeployUProbes` calls on a freshly initialised
manager (any observations, any flag settings before each call, any outcomes of
the collaborators, any content of the tables): two attach requests received by
the back end for the same family and the same binary path were issued by the
same invocation of that family's `Attach*` function, and every binary a request
was issued for is in the family's probed-binary set. -/
theorem DeployUProbes_attaches_each_binary_once (calls : List DeployCall)
    (enable_http2_tracing disable_self_probing rescan_for_dlopen : Bool)
    (openssl : BPFHashTable Nat openssl_symaddrs_t)
    (go_common : BPFHashTable Nat go_common_symaddrs_t)
    (go_http2 : BPFHashTable Nat go_http2_symaddrs_t)
    (go_tls : BPFHashTable Nat go_tls_symaddrs_t)
    (mmap_events : BPFHashTable upid_t Bool) :
    (∀ c1 ∈ (runDeploys calls (Init enable_http2_tracing disable_self_probing rescan_for_dlopen
          openssl go_common go_http2 go_tls mmap_events)).bcc_,
      ∀ c2 ∈ (runDeploys calls (Init enable_http2_tracing disable_self_probing rescan_for_dlopen
          openssl go_common go_http2 go_tls mmap_events)).bcc_,
        c1.family = c2.family → c1.spec.binary_path = c2.spec.binary_path →
          c1.invocation = c2.invocation) ∧
      (∀ c ∈ (runDeploys calls (Init enable_http2_tracing disable_self_probing rescan_for_dlopen
          openssl go_common go_http2 go_tls mmap_events)).bcc_,
        c.spec.binary_path ∈
          (runDeploys calls (Init enable_http2_tracing disable_self_probing rescan_for_dlopen
            openssl go_common go_http2 go_tls mmap_events)).probed c.family) := by
  have h0 : AttachedOnce (Init enable_http2_tracing disable_self_probing rescan_for_dlopen
      openssl go_common go_http2 go_tls mmap_events) :=
    ⟨by simp [Init], by simp [Init], by simp [Init]⟩
  obtain ⟨h1, _, h3⟩ := runDeploys_attachedOnce calls _ h0
  exact ⟨h3, h1⟩

/-! ## C2, C4: the tracker and a repeated observation -/

theorem ConvertPIDsListToMap_nil (env : Env) : ConvertPIDsListToMap env [] = [] := by
  unfold ConvertPIDsListToMap
  split <;> rfl

theorem DeployGoUProbes_nil (env : Env) (m : UProbeManager) : DeployGoUProbes env [] m = (0, m) := by
  simp [DeployGoUProbes, ConvertPIDsListToMap_nil, deployGoLoop]

theorem DeployOpenSSLUProbes_nil (env : Env) (m : UProbeManager) :
    DeployOpenSSLUProbes env [] m = (0, m) := rfl

/-- Removing the keys of `events` one after the other. -/
theorem foldl_remove_value (events : List (upid_t × Bool)) :
    ∀ (t : BPFHashTable upid_t Bool),
      events.foldl (fun t ev => BPFHashTable.remove_value t ev.1) t =
        t.filter (fun kv => decide (∀ ev ∈ events, kv.1 ≠ ev.1)) := by
  induction events with
  | nil => intro t; simp
  | cons ev rest ih =>
    intro t
    rw [List.foldl_cons, ih]
    simp only [BPFHashTable.remove_value, List.filter_filter]
    congr 1
    funext kv
    by_cases h1 : kv.1 = ev.1 <;> by_cases h2 : ∀ e ∈ rest, kv.1 ≠ e.1 <;> simp [h1, h2]

/-- Draining a table by the keys of its own snapshot empties it. -/
theorem foldl_remove_value_self (t : BPFHashTable upid_t Bool) :
    t.foldl (fun t ev => BPFHashTable.remove_value t ev.1) t = [] := by
  rw [foldl_remove_value, List.filter_eq_nil_iff]
  intro kv hkv
  simp only [decide_eq_true_eq, not_forall]
  exact ⟨kv, hkv, fun h => h rfl⟩

/-- The passes of `DeployUProbes` keep the frame. -/
theorem DeployOpenSSLUProbes_frame (env : Env) (pids : List UPID) (m : UProbeManager) :
    Frame m (DeployOpenSSLUProbes env pids m).2 :=
  (deployOpenSSLLoop_pass env pids 0 m).1

theorem DeployGoUProbes_frame (env : Env) (pids : List UPID) (m : UProbeManager) :
    Frame m (DeployGoUProbes env pids m).2 :=
  (deployGoLoop_pass env m.cfg_disable_self_probing_ _ _ 0 m rfl (fun _ he => he)).1

/-- The mmap-event table after `PIDsToRescanForUProbes`: untouched when the
tracker's current set is empty, drained otherwise. -/
theorem PIDsToRescanForUProbes_mmap (m : UProbeManager) :
    (PIDsToRescanForUProbes m).2 =
      { m with mmap_events_ := if m.proc_tracker_.upids = [] then m.mmap_events_ else [] } := by
  unfold PIDsToRescanForUProbes
  simp only [BPFHashTable.get_table_offline]
  split
  · rename_i h
    simp [h]
  · rename_i first rest h
    rw [rescanLoop_snd, foldl_remove_value_self]
    simp [h]

/-- What the rescan statement keeps and what it does to the mmap-event table. -/
theorem deployRescan_frame (env : Env) (count : Nat) (m : UProbeManager) :
    (deployRescan env count m).2.proc_tracker_ = m.proc_tracker_ ∧
      (deployRescan env count m).2.FLAGS_stirling_rescan_for_dlopen
        = m.FLAGS_stirling_rescan_for_dlopen ∧
      (deployRescan env count m).2.cfg_enable_http2_tracing_ = m.cfg_enable_http2_tracing_ ∧
      (deployRescan env count m).2.cfg_disable_self_probing_ = m.cfg_disable_self_probing_ ∧
      (deployRescan env count m).2.mmap_events_ =
        (if m.FLAGS_stirling_rescan_for_dlopen = true ∧ m.proc_tracker_.upids ≠ [] then []
          else m.mmap_events_) := by
  unfold deployRescan
  split
  · rename_i hflag
    simp only []
    obtain ⟨c1, c2, c3, c4, c5⟩ := DeployOpenSSLUProbes_frame env (PIDsToRescanForUProbes m).1
      (PIDsToRescanForUProbes m).2
    rw [c1, c2, c3, c4, c5, PIDsToRescanForUProbes_mmap]
    refine ⟨rfl, rfl, rfl, rfl, ?_⟩
    by_cases h : m.proc_tracker_.upids = [] <;> simp [h, hflag]
  · rename_i hflag
    simp [hflag]

/-- The stages of `DeployUProbes`, named. -/
theorem DeployUProbes_stages (env : Env) (pids : List UPID) (m : UProbeManager) :
    ∃ m2 r3 r4 r5,
      CleanupSymaddrMaps (m.proc_tracker_.Update pids).deleted_upids
        { m with proc_tracker_ := m.proc_tracker_.Update pids } = m2 ∧
      DeployOpenSSLUProbes env m2.proc_tracker_.new_upids m2 = r3 ∧
      deployRescan env r3.1 r3.2 = r4 ∧
      DeployGoUProbes env r4.2.proc_tracker_.new_upids r4.2 = r5 ∧
      DeployUProbes env pids m = r5.2 :=
  ⟨_, _, _, _, rfl, rfl, rfl, rfl, rfl⟩

/-- What `DeployUProbes` leaves in the tracker, the flags and the mmap-event
table: the tracker is the updated one, the flags are as before, and the table is
drained exactly when rescanning is enabled and the observation is not empty. -/
theorem DeployUProbes_frame (env : Env) (pids : List UPID) (m : UProbeManager) :
    (DeployUProbes env pids m).proc_tracker_ = m.proc_tracker_.Update pids ∧
      (DeployUProbes env pids m).FLAGS_stirling_rescan_for_dlopen
        = m.FLAGS_stirling_rescan_for_dlopen ∧
      (DeployUProbes env pids m).cfg_enable_http2_tracing_ = m.cfg_enable_http2_tracing_ ∧
      (DeployUProbes env pids m).cfg_disable_self_probing_ = m.cfg_disable_self_probing_ ∧
      (DeployUProbes env pids m).mmap_events_ =
        (if m.FLAGS_stirling_rescan_for_dlopen = true ∧ pids ≠ [] then [] else m.mmap_events_) := by
  obtain ⟨m2, r3, r4, r5, h2, h3, h4, h5, h⟩ := DeployUProbes_stages env pids m
  rw [h]
  have f2 : m2.proc_tracker_ = m.proc_tracker_.Update pids ∧
      m2.FLAGS_stirling_rescan_for_dlopen = m.FLAGS_stirling_rescan_for_dlopen ∧
      m2.cfg_enable_http2_tracing_ = m.cfg_enable_http2_tracing_ ∧
      m2.cfg_disable_self_probing_ = m.cfg_disable_self_probing_ ∧
      m2.mmap_events_ = m.mmap_events_ := by
    rw [← h2, CleanupSymaddrMaps_eq]
    exact ⟨rfl, rfl, rfl, rfl, rfl⟩
  have f3 : Frame m2 r3.2 := by rw [← h3]; exact DeployOpenSSLUProbes_frame _ _ _
  have f4 := deployRescan_frame env r3.1 r3.2
  rw [h4] at f4
  have f5 : Frame r4.2 r5.2 := by rw [← h5]; exact DeployGoUProbes_frame _ _ _
  obtain ⟨a1, a2, a3, a4, a5⟩ := f2
  obtain ⟨b1, b2, b3, b4, b5⟩ := f3
  obtain ⟨c1, c2, c3, c4, c5⟩ := f4
  obtain ⟨d1, d2, d3, d4, d5⟩ := f5
  refine ⟨?_, ?_, ?_, ?_, ?_⟩
  · rw [d4, c1, b4, a1]
  · rw [d3, c2, b3, a2]
  · rw [d1, c3, b1, a3]
  · rw [d2, c4, b2, a4]
  · rw [d5, c5, b3, a2, b4, a1, b5, a5]
    rfl

/-- A deployment on the observation the tracker already holds, with nothing
to rescan, changes nothing but the tracker's new and deleted sets. -/
theorem DeployUProbes_same_observation (env : Env) (pids : List UPID) (m : UProbeManager)
    (hcur : m.proc_tracker_.upids = pids)
    (hmmap : m.FLAGS_stirling_rescan_for_dlopen = true → pids ≠ [] → m.mmap_events_ = []) :
    DeployUProbes env pids m =
      { m with proc_tracker_ := { upids := pids, new_upids := [], deleted_upids := [] } } := by
  have hU : m.proc_tracker_.Update pids = { upids := pids, new_upids := [], deleted_upids := [] } := by
    simp [ProcTracker.Update, hcur]
  unfold DeployUProbes deployUProbesCount
  simp only [hU, CleanupSymaddrMaps, DeployOpenSSLUProbes_nil, DeployGoUProbes_nil]
  unfold deployRescan
  split
  · rename_i hflag
    simp only [PIDsToRescanForUProbes, BPFHashTable.get_table_offline]
    cases pids with
    | nil => simp [DeployOpenSSLUProbes_nil, DeployGoUProbes_nil]
    | cons first rest =>
      have hm := hmmap hflag (by simp)
      simp [hm, rescanLoop, DeployOpenSSLUProbes_nil, DeployGoUProbes_nil]
  · simp [DeployGoUProbes_nil]

/-- C2. When `DeployUProbes(S)` is called twice in succession (whatever the
observation `S`, the flags, the state of the manager and of the mmap-event table
before the first call, and the outcomes of the collaborators in either call),
the second call issues no attach request: the back end has received after it
exactly what it had received after the first. -/
theorem DeployUProbes_twice_attaches_nothing_new (env1 env2 : Env) (pids : List UPID)
    (m : UProbeManager) :
    (DeployUProbes env2 pids (DeployUProbes env1 pids m)).bcc_ =
      (DeployUProbes env1 pids m).bcc_ := by
  obtain ⟨h1, h2, _, _, h5⟩ := DeployUProbes_frame env1 pids m
  rw [DeployUProbes_same_observation env2 pids (DeployUProbes env1 pids m)]
  · rw [h1]; rfl
  · intro hflag hne
    rw [h2] at hflag
    rw [h5]
    simp [hflag, hne]

/-- The tracker's current set after a sequence of deployments. -/
theorem runDeploys_upids (calls : List DeployCall) :
    ∀ (m : UProbeManager),
      (runDeploys calls m).proc_tracker_.upids =
        match calls.getLast? with
        | some call => call.pids
        | none => m.proc_tracker_.upids := by
  induction calls with
  | nil => intro m; rfl
  | cons call rest ih =>
    intro m
    rw [runDeploys, ih]
    cases rest with
    | nil =>
      simp only [List.getLast?_nil, List.getLast?_singleton]
      rw [(DeployUProbes_frame _ _ _).1]
      rfl
    | cons c2 rest2 =>
      have hl : (call :: c2 :: rest2).getLast? = (c2 :: rest2).getLast? := List.getLast?_cons_cons
      rw [hl]
      cases hg : (c2 :: rest2).getLast? with
      | none => simp at hg
      | some c => rfl

theorem runDeploys_append (pre : List DeployCall) (call : DeployCall) :
    ∀ (m : UProbeManager),
      runDeploys (pre ++ [call]) m =
        DeployUProbes call.env call.pids
          (setFlags call.enable_http2_tracing call.disable_self_probing call.rescan_for_dlopen
            (runDeploys pre m)) := by
  induction pre with
  | nil => intro m; rfl
  | cons c rest ih =>
    intro m
    show runDeploys (rest ++ [call]) _ = _
    rw [ih]
    rfl

/-- C4. After the last call of any sequence of `DeployUProbes` calls on a
freshly initialised manager, the tracker's current set is that call's
observation `O_i`, its new set is `O_i` minus the previous observation
`O_(i-1)` (empty before the first call) and its deleted set is `O_(i-1)` minus
`O_i`. And in every `DeployUProbes` call, the sets passed to the cleanup, to the
OpenSSL pass and to the Go pass are the deleted set, the new set and the new
set of the tracker as updated by that call. -/
theorem DeployUProbes_tracker_sets (pre : List DeployCall) (call : DeployCall)
    (enable_http2_tracing disable_self_probing rescan_for_dlopen : Bool)
    (openssl : BPFHashTable Nat openssl_symaddrs_t)
    (go_common : BPFHashTable Nat go_common_symaddrs_t)
    (go_http2 : BPFHashTable Nat go_http2_symaddrs_t)
    (go_tls : BPFHashTable Nat go_tls_symaddrs_t)
    (mmap_events : BPFHashTable upid_t Bool) :
    (runDeploys (pre ++ [call]) (Init enable_http2_tracing disable_self_probing rescan_for_dlopen
        openssl go_common go_http2 go_tls mmap_events)).proc_tracker_ =
      { upids := call.pids
        new_upids := call.pids.filter (fun u => decide (u ∉ lastObservation pre))
        deleted_upids := (lastObservation pre).filter (fun u => decide (u ∉ call.pids)) } ∧
    ∀ (env : Env) (pids : List UPID) (m : UProbeManager),
      DeployUProbes env pids m =
        (DeployGoUProbes env (m.proc_tracker_.Update pids).new_upids
          (deployRescan env
            (DeployOpenSSLUProbes env (m.proc_tracker_.Update pids).new_upids
              (CleanupSymaddrMaps (m.proc_tracker_.Update pids).deleted_upids
                { m with proc_tracker_ := m.proc_tracker_.Update pids })).1
            (DeployOpenSSLUProbes env (m.proc_tracker_.Update pids).new_upids
              (CleanupSymaddrMaps (m.proc_tracker_.Update pids).deleted_upids
                { m with proc_tracker_ := m.proc_tracker_.Update pids })).2).2).2 := by
  constructor
  · rw [runDeploys_append, (DeployUProbes_frame _ _ _).1]
    have hprev : (setFlags call.enable_http2_tracing call.disable_self_probing
        call.rescan_for_dlopen (runDeploys pre (Init enable_http2_tracing disable_self_probing
          rescan_for_dlopen openssl go_common go_http2 go_tls mmap_events))).proc_tracker_.upids
        = lastObservation pre := by
      show (runDeploys pre _).proc_tracker_.upids = _
      rw [runDeploys_upids]
      unfold lastObservation
      cases pre.getLast? <;> rfl
    simp only [ProcTracker.Update, hprev]
  · intro env pids m
    obtain ⟨m2, r3, r4, r5, h2, h3, h4, h5, h⟩ := DeployUProbes_stages env pids m
    have t2 : m2.proc_tracker_ = m.proc_tracker_.Update pids := by
      rw [← h2, CleanupSymaddrMaps_eq]
    have t3 : r3.2.proc_tracker_ = m2.proc_tracker_ := by
      rw [← h3]; exact (DeployOpenSSLUProbes_frame _ _ _).2.2.2.1
    have t4 : r4.2.proc_tracker_ = r3.2.proc_tracker_ := by
      rw [← h4]; exact (deployRescan_frame _ _ _).1
    rw [h, ← h5, t4, t3, t2, ← h4, ← h3, t2, ← h2]

/-! ## C5: the identities to rescan -/

/-- The identities the rescan loop returns: those it started with, and the
identity built from the asid and an event's key whenever the tracker has it in
its current set and not in its new set. -/
theorem rescanLoop_mem (asid : Nat) (events : List (upid_t × Bool)) (u : UPID) :
    ∀ (acc : List UPID) (m : UProbeManager),
      u ∈ (rescanLoop asid events acc m).1 ↔
        u ∈ acc ∨ ((∃ ev ∈ events, u = UPID.mk asid ev.1.pid ev.1.start_time_ticks) ∧
          u ∈ m.proc_tracker_.upids ∧ u ∉ m.proc_tracker_.new_upids) := by
  induction events with
  | nil => intro acc m; simp [rescanLoop]
  | cons ev rest ih =>
    intro acc m
    rw [rescanLoop, ih]
    simp only [List.mem_cons, exists_eq_or_imp]
    by_cases hc : UPID.mk asid ev.1.pid ev.1.start_time_ticks ∈ m.proc_tracker_.upids ∧
        UPID.mk asid ev.1.pid ev.1.start_time_ticks ∉ m.proc_tracker_.new_upids
    · rw [if_pos hc]
      by_cases hin : UPID.mk asid ev.1.pid ev.1.start_time_ticks ∈ acc
      · rw [if_pos hin]
        constructor
        · rintro (h | h)
          · exact Or.inl h
          · exact Or.inr ⟨Or.inr h.1, h.2⟩
        · rintro (h | ⟨h | h, h2⟩)
          · exact Or.inl h
          · exact Or.inl (h ▸ hin)
          · exact Or.inr ⟨h, h2⟩
      · rw [if_neg hin]
        simp only [List.mem_append, List.mem_singleton]
        constructor
        · rintro ((h | h) | h)
          · exact Or.inl h
          · exact Or.inr ⟨Or.inl h, h ▸ hc⟩
          · exact Or.inr ⟨Or.inr h.1, h.2⟩
        · rintro (h | ⟨h | h, h2⟩)
          · exact Or.inl (Or.inl h)
          · exact Or.inl (Or.inr h)
          · exact Or.inr ⟨h, h2⟩
    · rw [if_neg hc]
      constructor
      · rintro (h | h)
        · exact Or.inl h
        · exact Or.inr ⟨Or.inr h.1, h.2⟩
      · rintro (h | ⟨h | h, h2⟩)
        · exact Or.inl h
        · exact absurd (h ▸ h2) hc
        · exact Or.inr ⟨h, h2⟩

/-- C5, as stated, fails. The tracker holds (1, 10, 5) and (2, 20, 7), neither
new, and the mmap-event table has an entry for pid 20 with start time 7. The
identity (2, 20, 7) has an entry in the snapshot, is in the current set and is
not in the new set, yet it is not returned: the loop builds (1, 20, 7) from the
asid of the first identity of the current set. -/
theorem PIDsToRescanForUProbes_misses_other_asid :
    ¬ (({ asid := 2, pid := 20, start_ts := 7 } : UPID)
          ∈ (PIDsToRescanForUProbes mixedAsidManager).1 ↔
        hasMmapEvent mixedAsidManager.mmap_events_.get_table_offline
            { asid := 2, pid := 20, start_ts := 7 } ∧
          ({ asid := 2, pid := 20, start_ts := 7 } : UPID) ∈ mixedAsidManager.proc_tracker_.upids ∧
          ({ asid := 2, pid := 20, start_ts := 7 } : UPID)
            ∉ mixedAsidManager.proc_tracker_.new_upids) := by
  decide

/-- C5, amended. When all identities of the tracker's current set carry the same
asid, the set returned by `PIDsToRescanForUProbes` contains an identity if and
only if the mmap-event snapshot has an entry for it, it is in the tracker's
current set and it is not in the tracker's new set. -/
theorem PIDsToRescanForUProbes_mem_iff (m : UProbeManager) (u : UPID)
    (hasid : ∀ v ∈ m.proc_tracker_.upids, ∀ w ∈ m.proc_tracker_.upids, v.asid = w.asid) :
    u ∈ (PIDsToRescanForUProbes m).1 ↔
      hasMmapEvent m.mmap_events_.get_table_offline u ∧ u ∈ m.proc_tracker_.upids ∧
        u ∉ m.proc_tracker_.new_upids := by
  unfold PIDsToRescanForUProbes
  simp only []
  split
  · rename_i h
    simp [h]
  · rename_i first rest h
    rw [rescanLoop_mem]
    unfold hasMmapEvent
    constructor
    · rintro (h | ⟨⟨ev, hev, rfl⟩, h1, h2⟩)
      · cases h
      · exact ⟨⟨ev, hev, rfl, rfl⟩, h1, h2⟩
    · rintro ⟨⟨ev, hev, hp, ht⟩, h1, h2⟩
      refine Or.inr ⟨⟨ev, hev, ?_⟩, h1, h2⟩
      have ha : u.asid = first.asid := hasid u h1 first (by rw [h]; exact List.mem_cons_self _ _)
      cases u
      simp only at hp ht ha
      simp [hp, ht, ha]

/-- The amended C5 at a tracker with one asid: (1, 20, 7) was seen before and has
an mmap event, so it is returned. -/
theorem PIDsToRescanForUProbes_mem_iff_witness :
    ({ asid := 1, pid := 20, start_ts := 7 } : UPID) ∈
      (PIDsToRescanForUProbes
        { mixedAsidManager with
          proc_tracker_ :=
            { upids := [{ asid := 1, pid := 10, start_ts := 5 },
                        { asid := 1, pid := 20, start_ts := 7 }]
              new_upids := []
              deleted_upids := [] } }).1 :=
  (PIDsToRescanForUProbes_mem_iff
    { mixedAsidManager with
      proc_tracker_ :=
        { upids := [{ asid := 1, pid := 10, start_ts := 5 },
                    { asid := 1, pid := 20, start_ts := 7 }]
          new_upids := []
          deleted_upids := [] } }
    { asid := 1, pid := 20, start_ts := 7 } (by decide)).2 (by decide)

/-! ## C3: self-probing disabled -/

theorem Issues_refl (Q : AttachCall → Prop) (m : UProbeManager) : Issues Q m m :=
  ⟨[], by simp, by simp⟩

theorem Issues_of_bcc_eq (Q : AttachCall → Prop) (m m1 : UProbeManager) (h : m1.bcc_ = m.bcc_) :
    Issues Q m m1 :=
  ⟨[], by simp [h], by simp⟩

theorem Issues_trans {Q : AttachCall → Prop} {m m1 m2 : UProbeManager} (h1 : Issues Q m m1)
    (h2 : Issues Q m1 m2) : Issues Q m m2 := by
  obtain ⟨a, ha, hqa⟩ := h1
  obtain ⟨b, hb, hqb⟩ := h2
  refine ⟨a ++ b, by simp [hb, ha], ?_⟩
  intro c hc
  rcases List.mem_append.1 hc with h | h
  · exact hqa c h
  · exact hqb c h

theorem Issues_mono {Q R : AttachCall → Prop} {m m1 : UProbeManager} (hQR : ∀ c, Q c → R c)
    (h : Issues Q m m1) : Issues R m m1 := by
  obtain ⟨a, ha, hqa⟩ := h
  exact ⟨a, ha, fun c hc => hQR c (hqa c hc)⟩

theorem Issues_of_pass {Q : AttachCall → Prop} {m m1 : UProbeManager} (h : Pass Q m m1) :
    Issues Q m m1 := h.2.2

theorem Issues_callsSince {Q : AttachCall → Prop} {m m1 : UProbeManager} (h : Issues Q m m1) :
    ∀ c ∈ callsSince m m1, Q c := by
  obtain ⟨a, ha, hqa⟩ := h
  intro c hc
  rw [callsSince, ha] at hc
  simp at hc
  exact hqa c hc

/-- The rescan statement issues OpenSSL requests only. -/
theorem deployRescan_issues (env : Env) (count : Nat) (m : UProbeManager) :
    Issues (fun c => c.family = Family.OpenSSL) m (deployRescan env count m).2 := by
  unfold deployRescan
  split
  · obtain ⟨t, ht⟩ := PIDsToRescanForUProbes_snd m
    refine Issues_trans (Issues_of_bcc_eq _ m (PIDsToRescanForUProbes m).2 (by rw [ht])) ?_
    exact Issues_of_pass (deployOpenSSLLoop_pass env _ 0 _)
  · exact Issues_refl _ _

/-- The requests of one `DeployUProbes` call: OpenSSL requests, and the requests
of the Go pass on the map built from the tracker's new set. -/
theorem DeployUProbes_issues (env : Env) (pids : List UPID) (m : UProbeManager) :
    Issues (fun c => c.family = Family.OpenSSL ∨
        GoCall env m.cfg_disable_self_probing_
          (ConvertPIDsListToMap env (m.proc_tracker_.Update pids).new_upids) c) m
      (DeployUProbes env pids m) := by
  obtain ⟨m2, r3, r4, r5, h2, h3, h4, h5, h⟩ := DeployUProbes_stages env pids m
  rw [h]
  have e2 : m2.bcc_ = m.bcc_ ∧ m2.proc_tracker_ = m.proc_tracker_.Update pids ∧
      m2.cfg_disable_self_probing_ = m.cfg_disable_self_probing_ := by
    rw [← h2, CleanupSymaddrMaps_eq]
    exact ⟨rfl, rfl, rfl⟩
  have p3 : Pass (fun c => c.family = Family.OpenSSL) m2 r3.2 := by
    rw [← h3]; exact deployOpenSSLLoop_pass env _ 0 _
  have i4 : Issues (fun c => c.family = Family.OpenSSL) r3.2 r4.2 := by
    rw [← h4]; exact deployRescan_issues env _ _
  have f4 := deployRescan_frame env r3.1 r3.2
  rw [h4] at f4
  have t4 : r4.2.proc_tracker_ = m.proc_tracker_.Update pids := by
    rw [f4.1, p3.1.2.2.2.1, e2.2.1]
  have s4 : r4.2.cfg_disable_self_probing_ = m.cfg_disable_self_probing_ := by
    rw [f4.2.2.2.1, p3.1.2.1, e2.2.2]
  have p5 : Pass (GoCall env m.cfg_disable_self_probing_
      (ConvertPIDsListToMap env (m.proc_tracker_.Update pids).new_upids)) r4.2 r5.2 := by
    rw [← h5, t4]
    exact deployGoLoop_pass env _ _ _ 0 r4.2 s4 (fun _ he => he)
  refine Issues_trans (Issues_of_bcc_eq _ m m2 e2.1) ?_
  refine Issues_trans (Issues_mono (fun c hc => Or.inl hc) (Issues_of_pass p3)) ?_
  refine Issues_trans (Issues_mono (fun c hc => Or.inl hc) i4) ?_
  exact Issues_mono (fun c hc => Or.inr hc) (Issues_of_pass p5)

theorem SameTables_refl (m : UProbeManager) : SameTables m m := ⟨rfl, rfl, rfl, rfl, rfl⟩

theorem SameTables_trans {m m1 m2 : UProbeManager} (h1 : SameTables m m1)
    (h2 : SameTables m1 m2) : SameTables m m2 := by
  obtain ⟨a1, a2, a3, a4, a5⟩ := h1
  obtain ⟨b1, b2, b3, b4, b5⟩ := h2
  exact ⟨b1.trans a1, b2.trans a2, b3.trans a3, b4.trans a4, b5.trans a5⟩

/-- No mapped path ends with the library name: the search assigns nothing. -/
theorem findMappedLib_none (env : Env) (pid : Nat) (lib_name : String) (paths : List String)
    (h : ∀ p ∈ paths, EndsWith p lib_name = false) : findMappedLib env pid lib_name paths = none := by
  induction paths with
  | nil => rfl
  | cons p rest ih =>
    rw [findMappedLib, h p (List.mem_cons_self _ _)]
    exact ih (fun q hq => h q (List.mem_cons_of_mem _ hq))

/-- For a process that lacks one of the two libraries, `FindLibraryPaths`
succeeds and leaves the path of a missing library empty. -/
theorem FindLibraryPaths_lacking (env : Env) (pid : Nat) (h : LacksOpenSSL env pid) :
    ∃ libs, FindLibraryPaths env ["libssl.so.1.1", "libcrypto.so.1.1"] pid = .ok libs ∧
      (libs.getD 0 "" = "" ∨ libs.getD 1 "" = "") := by
  obtain ⟨hcreate, paths, hmaps, hlack⟩ := h
  unfold FindLibraryPaths
  rw [hcreate, hmaps]
  refine ⟨_, rfl, ?_⟩
  have henum : (["libssl.so.1.1", "libcrypto.so.1.1"] : List String).enum
      = [(0, "libssl.so.1.1"), (1, "libcrypto.so.1.1")] := rfl
  rw [henum]
  simp only [List.length_cons, List.length_nil, List.replicate, findLibraryLoop, List.getD_cons_zero,
    Bool.false_eq_true, if_false]
  rcases hlack with hssl | hcrypto
  · left
    rw [findMappedLib_none env pid _ paths hssl]
    simp only [List.getD_cons_succ, List.getD_cons_zero, Bool.false_eq_true, if_false]
    cases findMappedLib env pid "libcrypto.so.1.1" paths <;> rfl
  · right
    rw [findMappedLib_none env pid "libcrypto.so.1.1" paths hcrypto]
    cases findMappedLib env pid "libssl.so.1.1" paths with
    | none =>
      simp only [List.getD_cons_succ, List.getD_cons_zero, Bool.false_eq_true, if_false]
    | some c =>
      simp only [List.set_cons_zero, List.getD_cons_succ, List.getD_cons_zero,
        Bool.false_eq_true, if_false]

/-- For a process that lacks one of the two libraries, `AttachOpenSSLUProbes`
returns OK(0) and does nothing. -/
theorem AttachOpenSSLUProbes_lacking (env : Env) (pid : Nat) (m : UProbeManager)
    (h : LacksOpenSSL env pid) :
    AttachOpenSSLUProbes env pid m = (.ok 0, enter Family.OpenSSL m) := by
  obtain ⟨libs, hlibs, hempty⟩ := FindLibraryPaths_lacking env pid h
  unfold AttachOpenSSLUProbes
  simp only [hlibs]
  rw [if_pos hempty]

/-- The OpenSSL pass over processes that all lack one of the two libraries
leaves the back end and the tables alone. -/
theorem deployOpenSSLLoop_lacking (env : Env) (pids : List UPID)
    (h : ∀ u ∈ pids, LacksOpenSSL env u.pid) :
    ∀ (count : Nat) (m : UProbeManager), SameTables m (deployOpenSSLLoop env pids count m).2 := by
  induction pids with
  | nil => intro count m; exact SameTables_refl m
  | cons u rest ih =>
    intro count m
    have hrest : ∀ v ∈ rest, LacksOpenSSL env v.pid := fun v hv => h v (List.mem_cons_of_mem _ hv)
    rw [deployOpenSSLLoop]
    split
    · exact ih hrest _ _
    · rw [AttachOpenSSLUProbes_lacking env u.pid m (h u (List.mem_cons_self _ _))]
      exact SameTables_trans ⟨rfl, rfl, rfl, rfl, rfl⟩ (ih hrest _ _)

/-- Every identity `PIDsToRescanForUProbes` returns is in the tracker's current set. -/
theorem PIDsToRescanForUProbes_subset (m : UProbeManager) (u : UPID)
    (h : u ∈ (PIDsToRescanForUProbes m).1) : u ∈ m.proc_tracker_.upids := by
  unfold PIDsToRescanForUProbes at h
  simp only [] at h
  split at h
  · cases h
  · rw [rescanLoop_mem] at h
    rcases h with h | h
    · cases h
    · exact h.2.1

/-- The Go pass on a single identity whose executable is not a Go binary does nothing. -/
theorem DeployGoUProbes_not_go (env : Env) (upid : UPID) (m : UProbeManager)
    (h : NotGoBinary env upid.pid) : (DeployGoUProbes env [upid] m).2 = m := by
  unfold DeployGoUProbes ConvertPIDsListToMap
  split
  · rfl
  · simp only [convertPIDsLoop]
    split
    · rfl
    · rename_i proc_exe hexe
      split
      · rfl
      · split
        · rfl
        · rename_i exe_path hres
          split
          · rfl
          · simp only [mapPushBack, deployGoLoop]
            unfold deployGoBinary
            split
            · rfl
            · split
              · rfl
              · rename_i elf helf
                rw [h proc_exe exe_path elf hexe hres helf]
                rfl

/-- C10. Let the observation of a deploy be a single process that can be
inspected, lacks at least one of `libssl.so.1.1` and `libcrypto.so.1.1`, and
whose executable has no `runtime.buildVersion` symbol. Then `DeployUProbes`
issues no attach request, leaves the OpenSSL, Go-common and Go-TLS tables as
they were, leaves in the Go-HTTP/2 table what the cleanup of the deleted pids
leaves (no entry is written), and `AttachOpenSSLUProbes` returns OK(0) for the
process. -/
theorem DeployUProbes_plain_process (env : Env) (upid : UPID) (m : UProbeManager)
    (hssl : LacksOpenSSL env upid.pid) (hgo : NotGoBinary env upid.pid) :
    (DeployUProbes env [upid] m).bcc_ = m.bcc_ ∧
      (DeployUProbes env [upid] m).openssl_symaddrs_map_ = m.openssl_symaddrs_map_ ∧
      (DeployUProbes env [upid] m).go_common_symaddrs_map_ = m.go_common_symaddrs_map_ ∧
      (DeployUProbes env [upid] m).go_tls_symaddrs_map_ = m.go_tls_symaddrs_map_ ∧
      (DeployUProbes env [upid] m).go_http2_symaddrs_map_ =
        (m.proc_tracker_.Update [upid]).deleted_upids.foldl
          (fun t u => BPFHashTable.remove_value t u.pid) m.go_http2_symaddrs_map_ ∧
      ∀ m1, (AttachOpenSSLUProbes env upid.pid m1).1 = .ok 0 := by
  obtain ⟨m2, r3, r4, r5, h2, h3, h4, h5, h⟩ := DeployUProbes_stages env [upid] m
  have t2 : m2.proc_tracker_ = m.proc_tracker_.Update [upid] := by
    rw [← h2, CleanupSymaddrMaps_eq]
  have hnew : ∀ u ∈ (m.proc_tracker_.Update [upid]).new_upids, LacksOpenSSL env u.pid := by
    intro u hu
    simp only [ProcTracker.Update, List.mem_filter, List.mem_singleton] at hu
    rw [hu.1]
    exact hssl
  have s3 : SameTables m2 r3.2 := by
    rw [← h3, t2]
    exact deployOpenSSLLoop_lacking env _ hnew 0 m2
  have t3 : r3.2.proc_tracker_ = m.proc_tracker_.Update [upid] := by
    rw [← h3, (DeployOpenSSLUProbes_frame _ _ _).2.2.2.1, t2]
  have s4 : SameTables r3.2 r4.2 := by
    rw [← h4]
    unfold deployRescan
    split
    · obtain ⟨t, ht⟩ := PIDsToRescanForUProbes_snd r3.2
      have hq : SameTables r3.2 (PIDsToRescanForUProbes r3.2).2 := by
        rw [ht]
        exact ⟨rfl, rfl, rfl, rfl, rfl⟩
      refine SameTables_trans hq (deployOpenSSLLoop_lacking env _ ?_ 0 _)
      intro u hu
      have hcur := PIDsToRescanForUProbes_subset r3.2 u hu
      rw [t3] at hcur
      simp only [ProcTracker.Update, List.mem_singleton] at hcur
      rw [hcur]
      exact hssl
    · exact SameTables_refl _
  have t4 : r4.2.proc_tracker_ = m.proc_tracker_.Update [upid] := by
    rw [← h4, (deployRescan_frame _ _ _).1, t3]
  have e5 : r5.2 = r4.2 := by
    rw [← h5, t4]
    by_cases hin : upid ∈ m.proc_tracker_.upids
    · have : (m.proc_tracker_.Update [upid]).new_upids = [] := by
        simp [ProcTracker.Update, hin]
      rw [this, DeployGoUProbes_nil]
    · have : (m.proc_tracker_.Update [upid]).new_upids = [upid] := by
        simp [ProcTracker.Update, hin]
      rw [this]
      exact DeployGoUProbes_not_go env upid r4.2 hgo
  obtain ⟨a1, a2, a3, a4, a5⟩ := SameTables_trans s3 s4
  have c2 : m2.bcc_ = m.bcc_ ∧ m2.openssl_symaddrs_map_ = m.openssl_symaddrs_map_ ∧
      m2.go_common_symaddrs_map_ = m.go_common_symaddrs_map_ ∧
      m2.go_tls_symaddrs_map_ = m.go_tls_symaddrs_map_ ∧
      m2.go_http2_symaddrs_map_ =
        (m.proc_tracker_.Update [upid]).deleted_upids.foldl
          (fun t u => BPFHashTable.remove_value t u.pid) m.go_http2_symaddrs_map_ := by
    rw [← h2, CleanupSymaddrMaps_eq]
    exact ⟨rfl, rfl, rfl, rfl, rfl⟩
  rw [h, e5]
  refine ⟨a1.trans c2.1, a2.trans c2.2.1, a3.trans c2.2.2.1, a5.trans c2.2.2.2.1,
    a4.trans c2.2.2.2.2, ?_⟩
  intro m1
  rw [AttachOpenSSLUProbes_lacking env upid.pid m1 hssl]

/-- C10 on `plainHost`: the process 7 maps only the C library and runs `/bin/cat`. -/
theorem DeployUProbes_plain_process_witness :
    (DeployUProbes plainHost [{ asid := 1, pid := 7, start_ts := 3 }]
        (Init true false true [] [] [] [] [])).bcc_ = [] ∧
      (AttachOpenSSLUProbes plainHost 7 (Init true false true [] [] [] [] [])).1 = .ok 0 :=
  have h := DeployUProbes_plain_process plainHost { asid := 1, pid := 7, start_ts := 3 }
    (Init true false true [] [] [] [] [])
    ⟨rfl, ["/lib/libc.so.6"], rfl, Or.inl (by decide)⟩
    (fun _ _ _ _ _ _ => rfl)
  ⟨h.1, h.2.2.2.2.2 _⟩

/-! ## C14: the cleanup -/

/-- Removing the pids of `deleted` one after the other. -/
theorem foldl_remove_pid {ν : Type} (deleted : List UPID) :
    ∀ (t : BPFHashTable Nat ν),
      deleted.foldl (fun t u => BPFHashTable.remove_value t u.pid) t =
        t.filter (fun kv => decide (∀ u ∈ deleted, kv.1 ≠ u.pid)) := by
  induction deleted with
  | nil => intro t; simp
  | cons u rest ih =>
    intro t
    rw [List.foldl_cons, ih]
    simp only [BPFHashTable.remove_value, List.filter_filter]
    congr 1
    funext kv
    by_cases h1 : kv.1 = u.pid <;> by_cases h2 : ∀ e ∈ rest, kv.1 ≠ e.pid <;> simp [h1, h2]

/-- The Go-HTTP/2 table after the cleanup. -/
theorem CleanupSymaddrMaps_http2_table (deleted_upids : List UPID)
    (m : UProbeManager) :
    (CleanupSymaddrMaps deleted_upids m).go_http2_symaddrs_map_ =
      m.go_http2_symaddrs_map_.filter (fun kv => decide (∀ u ∈ deleted_upids, kv.1 ≠ u.pid)) := by
  rw [CleanupSymaddrMaps_eq, foldl_remove_pid]

/-- C14. `CleanupSymaddrMaps` leaves the OpenSSL, Go-common and Go-TLS tables
(and everything else in the manager) as they were; the Go-HTTP/2 table keeps,
in place and unchanged, exactly the entries whose key is not the pid of a
deleted identity. -/
theorem CleanupSymaddrMaps_removes_deleted_pids_only (deleted_upids : List UPID)
    (m : UProbeManager) :
    (CleanupSymaddrMaps deleted_upids m).openssl_symaddrs_map_ = m.openssl_symaddrs_map_ ∧
      (CleanupSymaddrMaps deleted_upids m).go_common_symaddrs_map_ = m.go_common_symaddrs_map_ ∧
      (CleanupSymaddrMaps deleted_upids m).go_tls_symaddrs_map_ = m.go_tls_symaddrs_map_ ∧
      (CleanupSymaddrMaps deleted_upids m).go_http2_symaddrs_map_ =
        m.go_http2_symaddrs_map_.filter (fun kv => decide (∀ u ∈ deleted_upids, kv.1 ≠ u.pid)) ∧
      CleanupSymaddrMaps deleted_upids m =
        { m with go_http2_symaddrs_map_ := (CleanupSymaddrMaps deleted_upids m).go_http2_symaddrs_map_ } := by
  rw [CleanupSymaddrMaps_eq, foldl_remove_pid]
  exact ⟨rfl, rfl, rfl, rfl, rfl⟩

/-! ## C16: enabling HTTP/2 tracing and deploying the same observation again -/

/-- C16, as stated, fails. On `http2Host` the process 101 runs a Go binary with
HTTP/2. Deployed with HTTP/2 tracing disabled, the binary gets its Go-TLS
request. After tracing is enabled, deploying the same observation again issues no
request at all: the process is no longer new, so the Go pass does not look at
it. (Deployed on a fresh manager with tracing enabled, the same observation
does get a Go-HTTP/2 request.) -/
theorem DeployUProbes_redeploy_attaches_no_http2 :
    (DeployUProbes http2Host [otherUPID] freshManager).bcc_.map (fun c => c.family)
        = [Family.GoTLS] ∧
      callsSince (DeployUProbes http2Host [otherUPID] freshManager)
        (DeployUProbes http2Host [otherUPID]
          (setFlags true false false (DeployUProbes http2Host [otherUPID] freshManager))) = [] ∧
      (DeployUProbes http2Host [otherUPID] (setFlags true false false freshManager)).bcc_.map
        (fun c => c.family) = [Family.GoTLS, Family.GoHTTP2] := by
  decide

/-! ## C17: draining the mmap-event table -/

/-- C17 at its failing input. With an empty current set in the tracker,
`PIDsToRescanForUProbes` returns before the loop that removes the snapshot's
entries: the entry read in the snapshot is still in the mmap-event table. -/
theorem PIDsToRescanForUProbes_keeps_events_of_empty_tracker :
    emptyTrackerManager.proc_tracker_.upids = [] ∧
      emptyTrackerManager.mmap_events_.get_table_offline
        = [({ pid := 20, start_time_ticks := 7 }, true)] ∧
      (PIDsToRescanForUProbes emptyTrackerManager).1 = [] ∧
      (PIDsToRescanForUProbes emptyTrackerManager).2.mmap_events_
        = [({ pid := 20, start_time_ticks := 7 }, true)] := by
  decide

/-! ## C11, C12: `AttachOpenSSLUProbes` on a process that uses OpenSSL -/

/-- The OpenSSL attach loop when no request is rejected: one request per entry
of the list, in list order, each carrying the library path. -/
theorem attachOpenSSLSpecs_all_ok (env : Env)
    (hok : ∀ log spec, env.AttachUProbe log spec = Status.OK) (b : String)
    (specs : List UProbeSpec) :
    ∀ (m : UProbeManager),
      attachOpenSSLSpecs env b specs m =
        (Status.OK,
          m.withCalls (specs.map (fun sp =>
            { family := m.ghost_family, invocation := m.ghost_invocation,
              spec := { sp with binary_path := b }, status := Status.OK }))) := by
  induction specs with
  | nil => intro m; simp [attachOpenSSLSpecs]
  | cons sp rest ih =>
    intro m
    simp only [attachOpenSSLSpecs, AttachUProbe_eq, hok]
    rw [ih]
    simp

/-- What `AttachOpenSSLUProbes` does once both libraries are found and exist and
the symbol record resolves: it publishes the record (if the kernel accepts the
write), then looks the library up in the probed-binary set. -/
theorem AttachOpenSSLUProbes_found (env : Env) (pid : Nat) (m : UProbeManager)
    (libs : List String) (symaddrs : openssl_symaddrs_t)
    (hfind : FindLibraryPaths env ["libssl.so.1.1", "libcrypto.so.1.1"] pid = .ok libs)
    (hssl : libs.getD 0 "" ≠ "") (hcrypto : libs.getD 1 "" ≠ "")
    (hex1 : env.fs_Exists (env.ToHostPath (libs.getD 0 "")) = Status.OK)
    (hex2 : env.fs_Exists (env.ToHostPath (libs.getD 1 "")) = Status.OK)
    (hsym : env.OpenSSLSymAddrs (env.ToHostPath (libs.getD 1 "")) = .ok symaddrs) :
    AttachOpenSSLUProbes env pid m =
      if env.ToHostPath (libs.getD 0 "") ∈ m.openssl_probed_binaries_ then
        (.ok 0,
          { enter Family.OpenSSL m with
            openssl_symaddrs_map_ :=
              m.openssl_symaddrs_map_.update_value
                (env.update_value_code "openssl_symaddrs_map" pid) pid symaddrs })
      else
        match attachOpenSSLSpecs env (env.ToHostPath (libs.getD 0 "")) env.kOpenSSLUProbes
          { enter Family.OpenSSL m with
            openssl_symaddrs_map_ :=
              m.openssl_symaddrs_map_.update_value
                (env.update_value_code "openssl_symaddrs_map" pid) pid symaddrs
            openssl_probed_binaries_ :=
              env.ToHostPath (libs.getD 0 "") :: m.openssl_probed_binaries_ } with
        | (.error e, m2) => (.error e, m2)
        | (.ok _, m2) => (.ok env.kOpenSSLUProbes.length, m2) := by
  unfold AttachOpenSSLUProbes
  simp only [hfind]
  rw [if_neg (fun h => h.elim hssl hcrypto)]
  simp only [hex1, hex2, UpdateOpenSSLSymAddrs, hsym]
  rfl

/-- An accepted write leaves an entry for the key. -/
theorem containsKey_update_value {ν : Type} (t : BPFHashTable Nat ν) (key : Nat) (value : ν) :
    (t.update_value 0 key value).containsKey key = true := by
  simp [BPFHashTable.update_value, BPFHashTable.containsKey]

/-- A write, accepted or not, keeps the entries of the other keys. -/
theorem mem_update_value_of_ne {ν : Type} (t : BPFHashTable Nat ν) (code : Int) (key : Nat)
    (value : ν) (kv : Nat × ν) (hkv : kv ∈ t) (hne : kv.1 ≠ key) :
    kv ∈ t.update_value code key value := by
  unfold BPFHashTable.update_value
  split
  · refine List.mem_cons_of_mem _ ?_
    simp [BPFHashTable.remove_value, hkv, hne]
  · exact hkv

/-- C11, as stated, fails. On `fullTableHost` the process 7 maps both libraries,
they exist, the symbol record resolves, the library is not probed yet and every
attach succeeds: the two requests of the probe list are issued and 2 is
returned, but the kernel rejects the table write, which the code only logs, and
the OpenSSL table holds no entry for the pid. -/
theorem AttachOpenSSLUProbes_table_write_rejected :
    FindLibraryPaths fullTableHost ["libssl.so.1.1", "libcrypto.so.1.1"] 7
        = .ok ["/usr/lib/libssl.so.1.1", "/usr/lib/libcrypto.so.1.1"] ∧
      fullTableHost.fs_Exists (fullTableHost.ToHostPath "/usr/lib/libssl.so.1.1") = Status.OK ∧
      fullTableHost.fs_Exists (fullTableHost.ToHostPath "/usr/lib/libcrypto.so.1.1") = Status.OK ∧
      fullTableHost.OpenSSLSymAddrs (fullTableHost.ToHostPath "/usr/lib/libcrypto.so.1.1")
        = .ok [96] ∧
      fullTableHost.ToHostPath "/usr/lib/libssl.so.1.1" ∉ freshManager.openssl_probed_binaries_ ∧
      (∀ log spec, fullTableHost.AttachUProbe log spec = Status.OK) ∧
      (AttachOpenSSLUProbes fullTableHost 7 freshManager).1 = .ok 2 ∧
      (AttachOpenSSLUProbes fullTableHost 7 freshManager).2.openssl_symaddrs_map_.containsKey 7
        = false :=
  ⟨by decide, by decide, by decide, by decide, by decide, fun _ _ => rfl, by decide, by decide⟩

/-- C11, amended. For a pid whose `libssl.so.1.1` and `libcrypto.so.1.1` are both
found and exist, whose OpenSSL symbol record resolves, and whose host libssl
path is not yet in the OpenSSL probed-binary set: when every attach succeeds,
`AttachOpenSSLUProbes` issues exactly one request per entry of the OpenSSL probe
list, in list order, each with the host libssl path as its binary path; it
returns the size of the list; it inserts the path in the probed-binary set; and
the OpenSSL table is the old one with the write for the pid applied, so it
holds an entry for the pid when the kernel accepts the write. -/
theorem AttachOpenSSLUProbes_attaches_probe_list (env : Env) (pid : Nat) (m : UProbeManager)
    (libs : List String) (symaddrs : openssl_symaddrs_t)
    (hfind : FindLibraryPaths env ["libssl.so.1.1", "libcrypto.so.1.1"] pid = .ok libs)
    (hssl : libs.getD 0 "" ≠ "") (hcrypto : libs.getD 1 "" ≠ "")
    (hex1 : env.fs_Exists (env.ToHostPath (libs.getD 0 "")) = Status.OK)
    (hex2 : env.fs_Exists (env.ToHostPath (libs.getD 1 "")) = Status.OK)
    (hsym : env.OpenSSLSymAddrs (env.ToHostPath (libs.getD 1 "")) = .ok symaddrs)
    (hnew : env.ToHostPath (libs.getD 0 "") ∉ m.openssl_probed_binaries_)
    (hok : ∀ log spec, env.AttachUProbe log spec = Status.OK) :
    (AttachOpenSSLUProbes env pid m).1 = .ok env.kOpenSSLUProbes.length ∧
      callsSince m (AttachOpenSSLUProbes env pid m).2 =
        env.kOpenSSLUProbes.map (fun sp =>
          { family := Family.OpenSSL, invocation := m.ghost_invocation + 1,
            spec := { sp with binary_path := env.ToHostPath (libs.getD 0 "") },
            status := Status.OK }) ∧
      (AttachOpenSSLUProbes env pid m).2.openssl_probed_binaries_ =
        env.ToHostPath (libs.getD 0 "") :: m.openssl_probed_binaries_ ∧
      (AttachOpenSSLUProbes env pid m).2.openssl_symaddrs_map_ =
        m.openssl_symaddrs_map_.update_value (env.update_value_code "openssl_symaddrs_map" pid)
          pid symaddrs ∧
      (env.update_value_code "openssl_symaddrs_map" pid = 0 →
        (AttachOpenSSLUProbes env pid m).2.openssl_symaddrs_map_.containsKey pid = true) := by
  rw [AttachOpenSSLUProbes_found env pid m libs symaddrs hfind hssl hcrypto hex1 hex2 hsym,
    if_neg hnew, attachOpenSSLSpecs_all_ok env hok]
  refine ⟨rfl, ?_, rfl, rfl, ?_⟩
  · simp only [callsSince, withCalls, enter]
    simp
  · intro hcode
    simp only [withCalls, enter, hcode]
    exact containsKey_update_value _ _ _

/-- The amended C11 on `opensslHost`, where table writes are accepted: the
process 7 gets the two requests of the probe list and its table entry. -/
theorem AttachOpenSSLUProbes_attaches_probe_list_witness :
    (AttachOpenSSLUProbes opensslHost 7 freshManager).1 = .ok 2 ∧
      (AttachOpenSSLUProbes opensslHost 7 freshManager).2.openssl_symaddrs_map_.containsKey 7
        = true :=
  have h := AttachOpenSSLUProbes_attaches_probe_list opensslHost 7 freshManager
    ["/usr/lib/libssl.so.1.1", "/usr/lib/libcrypto.so.1.1"] [96] (by decide) (by decide)
    (by decide) (by decide) (by decide) (by decide) (by decide) (fun _ _ => rfl)
  ⟨h.1, h.2.2.2.2 (by decide)⟩

/-- C12, as stated, fails. On `fullTableHost` the library of process 8 is
already in the probed-binary set (process 7 was handled before) and its symbol
record resolves: no request is issued and OK(0) is returned, but the kernel
rejects the table write and the OpenSSL table is not updated with a record for
the pid. -/
theorem AttachOpenSSLUProbes_probed_table_write_rejected :
    fullTableHost.ToHostPath "/usr/lib/libssl.so.1.1" ∈
        (AttachOpenSSLUProbes fullTableHost 7 freshManager).2.openssl_probed_binaries_ ∧
      fullTableHost.OpenSSLSymAddrs (fullTableHost.ToHostPath "/usr/lib/libcrypto.so.1.1")
        = .ok [96] ∧
      (AttachOpenSSLUProbes fullTableHost 8
        (AttachOpenSSLUProbes fullTableHost 7 freshManager).2).1 = .ok 0 ∧
      callsSince (AttachOpenSSLUProbes fullTableHost 7 freshManager).2
        (AttachOpenSSLUProbes fullTableHost 8
          (AttachOpenSSLUProbes fullTableHost 7 freshManager).2).2 = [] ∧
      (AttachOpenSSLUProbes fullTableHost 8
        (AttachOpenSSLUProbes fullTableHost 7 freshManager).2).2.openssl_symaddrs_map_.containsKey 8
        = false := by
  decide

/-- C12, amended. For a pid whose libraries are found and exist, whose symbol
record resolves, and whose host libssl path is already in the OpenSSL
probed-binary set, `AttachOpenSSLUProbes` issues no request and returns OK(0);
the OpenSSL table is the old one with the write for the pid applied, so it
holds the record of the pid when the kernel accepts the write; and, accepted or
not, the entries published for other pids remain. -/
theorem AttachOpenSSLUProbes_already_probed (env : Env) (pid : Nat) (m : UProbeManager)
    (libs : List String) (symaddrs : openssl_symaddrs_t)
    (hfind : FindLibraryPaths env ["libssl.so.1.1", "libcrypto.so.1.1"] pid = .ok libs)
    (hssl : libs.getD 0 "" ≠ "") (hcrypto : libs.getD 1 "" ≠ "")
    (hex1 : env.fs_Exists (env.ToHostPath (libs.getD 0 "")) = Status.OK)
    (hex2 : env.fs_Exists (env.ToHostPath (libs.getD 1 "")) = Status.OK)
    (hsym : env.OpenSSLSymAddrs (env.ToHostPath (libs.getD 1 "")) = .ok symaddrs)
    (hin : env.ToHostPath (libs.getD 0 "") ∈ m.openssl_probed_binaries_) :
    (AttachOpenSSLUProbes env pid m).1 = .ok 0 ∧
      callsSince m (AttachOpenSSLUProbes env pid m).2 = [] ∧
      (AttachOpenSSLUProbes env pid m).2.openssl_symaddrs_map_ =
        m.openssl_symaddrs_map_.update_value (env.update_value_code "openssl_symaddrs_map" pid)
          pid symaddrs ∧
      (env.update_value_code "openssl_symaddrs_map" pid = 0 →
        (pid, symaddrs) ∈ (AttachOpenSSLUProbes env pid m).2.openssl_symaddrs_map_) ∧
      (∀ kv ∈ m.openssl_symaddrs_map_, kv.1 ≠ pid →
        kv ∈ (AttachOpenSSLUProbes env pid m).2.openssl_symaddrs_map_) := by
  rw [AttachOpenSSLUProbes_found env pid m libs symaddrs hfind hssl hcrypto hex1 hex2 hsym,
    if_pos hin]
  refine ⟨rfl, ?_, rfl, ?_, ?_⟩
  · simp [callsSince, enter]
  · intro hcode
    simp [hcode, BPFHashTable.update_value]
  · intro kv hkv hne
    exact mem_update_value_of_ne _ _ _ _ kv hkv hne

/-- The amended C12 on `opensslHost`: process 8 arrives after process 7, whose
library is the same; no request is issued and both pids have their record. -/
theorem AttachOpenSSLUProbes_already_probed_witness :
    (AttachOpenSSLUProbes opensslHost 8 (AttachOpenSSLUProbes opensslHost 7 freshManager).2).1
        = .ok 0 ∧
      callsSince (AttachOpenSSLUProbes opensslHost 7 freshManager).2
        (AttachOpenSSLUProbes opensslHost 8
          (AttachOpenSSLUProbes opensslHost 7 freshManager).2).2 = [] ∧
      ((8, [96]) : Nat × openssl_symaddrs_t) ∈
        (AttachOpenSSLUProbes opensslHost 8
          (AttachOpenSSLUProbes opensslHost 7 freshManager).2).2.openssl_symaddrs_map_ ∧
      ((7, [96]) : Nat × openssl_symaddrs_t) ∈
        (AttachOpenSSLUProbes opensslHost 8
          (AttachOpenSSLUProbes opensslHost 7 freshManager).2).2.openssl_symaddrs_map_ :=
  have h := AttachOpenSSLUProbes_already_probed opensslHost 8
    (AttachOpenSSLUProbes opensslHost 7 freshManager).2
    ["/usr/lib/libssl.so.1.1", "/usr/lib/libcrypto.so.1.1"] [96] (by decide) (by decide)
    (by decide) (by decide) (by decide) (by decide) (by decide)
  ⟨h.1, h.2.1, h.2.2.2.1 (by decide), h.2.2.2.2 (7, [96]) (by decide) (by decide)⟩

/-! ## C18: `FindLibraryPaths` -/

/-- The library loop, entered at index `done.length` with the paths `done`
assigned so far and nothing found for the remaining names, returns `done`
followed by what the search assigns for each remaining name, or the empty path. -/
theorem findLibraryLoop_eq (env : Env) (pid : Nat) (mapped : List String) (names : List String) :
    ∀ (done : List String) (flags : List Bool), flags.length = done.length →
      findLibraryLoop env pid mapped (names.enumFrom done.length)
          (done ++ List.replicate names.length "") (flags ++ List.replicate names.length false) =
        done ++ names.map (fun name => (findMappedLib env pid name mapped).getD "") := by
  induction names with
  | nil => intro done flags _; simp [findLibraryLoop]
  | cons name rest ih =>
    intro done flags hlen
    simp only [List.enumFrom_cons, findLibraryLoop, List.length_cons, List.replicate_succ]
    have hflag : (flags ++ false :: List.replicate rest.length false).getD done.length false
        = false := by
      rw [List.getD_append_right _ _ _ _ (by omega), hlen]
      simp
    rw [hflag]
    simp only [Bool.false_eq_true, if_false]
    cases hfind : findMappedLib env pid name mapped with
    | none =>
      have h := ih (done ++ [""]) (flags ++ [false]) (by simp [hlen])
      simp only [List.length_append, List.length_singleton, List.append_assoc,
        List.singleton_append] at h
      simp only [h, List.map_cons, hfind, Option.getD_none]
    | some c =>
      have h := ih (done ++ [c]) (flags ++ [true]) (by simp [hlen])
      simp only [List.length_append, List.length_singleton, List.append_assoc,
        List.singleton_append] at h
      have hset1 : (done ++ "" :: List.replicate rest.length "").set done.length c
          = done ++ c :: List.replicate rest.length "" := by
        rw [List.set_append_right _ _ (by omega)]
        simp
      have hset2 : (flags ++ false :: List.replicate rest.length false).set done.length true
          = flags ++ true :: List.replicate rest.length false := by
        rw [List.set_append_right _ _ (by omega), hlen]
        simp
      simp only [hset1, hset2, h, List.map_cons, hfind, Option.getD_some]

/-- What the search over the mapped paths assigns: the resolved form of a mapped
path that ends with the library name, if one resolves; nothing if none does. -/
theorem findMappedLib_spec (env : Env) (pid : Nat) (lib_name : String) (mapped : List String) :
    (∃ p ∈ mapped, EndsWith p lib_name = true ∧
        env.ResolvePath pid p = .ok ((findMappedLib env pid lib_name mapped).getD "")) ∨
      (findMappedLib env pid lib_name mapped = none ∧
        ∀ p ∈ mapped, EndsWith p lib_name = true → ∀ c, env.ResolvePath pid p ≠ .ok c) := by
  induction mapped with
  | nil => right; exact ⟨rfl, by simp⟩
  | cons p rest ih =>
    rw [findMappedLib]
    by_cases hend : EndsWith p lib_name = true
    · rw [if_pos hend]
      cases hres : env.ResolvePath pid p with
      | ok c =>
        left
        exact ⟨p, List.mem_cons_self _ _, hend, by simp [hres]⟩
      | error e =>
        simp only []
        rcases ih with ⟨q, hq, hqe, hqr⟩ | ⟨hnone, hall⟩
        · left
          exact ⟨q, List.mem_cons_of_mem _ hq, hqe, hqr⟩
        · right
          refine ⟨hnone, ?_⟩
          intro q hq hqe c
          rcases List.mem_cons.1 hq with rfl | hq
          · rw [hres]; simp
          · exact hall q hq hqe c
    · rw [if_neg hend]
      rcases ih with ⟨q, hq, hqe, hqr⟩ | ⟨hnone, hall⟩
      · left
        exact ⟨q, List.mem_cons_of_mem _ hq, hqe, hqr⟩
      · right
        refine ⟨hnone, ?_⟩
        intro q hq hqe c
        rcases List.mem_cons.1 hq with rfl | hq
        · exact absurd hqe hend
        · exact hall q hq hqe c

/-- C18. When the path resolver of the pid is created and `GetMapPaths`
succeeds, `FindLibraryPaths` returns a vector of exactly `lib_names.size()`
paths, in the order of `lib_names`. Entry `i` is the successfully resolved form
of a mapped path that ends with `lib_names[i]`, or else it is the empty path
and no mapped path ending with `lib_names[i]` resolves successfully. So (a
successful resolution never being the empty path) entry `i` is empty exactly
when no mapped path ending with `lib_names[i]` resolves successfully. -/
theorem FindLibraryPaths_returns_resolved_paths (env : Env) (lib_names : List String) (pid : Nat)
    (mapped : List String)
    (hcreate : env.FilePathResolver_Create (some pid) = Status.OK)
    (hmaps : env.GetMapPaths pid = .ok mapped) :
    ∃ libs, FindLibraryPaths env lib_names pid = .ok libs ∧ libs.length = lib_names.length ∧
      ∀ i, i < lib_names.length →
        ((∃ p ∈ mapped, EndsWith p (lib_names.getD i "") = true ∧
            env.ResolvePath pid p = .ok (libs.getD i "")) ∨
          (libs.getD i "" = "" ∧
            ∀ p ∈ mapped, EndsWith p (lib_names.getD i "") = true →
              ∀ c, env.ResolvePath pid p ≠ .ok c)) ∧
        ((∀ p ∈ mapped, env.ResolvePath pid p ≠ .ok "") →
          (libs.getD i "" = "" ↔
            ∀ p ∈ mapped, EndsWith p (lib_names.getD i "") = true →
              ∀ c, env.ResolvePath pid p ≠ .ok c)) := by
  refine ⟨lib_names.map (fun name => (findMappedLib env pid name mapped).getD ""), ?_, by simp, ?_⟩
  · unfold FindLibraryPaths
    rw [hcreate, hmaps]
    have h := findLibraryLoop_eq env pid mapped lib_names [] [] rfl
    simp only [List.length_nil, List.nil_append] at h
    simp only [List.enum_eq_enumFrom, h]
  · intro i hi
    have hget : (lib_names.map (fun name => (findMappedLib env pid name mapped).getD "")).getD i ""
        = (findMappedLib env pid (lib_names.getD i "") mapped).getD "" := by
      simp [List.getD_eq_getElem?_getD, List.getElem?_map, List.getElem?_eq_getElem hi]
    rw [hget]
    have hspec := findMappedLib_spec env pid (lib_names.getD i "") mapped
    constructor
    · rcases hspec with h | ⟨hnone, hall⟩
      · exact Or.inl h
      · exact Or.inr ⟨by rw [hnone]; rfl, hall⟩
    · intro hnonempty
      constructor
      · intro hempty
        rcases hspec with ⟨p, hp, _, hres⟩ | ⟨_, hall⟩
        · rw [hempty] at hres
          exact absurd hres (hnonempty p hp)
        · exact hall
      · intro hall
        rcases hspec with ⟨p, hp, hpe, hres⟩ | ⟨hnone, _⟩
        · exact absurd hres (hall p hp hpe _)
        · rw [hnone]; rfl

/-- C18 on `opensslHost`: both libraries of process 7 are found, in the order asked. -/
theorem FindLibraryPaths_returns_resolved_paths_witness :
    ∃ libs, FindLibraryPaths opensslHost ["libssl.so.1.1", "libcrypto.so.1.1"] 7 = .ok libs ∧
      libs.length = ["libssl.so.1.1", "libcrypto.so.1.1"].length ∧
      ∀ i, i < ["libssl.so.1.1", "libcrypto.so.1.1"].length →
        ((∃ p ∈ ["/usr/lib/libssl.so.1.1", "/usr/lib/libcrypto.so.1.1"],
            EndsWith p ((["libssl.so.1.1", "libcrypto.so.1.1"] : List String).getD i "") = true ∧
            opensslHost.ResolvePath 7 p = .ok (libs.getD i "")) ∨
          (libs.getD i "" = "" ∧
            ∀ p ∈ ["/usr/lib/libssl.so.1.1", "/usr/lib/libcrypto.so.1.1"],
              EndsWith p ((["libssl.so.1.1", "libcrypto.so.1.1"] : List String).getD i "") = true →
              ∀ c, opensslHost.ResolvePath 7 p ≠ .ok c)) ∧
        ((∀ p ∈ ["/usr/lib/libssl.so.1.1", "/usr/lib/libcrypto.so.1.1"],
            opensslHost.ResolvePath 7 p ≠ .ok "") →
          (libs.getD i "" = "" ↔
            ∀ p ∈ ["/usr/lib/libssl.so.1.1", "/usr/lib/libcrypto.so.1.1"],
              EndsWith p ((["libssl.so.1.1", "libcrypto.so.1.1"] : List String).getD i "") = true →
              ∀ c, opensslHost.ResolvePath 7 p ≠ .ok c)) :=
  FindLibraryPaths_returns_resolved_paths opensslHost ["libssl.so.1.1", "libcrypto.so.1.1"] 7
    ["/usr/lib/libssl.so.1.1", "/usr/lib/libcrypto.so.1.1"] rfl rfl

/-! ## What each pass writes -/

theorem Published_refl {ν : Type} (P : Nat → Prop) (t : BPFHashTable Nat ν) : Published P t t :=
  ⟨fun _ h => h, fun _ h => Or.inl h⟩

theorem Published_trans {ν : Type} {P : Nat → Prop} {t t1 t2 : BPFHashTable Nat ν}
    (h1 : Published P t t1) (h2 : Published P t1 t2) : Published P t t2 := by
  refine ⟨fun k hk => h2.1 k (h1.1 k hk), ?_⟩
  intro kv hkv
  rcases h2.2 kv hkv with h | h
  · exact h1.2 kv h
  · exact Or.inr h

theorem Published_mono {ν : Type} {P Q : Nat → Prop} {t t1 : BPFHashTable Nat ν}
    (hPQ : ∀ k, P k → Q k) (h : Published P t t1) : Published Q t t1 :=
  ⟨h.1, fun kv hkv => (h.2 kv hkv).imp id (hPQ _)⟩

theorem Published_of_eq {ν : Type} (P : Nat → Prop) {t t1 : BPFHashTable Nat ν} (h : t1 = t) :
    Published P t t1 := by
  rw [h]; exact Published_refl P t

/-- One write, accepted or not. -/
theorem Published_update_value {ν : Type} (P : Nat → Prop) (t : BPFHashTable Nat ν) (code : Int)
    (key : Nat) (value : ν) (hP : P key) : Published P t (t.update_value code key value) := by
  unfold BPFHashTable.update_value
  split
  · constructor
    · intro k hk
      by_cases hkk : k = key
      · simp [BPFHashTable.containsKey, hkk]
      · simp only [BPFHashTable.containsKey, List.any_eq_true, decide_eq_true_eq] at hk ⊢
        obtain ⟨kv, hkv, hkey⟩ := hk
        refine ⟨kv, List.mem_cons_of_mem _ ?_, hkey⟩
        simp [BPFHashTable.remove_value, hkv, hkey, hkk]
    · intro kv hkv
      rcases List.mem_cons.1 hkv with rfl | hkv
      · exact Or.inr hP
      · left
        simp only [BPFHashTable.remove_value, List.mem_filter] at hkv
        exact hkv.1
  · exact Published_refl P t

/-- The writes of one record for a list of pids. -/
theorem Published_updateValues {ν : Type} (P : Nat → Prop) (code : Nat → Int) (symaddrs : ν)
    (pids : List Nat) (hP : ∀ pid ∈ pids, P pid) :
    ∀ (t : BPFHashTable Nat ν), Published P t (updateValues code symaddrs pids t) := by
  induction pids with
  | nil => intro t; exact Published_refl P t
  | cons pid rest ih =>
    intro t
    rw [updateValues]
    exact Published_trans (Published_update_value P t _ pid symaddrs (hP pid (List.mem_cons_self _ _)))
      (ih (fun q hq => hP q (List.mem_cons_of_mem _ hq)) _)

/-- The state `AttachOpenSSLUProbes` returns: the OpenSSL table with at most the
write for the pid, the OpenSSL probed-binary set, further requests, and the
ghost tags of the invocation; nothing else. -/
theorem AttachOpenSSLUProbes_shape (env : Env) (pid : Nat) (m : UProbeManager) :
    ∃ t s new, (AttachOpenSSLUProbes env pid m).2 =
        { m with
          openssl_symaddrs_map_ := t
          openssl_probed_binaries_ := s
          bcc_ := m.bcc_ ++ new
          ghost_family := Family.OpenSSL
          ghost_invocation := m.ghost_invocation + 1 } ∧
      Published (fun k => k = pid) m.openssl_symaddrs_map_ t := by
  have hq : ∃ t s new, enter Family.OpenSSL m =
        { m with
          openssl_symaddrs_map_ := t
          openssl_probed_binaries_ := s
          bcc_ := m.bcc_ ++ new
          ghost_family := Family.OpenSSL
          ghost_invocation := m.ghost_invocation + 1 } ∧
      Published (fun k => k = pid) m.openssl_symaddrs_map_ t :=
    ⟨m.openssl_symaddrs_map_, m.openssl_probed_binaries_, [], by simp [enter],
      Published_refl _ _⟩
  unfold AttachOpenSSLUProbes
  simp only []
  split
  · exact hq
  · rename_i libs hfind
    split
    · exact hq
    · split
      · exact hq
      · split
        · exact hq
        · unfold UpdateOpenSSLSymAddrs
          split
          · rename_i e m1 heq
            split at heq
            · simp only [Prod.mk.injEq] at heq
              obtain ⟨_, rfl⟩ := heq
              exact hq
            · simp at heq
          · rename_i v m1 heq
            split at heq
            · simp at heq
            · rename_i symaddrs _
              simp only [Prod.mk.injEq] at heq
              obtain ⟨_, rfl⟩ := heq
              split
              · exact ⟨m.openssl_symaddrs_map_.update_value
                    (env.update_value_code "openssl_symaddrs_map" pid) pid symaddrs,
                  m.openssl_probed_binaries_, [], by simp [enter],
                  Published_update_value _ _ _ _ _ rfl⟩
              · obtain ⟨new, hnew, _⟩ := attachOpenSSLSpecs_result_emits env
                  (env.ToHostPath (libs.getD 0 "")) env.kOpenSSLUProbes
                  env.kOpenSSLUProbes.length
                  { enter Family.OpenSSL m with
                    openssl_symaddrs_map_ :=
                      (enter Family.OpenSSL m).openssl_symaddrs_map_.update_value
                        (env.update_value_code "openssl_symaddrs_map" pid) pid symaddrs
                    openssl_probed_binaries_ :=
                      env.ToHostPath (libs.getD 0 "")
                        :: (enter Family.OpenSSL m).openssl_probed_binaries_ }
                rw [hnew]
                exact ⟨m.openssl_symaddrs_map_.update_value
                    (env.update_value_code "openssl_symaddrs_map" pid) pid symaddrs,
                  env.ToHostPath (libs.getD 0 "") :: m.openssl_probed_binaries_, new,
                  by simp [enter, withCalls], Published_update_value _ _ _ _ _ rfl⟩

/-- The state `AttachGoTLSUProbes` returns: the Go-TLS table with at most the
writes for the pids, the Go-TLS probed-binary set, further Go-TLS requests, and
the ghost tags of the invocation; nothing else. -/
theorem AttachGoTLSUProbes_shape (env : Env) (binary : String) (elf : ElfReader)
    (dwarf : DwarfReader) (pids : List Nat) (m : UProbeManager) :
    ∃ t s new, (AttachGoTLSUProbes env binary elf dwarf pids m).2 =
        { m with
          go_tls_symaddrs_map_ := t
          go_tls_probed_binaries_ := s
          bcc_ := m.bcc_ ++ new
          ghost_family := Family.GoTLS
          ghost_invocation := m.ghost_invocation + 1 } ∧
      Published (fun k => k ∈ pids) m.go_tls_symaddrs_map_ t ∧
      ∀ c ∈ new, c.family = Family.GoTLS := by
  unfold AttachGoTLSUProbes UpdateGoTLSSymAddrs
  simp only []
  cases env.GoTLSSymAddrs elf dwarf with
  | error e =>
    exact ⟨m.go_tls_symaddrs_map_, m.go_tls_probed_binaries_, [], by simp [enter],
      Published_refl _ _, by simp⟩
  | ok symaddrs =>
    simp only []
    split
    · exact ⟨updateValues (env.update_value_code "go_tls_symaddrs_map") symaddrs pids
          m.go_tls_symaddrs_map_, m.go_tls_probed_binaries_, [], by simp [enter],
        Published_updateValues _ _ _ _ (fun _ h => h) _, by simp⟩
    · obtain ⟨new, hm, hnew⟩ := attachTmpls_emits env binary elf env.kGoTLSUProbeTmpls 0
        { (enter Family.GoTLS m) with
          go_tls_symaddrs_map_ :=
            updateValues (env.update_value_code "go_tls_symaddrs_map") symaddrs pids
              (enter Family.GoTLS m).go_tls_symaddrs_map_,
          go_tls_probed_binaries_ := binary :: (enter Family.GoTLS m).go_tls_probed_binaries_ }
      unfold AttachUProbeTmpl
      rw [hm]
      exact ⟨updateValues (env.update_value_code "go_tls_symaddrs_map") symaddrs pids
          m.go_tls_symaddrs_map_, binary :: m.go_tls_probed_binaries_, new,
        by simp [enter, withCalls], Published_updateValues _ _ _ _ (fun _ h => h) _,
        fun c hc => (hnew c hc).1⟩

/-- The state `AttachGoHTTP2Probes` returns: the Go-HTTP/2 table with at most
the writes for the pids, the Go-HTTP/2 probed-binary set, further Go-HTTP/2
requests, and the ghost tags of the invocation; nothing else. -/
theorem AttachGoHTTP2Probes_shape (env : Env) (binary : String) (elf : ElfReader)
    (dwarf : DwarfReader) (pids : List Nat) (m : UProbeManager) :
    ∃ t s new, (AttachGoHTTP2Probes env binary elf dwarf pids m).2 =
        { m with
          go_http2_symaddrs_map_ := t
          http2_probed_binaries_ := s
          bcc_ := m.bcc_ ++ new
          ghost_family := Family.GoHTTP2
          ghost_invocation := m.ghost_invocation + 1 } ∧
      Published (fun k => k ∈ pids) m.go_http2_symaddrs_map_ t ∧
      ∀ c ∈ new, c.family = Family.GoHTTP2 := by
  unfold AttachGoHTTP2Probes UpdateGoHTTP2SymAddrs
  simp only []
  cases env.GoHTTP2SymAddrs elf dwarf with
  | error e =>
    exact ⟨m.go_http2_symaddrs_map_, m.http2_probed_binaries_, [], by simp [enter],
      Published_refl _ _, by simp⟩
  | ok symaddrs =>
    simp only []
    split
    · exact ⟨updateValues (env.update_value_code "http2_symaddrs_map") symaddrs pids
          m.go_http2_symaddrs_map_, m.http2_probed_binaries_, [], by simp [enter],
        Published_updateValues _ _ _ _ (fun _ h => h) _, by simp⟩
    · obtain ⟨new, hm, hnew⟩ := attachTmpls_emits env binary elf env.kHTTP2ProbeTmpls 0
        { (enter Family.GoHTTP2 m) with
          go_http2_symaddrs_map_ :=
            updateValues (env.update_value_code "http2_symaddrs_map") symaddrs pids
              (enter Family.GoHTTP2 m).go_http2_symaddrs_map_,
          http2_probed_binaries_ := binary :: (enter Family.GoHTTP2 m).http2_probed_binaries_ }
      unfold AttachUProbeTmpl
      rw [hm]
      exact ⟨updateValues (env.update_value_code "http2_symaddrs_map") symaddrs pids
          m.go_http2_symaddrs_map_, binary :: m.http2_probed_binaries_, new,
        by simp [enter, withCalls], Published_updateValues _ _ _ _ (fun _ h => h) _,
        fun c hc => (hnew c hc).1⟩

/-- The state `UpdateGoCommonSymAddrs` returns: the Go-common table with at
most the writes for the pids; nothing else. -/
theorem UpdateGoCommonSymAddrs_shape (env : Env) (elf : ElfReader) (dwarf : DwarfReader)
    (pids : List Nat) (m : UProbeManager) :
    ∃ t, (UpdateGoCommonSymAddrs env elf dwarf pids m).2 = { m with go_common_symaddrs_map_ := t } ∧
      Published (fun k => k ∈ pids) m.go_common_symaddrs_map_ t := by
  unfold UpdateGoCommonSymAddrs
  split
  · exact ⟨m.go_common_symaddrs_map_, rfl, Published_refl _ _⟩
  · exact ⟨_, rfl, Published_updateValues _ _ _ _ (fun _ h => h) _⟩

theorem OpenSSLPassEffect_refl (m : UProbeManager) : OpenSSLPassEffect m m :=
  ⟨rfl, rfl, rfl, rfl, rfl, Published_refl _ _⟩

theorem OpenSSLPassEffect_trans {m m1 m2 : UProbeManager} (h1 : OpenSSLPassEffect m m1)
    (h2 : OpenSSLPassEffect m1 m2) : OpenSSLPassEffect m m2 := by
  obtain ⟨common1, http1, tls1, tlsSet1, httpSet1, ssl1⟩ := h1
  obtain ⟨common2, http2, tls2, tlsSet2, httpSet2, ssl2⟩ := h2
  exact ⟨common2.trans common1, http2.trans http1, tls2.trans tls1, tlsSet2.trans tlsSet1,
    httpSet2.trans httpSet1, Published_trans ssl1 ssl2⟩

theorem AttachOpenSSLUProbes_effect (env : Env) (pid : Nat) (m : UProbeManager) :
    OpenSSLPassEffect m (AttachOpenSSLUProbes env pid m).2 := by
  obtain ⟨t, s, new, h, hp⟩ := AttachOpenSSLUProbes_shape env pid m
  rw [h]
  exact ⟨rfl, rfl, rfl, rfl, rfl, Published_mono (fun _ _ => trivial) hp⟩

theorem deployOpenSSLLoop_effect (env : Env) (pids : List UPID) :
    ∀ (count : Nat) (m : UProbeManager),
      OpenSSLPassEffect m (deployOpenSSLLoop env pids count m).2 := by
  induction pids with
  | nil => intro count m; exact OpenSSLPassEffect_refl m
  | cons u rest ih =>
    intro count m
    rw [deployOpenSSLLoop]
    split
    · exact ih _ _
    · have h := AttachOpenSSLUProbes_effect env u.pid m
      revert h
      generalize AttachOpenSSLUProbes env u.pid m = r
      intro h
      rcases r with ⟨_ | _, m1⟩
      · exact OpenSSLPassEffect_trans h (ih _ _)
      · exact OpenSSLPassEffect_trans h (ih _ _)

theorem deployRescan_effect (env : Env) (count : Nat) (m : UProbeManager) :
    OpenSSLPassEffect m (deployRescan env count m).2 := by
  unfold deployRescan
  split
  · obtain ⟨t, ht⟩ := PIDsToRescanForUProbes_snd m
    have h1 : OpenSSLPassEffect m (PIDsToRescanForUProbes m).2 := by
      rw [ht]
      exact ⟨rfl, rfl, rfl, rfl, rfl, Published_refl _ _⟩
    exact OpenSSLPassEffect_trans h1 (deployOpenSSLLoop_effect env _ 0 _)
  · exact OpenSSLPassEffect_refl m

theorem GoPassEffect_refl (P : Nat → Prop) (m : UProbeManager) :
    GoPassEffect P m.cfg_enable_http2_tracing_ m m :=
  ⟨rfl, rfl, rfl, rfl, Published_refl _ _, Published_refl _ _, Published_refl _ _,
    fun _ => ⟨rfl, rfl⟩, Issues_refl _ _⟩

theorem GoPassEffect_trans {P : Nat → Prop} {http2 : Bool} {m m1 m2 : UProbeManager}
    (h1 : GoPassEffect P http2 m m1) (h2 : GoPassEffect P http2 m1 m2) :
    GoPassEffect P http2 m m2 := by
  obtain ⟨a1, a2, a3, a4, a5, a6, a7, a8, a9⟩ := h1
  obtain ⟨b1, b2, b3, b4, b5, b6, b7, b8, b9⟩ := h2
  exact ⟨a1, b2, b3.trans a3, b4.trans a4, Published_trans a5 b5, Published_trans a6 b6,
    Published_trans a7 b7, fun h => ⟨(b8 h).1.trans (a8 h).1, (b8 h).2.trans (a8 h).2⟩,
    Issues_trans a9 b9⟩

theorem GoPassEffect_mono {P Q : Nat → Prop} {http2 : Bool} {m m1 : UProbeManager}
    (hPQ : ∀ k, P k → Q k) (h : GoPassEffect P http2 m m1) : GoPassEffect Q http2 m m1 := by
  obtain ⟨a1, a2, a3, a4, a5, a6, a7, a8, a9⟩ := h
  exact ⟨a1, a2, a3, a4, Published_mono hPQ a5, Published_mono hPQ a6, Published_mono hPQ a7,
    a8, a9⟩

/-- One entry of the Go pass. -/
theorem deployGoBinary_effect (env : Env) (binary : String) (pid_vec : List Nat) (count : Nat)
    (m : UProbeManager) :
    GoPassEffect (fun k => k ∈ pid_vec) m.cfg_enable_http2_tracing_ m
      (deployGoBinary env binary pid_vec count m).2 := by
  unfold deployGoBinary
  split
  · exact GoPassEffect_refl _ _
  · split
    · exact GoPassEffect_refl _ _
    · rename_i elf _
      split
      · exact GoPassEffect_refl _ _
      · split
        · exact GoPassEffect_refl _ _
        · rename_i dwarf _
          obtain ⟨t1, h1, p1⟩ := UpdateGoCommonSymAddrs_shape env elf dwarf pid_vec m
          revert h1
          generalize UpdateGoCommonSymAddrs env elf dwarf pid_vec m = r1
          intro h1
          rcases r1 with ⟨_ | _, m1⟩
          · simp only [] at h1 ⊢
            subst h1
            obtain ⟨t2, s2, n2, h2, p2, f2⟩ := AttachGoTLSUProbes_shape env binary elf dwarf pid_vec
              { m with go_common_symaddrs_map_ := t1 }
            rw [h2]
            simp only []
            split
            · rename_i hflag
              obtain ⟨t3, s3, n3, h3, p3, f3⟩ := AttachGoHTTP2Probes_shape env binary elf dwarf
                pid_vec
                { m with
                  go_common_symaddrs_map_ := t1
                  go_tls_symaddrs_map_ := t2
                  go_tls_probed_binaries_ := s2
                  bcc_ := m.bcc_ ++ n2
                  ghost_family := Family.GoTLS
                  ghost_invocation := m.ghost_invocation + 1 }
              have hres : GoPassEffect (fun k => k ∈ pid_vec) m.cfg_enable_http2_tracing_ m
                  (AttachGoHTTP2Probes env binary elf dwarf pid_vec
                    { m with
                      go_common_symaddrs_map_ := t1
                      go_tls_symaddrs_map_ := t2
                      go_tls_probed_binaries_ := s2
                      bcc_ := m.bcc_ ++ n2
                      ghost_family := Family.GoTLS
                      ghost_invocation := m.ghost_invocation + 1 }).2 := by
                rw [h3]
                refine ⟨rfl, rfl, rfl, rfl, p1, p3, p2, ?_, n2 ++ n3, by simp, ?_⟩
                · intro hf
                  have : m.cfg_enable_http2_tracing_ = true := hflag
                  rw [this] at hf
                  cases hf
                · intro c hc
                  rcases List.mem_append.1 hc with h | h
                  · exact Or.inl (f2 c h)
                  · exact Or.inr ⟨f3 c h, hflag⟩
              split <;> exact hres
            · exact ⟨rfl, rfl, rfl, rfl, p1, Published_refl _ _, p2, fun _ => ⟨rfl, rfl⟩, n2, rfl,
                fun c hc => Or.inl (f2 c hc)⟩
          · simp only [] at h1 ⊢
            subst h1
            exact ⟨rfl, rfl, rfl, rfl, p1, Published_refl _ _, Published_refl _ _,
              fun _ => ⟨rfl, rfl⟩, Issues_refl _ _⟩

/-- The Go pass over the entries of the map. -/
theorem deployGoLoop_effect (env : Env) (http2 : Bool) (all : List (String × List Nat))
    (entries : List (String × List Nat)) :
    ∀ (count : Nat) (m : UProbeManager), m.cfg_enable_http2_tracing_ = http2 →
      (∀ e ∈ entries, e ∈ all) →
      GoPassEffect (fun k => ∃ e ∈ all, k ∈ e.2) http2 m (deployGoLoop env entries count m).2 := by
  induction entries with
  | nil =>
    intro count m h _
    rw [← h]
    exact GoPassEffect_refl _ _
  | cons e rest ih =>
    intro count m h hsub
    obtain ⟨binary, pid_vec⟩ := e
    simp only [deployGoLoop]
    have h1 : GoPassEffect (fun k => ∃ e ∈ all, k ∈ e.2) http2 m
        (deployGoBinary env binary pid_vec count m).2 := by
      rw [← h]
      exact GoPassEffect_mono (fun k hk => ⟨(binary, pid_vec), hsub _ (List.mem_cons_self _ _), hk⟩)
        (deployGoBinary_effect env binary pid_vec count m)
    exact GoPassEffect_trans h1 (ih _ _ h1.2.1 (fun e he => hsub e (List.mem_cons_of_mem _ he)))

/-! ## C13: the Go-HTTP/2 table after a deployment -/

/-- `push_back` adds the pid and keeps the other pids of the map. -/
theorem mapPushBack_pids (key : String) (pid : Nat) :
    ∀ (pids : List (String × List Nat)) (e : String × List Nat), e ∈ mapPushBack pids key pid →
      ∀ k ∈ e.2, k = pid ∨ ∃ e1 ∈ pids, k ∈ e1.2 := by
  intro pids
  induction pids with
  | nil =>
    intro e he k hk
    simp only [mapPushBack, List.mem_singleton] at he
    subst he
    left
    simpa using hk
  | cons head rest ih =>
    intro e he k hk
    obtain ⟨k0, v0⟩ := head
    rw [mapPushBack] at he
    split at he
    · rcases List.mem_cons.1 he with rfl | he
      · rcases List.mem_append.1 hk with h | h
        · exact Or.inr ⟨(k0, v0), List.mem_cons_self _ _, h⟩
        · left; simpa using h
      · exact Or.inr ⟨e, List.mem_cons_of_mem _ he, hk⟩
    · split at he
      · rcases List.mem_cons.1 he with rfl | he
        · left; simpa using hk
        · exact Or.inr ⟨e, he, hk⟩
      · rcases List.mem_cons.1 he with rfl | he
        · exact Or.inr ⟨(k0, v0), List.mem_cons_self _ _, hk⟩
        · rcases ih e he k hk with h | ⟨e1, he1, hk1⟩
          · exact Or.inl h
          · exact Or.inr ⟨e1, List.mem_cons_of_mem _ he1, hk1⟩

/-- Every pid of the map is the pid of one of the identities, or was in the map before. -/
theorem convertPIDsLoop_pids (env : Env) (upids : List UPID) :
    ∀ (pids : List (String × List Nat)) (e : String × List Nat),
      e ∈ convertPIDsLoop env upids pids →
        ∀ k ∈ e.2, (∃ u ∈ upids, u.pid = k) ∨ ∃ e1 ∈ pids, k ∈ e1.2 := by
  induction upids with
  | nil =>
    intro pids e he k hk
    exact Or.inr ⟨e, he, hk⟩
  | cons u rest ih =>
    intro pids e he k hk
    have hstep : ∀ pids1, (∀ e1 ∈ pids1, ∀ k1 ∈ e1.2, k1 = u.pid ∨ ∃ e2 ∈ pids, k1 ∈ e2.2) →
        e ∈ convertPIDsLoop env rest pids1 →
        (∃ v ∈ u :: rest, v.pid = k) ∨ ∃ e1 ∈ pids, k ∈ e1.2 := by
      intro pids1 hp he1
      rcases ih pids1 e he1 k hk with ⟨v, hv, hvk⟩ | ⟨e1, he1, hk1⟩
      · exact Or.inl ⟨v, List.mem_cons_of_mem _ hv, hvk⟩
      · rcases hp e1 he1 k hk1 with h | h
        · exact Or.inl ⟨u, List.mem_cons_self _ _, h.symm⟩
        · exact Or.inr h
    have hsame : ∀ e1 ∈ pids, ∀ k1 ∈ e1.2, k1 = u.pid ∨ ∃ e2 ∈ pids, k1 ∈ e2.2 :=
      fun e1 he1 k1 hk1 => Or.inr ⟨e1, he1, hk1⟩
    rw [convertPIDsLoop] at he
    split at he
    · exact hstep pids hsame he
    · split at he
      · exact hstep pids hsame he
      · split at he
        · exact hstep pids hsame he
        · simp only [] at he
          split at he
          · exact hstep pids hsame he
          · exact hstep _ (fun e1 he1 k1 hk1 => mapPushBack_pids _ _ pids e1 he1 k1 hk1) he

/-- Every pid of the map `ConvertPIDsListToMap` builds is the pid of one of the identities. -/
theorem ConvertPIDsListToMap_pids (env : Env) (upids : List UPID) (e : String × List Nat)
    (he : e ∈ ConvertPIDsListToMap env upids) : ∀ k ∈ e.2, ∃ u ∈ upids, u.pid = k := by
  intro k hk
  unfold ConvertPIDsListToMap at he
  split at he
  · cases he
  · rcases convertPIDsLoop_pids env upids [] e he k hk with h | ⟨e1, he1, _⟩
    · exact h
    · cases he1

/-- What the Go pass of `DeployGoUProbes` writes and issues. -/
theorem DeployGoUProbes_effect (env : Env) (pids : List UPID) (m : UProbeManager) :
    GoPassEffect (fun k => ∃ u ∈ pids, u.pid = k) m.cfg_enable_http2_tracing_ m
      (DeployGoUProbes env pids m).2 :=
  GoPassEffect_mono (fun k ⟨e, he, hk⟩ => ConvertPIDsListToMap_pids env pids e he k hk)
    (deployGoLoop_effect env _ _ _ 0 m rfl (fun _ h => h))

/-- C13, as stated, fails. On `http2Host` with HTTP/2 tracing enabled, the
process (1, 200, 1) is observed, then it is gone and the kernel pid 200 is
reused by the process (1, 200, 9). In the second call the first identity is in
the deleted set, the cleanup removes the entry of pid 200, and the Go pass
writes it again for the new process: after the call the Go-HTTP/2 table has an
entry keyed by the pid of a deleted identity. -/
theorem DeployUProbes_reused_pid_has_http2_entry :
    ({ asid := 1, pid := 200, start_ts := 1 } : UPID) ∈
        (DeployUProbes http2Host [{ asid := 1, pid := 200, start_ts := 9 }]
          (DeployUProbes http2Host [{ asid := 1, pid := 200, start_ts := 1 }]
            (setFlags true false false freshManager))).proc_tracker_.deleted_upids ∧
      (DeployUProbes http2Host [{ asid := 1, pid := 200, start_ts := 9 }]
          (DeployUProbes http2Host [{ asid := 1, pid := 200, start_ts := 1 }]
            (setFlags true false false freshManager))).go_http2_symaddrs_map_.containsKey 200
        = true := by
  decide

/-- C13, amended. Once a `DeployUProbes` call has returned, the Go-HTTP/2 table
has no entry keyed by the pid of an identity of the tracker's deleted set,
unless that pid is also the pid of an identity of the tracker's new set (a
reused pid, whose entry the Go pass may write after the cleanup). -/
theorem DeployUProbes_cleans_deleted_pids (env : Env) (pids : List UPID) (m : UProbeManager)
    (u : UPID) (hdel : u ∈ (DeployUProbes env pids m).proc_tracker_.deleted_upids)
    (hreuse : ∀ v ∈ (DeployUProbes env pids m).proc_tracker_.new_upids, v.pid ≠ u.pid) :
    (DeployUProbes env pids m).go_http2_symaddrs_map_.containsKey u.pid = false := by
  obtain ⟨m2, r3, r4, r5, h2, h3, h4, h5, h⟩ := DeployUProbes_stages env pids m
  have htr := (DeployUProbes_frame env pids m).1
  rw [htr] at hdel hreuse
  rw [h]
  have c2 : m2.go_http2_symaddrs_map_ = m.go_http2_symaddrs_map_.filter
      (fun kv => decide (∀ v ∈ (m.proc_tracker_.Update pids).deleted_upids, kv.1 ≠ v.pid)) := by
    rw [← h2]
    exact (CleanupSymaddrMaps_http2_table _ _)
  have t2 : m2.proc_tracker_ = m.proc_tracker_.Update pids := by
    rw [← h2, CleanupSymaddrMaps_eq]
  have e3 : r3.2.go_http2_symaddrs_map_ = m2.go_http2_symaddrs_map_ := by
    rw [← h3]; exact (deployOpenSSLLoop_effect env _ 0 m2).2.1
  have t3 : r3.2.proc_tracker_ = m2.proc_tracker_ := by
    rw [← h3]; exact (DeployOpenSSLUProbes_frame _ _ _).2.2.2.1
  have e4 : r4.2.go_http2_symaddrs_map_ = r3.2.go_http2_symaddrs_map_ := by
    rw [← h4]; exact (deployRescan_effect env _ _).2.1
  have t4 : r4.2.proc_tracker_ = r3.2.proc_tracker_ := by
    rw [← h4]; exact (deployRescan_frame _ _ _).1
  have p5 := (DeployGoUProbes_effect env r4.2.proc_tracker_.new_upids r4.2).2.2.2.2.2.1
  rw [h5, e4, e3, c2, t4, t3, t2] at p5
  cases hc : r5.2.go_http2_symaddrs_map_.containsKey u.pid with
  | false => rfl
  | true =>
    exfalso
    simp only [BPFHashTable.containsKey, List.any_eq_true, decide_eq_true_eq] at hc
    obtain ⟨kv, hkv, hkey⟩ := hc
    rcases p5.2 kv hkv with hold | ⟨v, hv, hvk⟩
    · simp only [List.mem_filter, decide_eq_true_eq] at hold
      exact hold.2 u hdel hkey
    · exact hreuse v hv (hvk.trans hkey)

/-- The amended C13 on `http2Host`: process (1, 200, 1) is observed, then
process (1, 201, 9) replaces it; the entry of pid 200 is gone. -/
theorem DeployUProbes_cleans_deleted_pids_witness :
    (DeployUProbes http2Host [{ asid := 1, pid := 201, start_ts := 9 }]
        (DeployUProbes http2Host [{ asid := 1, pid := 200, start_ts := 1 }]
          (setFlags true false false freshManager))).go_http2_symaddrs_map_.containsKey 200
      = false :=
  DeployUProbes_cleans_deleted_pids http2Host [{ asid := 1, pid := 201, start_ts := 9 }]
    (DeployUProbes http2Host [{ asid := 1, pid := 200, start_ts := 1 }]
      (setFlags true false false freshManager))
    { asid := 1, pid := 200, start_ts := 1 } (by decide) (by decide)

/-! ## C15: the Go pass with HTTP/2 tracing disabled -/

/-- The Go loop on `pre ++ rest` runs `pre`, then `rest`. -/
theorem deployGoLoop_append (env : Env) (pre rest : List (String × List Nat)) :
    ∀ (count : Nat) (m : UProbeManager),
      deployGoLoop env (pre ++ rest) count m =
        deployGoLoop env rest (deployGoLoop env pre count m).1 (deployGoLoop env pre count m).2 := by
  induction pre with
  | nil => intro count m; rfl
  | cons e pre ih =>
    intro count m
    obtain ⟨binary, pid_vec⟩ := e
    simp only [List.cons_append, deployGoLoop]
    exact ih _ _

/-- One entry of the Go pass that reaches the attach steps: the binary is not
skipped, its readers open, it is a Go binary and its Go-common record resolves.
The Go-TLS step runs, then the Go-HTTP/2 step if tracing is enabled; each adds
its value to the count, or nothing if it ends in an error. -/
theorem deployGoBinary_reached (env : Env) (binary : String) (pid_vec : List Nat) (count : Nat)
    (m : UProbeManager) (elf : ElfReader) (dwarf : DwarfReader) (common : go_common_symaddrs_t)
    (hskip : ¬ skipsSelf env m.cfg_disable_self_probing_ pid_vec)
    (helf : env.ElfReader_Create binary = .ok elf)
    (hgo : (env.SymbolAddress elf "runtime.buildVersion").isSome = true)
    (hdwarf : env.DwarfReader_Create binary = .ok dwarf)
    (hcommon : env.GoCommonSymAddrs elf dwarf = .ok common) :
    deployGoBinary env binary pid_vec count m =
      if (AttachGoTLSUProbes env binary elf dwarf pid_vec
          { m with
            go_common_symaddrs_map_ :=
              updateValues (env.update_value_code "go_common_symaddrs_map") common pid_vec
                m.go_common_symaddrs_map_ }).2.cfg_enable_http2_tracing_ = true then
        (count +
            okCount (AttachGoTLSUProbes env binary elf dwarf pid_vec
              { m with
                go_common_symaddrs_map_ :=
                  updateValues (env.update_value_code "go_common_symaddrs_map") common pid_vec
                    m.go_common_symaddrs_map_ }).1 +
            okCount (AttachGoHTTP2Probes env binary elf dwarf pid_vec
              (AttachGoTLSUProbes env binary elf dwarf pid_vec
                { m with
                  go_common_symaddrs_map_ :=
                    updateValues (env.update_value_code "go_common_symaddrs_map") common pid_vec
                      m.go_common_symaddrs_map_ }).2).1,
          (AttachGoHTTP2Probes env binary elf dwarf pid_vec
            (AttachGoTLSUProbes env binary elf dwarf pid_vec
              { m with
                go_common_symaddrs_map_ :=
                  updateValues (env.update_value_code "go_common_symaddrs_map") common pid_vec
                    m.go_common_symaddrs_map_ }).2).2)
      else
        (count +
            okCount (AttachGoTLSUProbes env binary elf dwarf pid_vec
              { m with
                go_common_symaddrs_map_ :=
                  updateValues (env.update_value_code "go_common_symaddrs_map") common pid_vec
                    m.go_common_symaddrs_map_ }).1,
          (AttachGoTLSUProbes env binary elf dwarf pid_vec
            { m with
              go_common_symaddrs_map_ :=
                updateValues (env.update_value_code "go_common_symaddrs_map") common pid_vec
                  m.go_common_symaddrs_map_ }).2) := by
  have hskip1 : ¬ (m.cfg_disable_self_probing_ = true ∧ pid_vec.length = 1 ∧
      pid_vec.head? = some env.getpid) := hskip
  unfold deployGoBinary
  rw [if_neg hskip1]
  simp only [helf, hgo, hdwarf, UpdateGoCommonSymAddrs, hcommon, Bool.true_eq_false, if_false]
  generalize AttachGoTLSUProbes env binary elf dwarf pid_vec _ = r2
  split
  · generalize AttachGoHTTP2Probes env binary elf dwarf pid_vec r2.2 = r3
    rcases r2 with ⟨_ | _, m2⟩ <;> rcases r3 with ⟨_ | _, m3⟩ <;> simp [okCount]
  · rcases r2 with ⟨_ | _, m2⟩ <;> simp [okCount]

/-- `AttachGoTLSUProbes` on a binary that is not in the Go-TLS probed-binary set
and whose Go-TLS record resolves: the record is published, the binary is
inserted, and the Go-TLS templates are handed to `AttachUProbeTmpl`. -/
theorem AttachGoTLSUProbes_new_binary (env : Env) (binary : String) (elf : ElfReader)
    (dwarf : DwarfReader) (pids : List Nat) (m : UProbeManager) (tls : go_tls_symaddrs_t)
    (htls : env.GoTLSSymAddrs elf dwarf = .ok tls) (hnew : binary ∉ m.go_tls_probed_binaries_) :
    AttachGoTLSUProbes env binary elf dwarf pids m =
      AttachUProbeTmpl env env.kGoTLSUProbeTmpls binary elf
        { m with
          go_tls_symaddrs_map_ :=
            updateValues (env.update_value_code "go_tls_symaddrs_map") tls pids
              m.go_tls_symaddrs_map_
          go_tls_probed_binaries_ := binary :: m.go_tls_probed_binaries_
          ghost_family := Family.GoTLS
          ghost_invocation := m.ghost_invocation + 1 } := by
  unfold AttachGoTLSUProbes UpdateGoTLSSymAddrs
  simp only [htls]
  rw [if_neg (by simpa [enter] using hnew)]
  rfl

/-- C15, as stated, fails, in two ways. On `agentHost` every process runs the Go
binary `/agent`, whose records resolve, and HTTP/2 tracing is disabled. First:
after process 101 has been deployed, a new process 102 running the same binary
gets no Go-TLS request, the binary being in the Go-TLS probed-binary set
already. Second: with self-probing disabled, the agent's own new process gets no
Go-TLS request either. -/
theorem DeployGoUProbes_issues_no_tls_request :
    freshManager.cfg_enable_http2_tracing_ = false ∧
      (agentHost.SymbolAddress { binary := "/agent" } "runtime.buildVersion").isSome = true ∧
      callsSince (DeployGoUProbes agentHost [otherUPID] freshManager).2
        (DeployGoUProbes agentHost [{ asid := 1, pid := 102, start_ts := 3 }]
          (DeployGoUProbes agentHost [otherUPID] freshManager).2).2 = [] ∧
      callsSince (setFlags false true false freshManager)
        (DeployGoUProbes agentHost [agentUPID] (setFlags false true false freshManager)).2
        = [] := by
  decide

/-- C15, amended. With HTTP/2 tracing disabled, `DeployGoUProbes` issues Go-TLS
requests only, leaves the Go-HTTP/2 probed-binary set as it was and writes
nothing into the Go-HTTP/2 table. And when its loop reaches the entry of a
binary (after the entries `pre` of the map) that is not skipped as the agent
itself, whose ELF and DWARF readers open, that has `runtime.buildVersion`,
whose Go-common and Go-TLS records resolve, and that is not yet in the Go-TLS
probed-binary set, it attaches the Go-TLS templates to the binary: it publishes
the two records for the pids of the entry, inserts the binary in the Go-TLS set,
runs `AttachUProbeTmpl` on the Go-TLS templates, adds its value to the count (or
nothing if it ends in an error), and goes on with the remaining entries. -/
theorem DeployGoUProbes_http2_disabled (env : Env) (pids : List UPID) (m : UProbeManager)
    (hflag : m.cfg_enable_http2_tracing_ = false) :
    ((DeployGoUProbes env pids m).2.http2_probed_binaries_ = m.http2_probed_binaries_ ∧
        (DeployGoUProbes env pids m).2.go_http2_symaddrs_map_ = m.go_http2_symaddrs_map_ ∧
        ∀ c ∈ callsSince m (DeployGoUProbes env pids m).2, c.family = Family.GoTLS) ∧
      ∀ (pre post : List (String × List Nat)) (binary : String) (pid_vec : List Nat)
        (elf : ElfReader) (dwarf : DwarfReader) (common : go_common_symaddrs_t)
        (tls : go_tls_symaddrs_t),
        ConvertPIDsListToMap env pids = pre ++ (binary, pid_vec) :: post →
        ¬ skipsSelf env m.cfg_disable_self_probing_ pid_vec →
        env.ElfReader_Create binary = .ok elf →
        (env.SymbolAddress elf "runtime.buildVersion").isSome = true →
        env.DwarfReader_Create binary = .ok dwarf →
        env.GoCommonSymAddrs elf dwarf = .ok common →
        env.GoTLSSymAddrs elf dwarf = .ok tls →
        binary ∉ (deployGoLoop env pre 0 m).2.go_tls_probed_binaries_ →
        DeployGoUProbes env pids m =
          deployGoLoop env post
            ((deployGoLoop env pre 0 m).1 +
              okCount (AttachUProbeTmpl env env.kGoTLSUProbeTmpls binary elf
                (goTLSAttachState env binary pid_vec common tls (deployGoLoop env pre 0 m).2)).1)
            (AttachUProbeTmpl env env.kGoTLSUProbeTmpls binary elf
              (goTLSAttachState env binary pid_vec common tls (deployGoLoop env pre 0 m).2)).2 := by
  constructor
  · obtain ⟨_, _, _, _, _, _, _, h8, h9⟩ := DeployGoUProbes_effect env pids m
    rw [hflag] at h8 h9
    refine ⟨(h8 rfl).2, (h8 rfl).1, ?_⟩
    intro c hc
    rcases Issues_callsSince h9 c hc with h | ⟨_, h⟩
    · exact h
    · cases h
  · intro pre post binary pid_vec elf dwarf common tls hmap hskip helf hgo hdwarf hcommon htls hnew
    have hfr : Frame m (deployGoLoop env pre 0 m).2 :=
      (deployGoLoop_pass env m.cfg_disable_self_probing_ pre pre 0 m rfl (fun _ h => h)).1
    have hskip1 : ¬ skipsSelf env (deployGoLoop env pre 0 m).2.cfg_disable_self_probing_ pid_vec := by
      rw [hfr.2.1]; exact hskip
    unfold DeployGoUProbes
    rw [hmap, deployGoLoop_append]
    simp only [deployGoLoop]
    rw [deployGoBinary_reached env binary pid_vec _ _ elf dwarf common hskip1 helf hgo hdwarf
      hcommon]
    have hA := AttachGoTLSUProbes_new_binary env binary elf dwarf pid_vec
      { (deployGoLoop env pre 0 m).2 with
        go_common_symaddrs_map_ :=
          updateValues (env.update_value_code "go_common_symaddrs_map") common pid_vec
            (deployGoLoop env pre 0 m).2.go_common_symaddrs_map_ } tls htls hnew
    rw [hA]
    have hM : ({ (deployGoLoop env pre 0 m).2 with
          go_common_symaddrs_map_ :=
            updateValues (env.update_value_code "go_common_symaddrs_map") common pid_vec
              (deployGoLoop env pre 0 m).2.go_common_symaddrs_map_
          go_tls_symaddrs_map_ :=
            updateValues (env.update_value_code "go_tls_symaddrs_map") tls pid_vec
              (deployGoLoop env pre 0 m).2.go_tls_symaddrs_map_
          go_tls_probed_binaries_ := binary :: (deployGoLoop env pre 0 m).2.go_tls_probed_binaries_
          ghost_family := Family.GoTLS
          ghost_invocation := (deployGoLoop env pre 0 m).2.ghost_invocation + 1 } : UProbeManager)
        = goTLSAttachState env binary pid_vec common tls (deployGoLoop env pre 0 m).2 := rfl
    simp only [] at hM ⊢
    rw [hM]
    have hcfg : (AttachUProbeTmpl env env.kGoTLSUProbeTmpls binary elf
        (goTLSAttachState env binary pid_vec common tls
          (deployGoLoop env pre 0 m).2)).2.cfg_enable_http2_tracing_ = false := by
      obtain ⟨new, hq, _⟩ := attachTmpls_emits env binary elf env.kGoTLSUProbeTmpls 0
        (goTLSAttachState env binary pid_vec common tls (deployGoLoop env pre 0 m).2)
      unfold AttachUProbeTmpl
      rw [hq]
      show (deployGoLoop env pre 0 m).2.cfg_enable_http2_tracing_ = false
      rw [hfr.1]
      exact hflag
    rw [if_neg (by rw [hcfg]; simp)]

/-- The amended C15 on `agentHost`: with HTTP/2 tracing disabled, the new
process 101 gets Go-TLS requests only, the Go-HTTP/2 set and table stay empty,
and the pass attaches the Go-TLS templates to its binary `/agent`, the only
entry of the map. -/
theorem DeployGoUProbes_http2_disabled_witness :
    ((DeployGoUProbes agentHost [otherUPID] freshManager).2.http2_probed_binaries_
          = freshManager.http2_probed_binaries_ ∧
        (DeployGoUProbes agentHost [otherUPID] freshManager).2.go_http2_symaddrs_map_
          = freshManager.go_http2_symaddrs_map_ ∧
        ∀ c ∈ callsSince freshManager (DeployGoUProbes agentHost [otherUPID] freshManager).2,
          c.family = Family.GoTLS) ∧
      DeployGoUProbes agentHost [otherUPID] freshManager =
        deployGoLoop agentHost []
          ((deployGoLoop agentHost [] 0 freshManager).1 +
            okCount (AttachUProbeTmpl agentHost agentHost.kGoTLSUProbeTmpls "/agent"
              { binary := "/agent" }
              (goTLSAttachState agentHost "/agent" [101] [] []
                (deployGoLoop agentHost [] 0 freshManager).2)).1)
          (AttachUProbeTmpl agentHost agentHost.kGoTLSUProbeTmpls "/agent" { binary := "/agent" }
            (goTLSAttachState agentHost "/agent" [101] [] []
              (deployGoLoop agentHost [] 0 freshManager).2)).2 :=
  ⟨(DeployGoUProbes_http2_disabled agentHost [otherUPID] freshManager rfl).1,
    (DeployGoUProbes_http2_disabled agentHost [otherUPID] freshManager rfl).2 [] [] "/agent" [101]
      { binary := "/agent" } { binary := "/agent" } [] [] (by decide)
      (by unfold skipsSelf; decide) rfl rfl rfl rfl rfl (by decide)⟩

/-! ## C19: errors of one pid or binary do not stop the deploy -/

/-- An entry of the Go pass that is dropped before its attach steps leaves the
count and the manager as they were. -/
theorem deployGoBinary_dropped (env : Env) (binary : String) (pid_vec : List Nat) (count : Nat)
    (m : UProbeManager) (h : goBinaryDropped env binary pid_vec m) :
    deployGoBinary env binary pid_vec count m = (count, m) := by
  unfold deployGoBinary
  split
  · rfl
  · rcases h with h | ⟨e, h⟩ | ⟨elf, h, h1⟩
    · rename_i hn; exact absurd h hn
    · simp only [h]
    · simp only [h]
      rcases h1 with h1 | ⟨e, h1⟩ | ⟨dwarf, e, h1, h2⟩
      · simp only [h1, if_true]
      · split
        · rfl
        · simp only [h1]
      · split
        · rfl
        · simp only [h1, UpdateGoCommonSymAddrs, h2]

/-- C19, as stated, fails for a binary of the Go pass, which takes two attach
steps. On `rejectHttp2Host`, with HTTP/2 tracing enabled, the new process 101
runs the Go binary `/agent`: its Go-TLS request is accepted, its Go-HTTP/2
request is rejected by the back end, and the binary still adds 1 to the count
of the deploy. -/
theorem deployUProbesCount_counts_binary_with_rejected_probe :
    (deployUProbesCount rejectHttp2Host [otherUPID]
        (setFlags true false false freshManager)).2.bcc_.map
          (fun c => (c.family, c.spec.binary_path, c.status))
        = [(Family.GoTLS, "/agent", Status.OK),
           (Family.GoHTTP2, "/agent", .error "attach rejected")] ∧
      (deployUProbesCount rejectHttp2Host [otherUPID]
        (setFlags true false false freshManager)).1 = 1 := by
  decide

/-- C19, amended: an attach step that ends in an error adds nothing to the
count, and the deploy goes on. In the OpenSSL pass, a pid whose
`AttachOpenSSLUProbes` ends in an error leaves the count as it was, and the loop
goes on with the remaining pids. In the Go pass, the loop goes on with the
remaining entries after every entry; an entry that is dropped before its attach
steps leaves the count as it was; any other entry adds the value of its Go-TLS
step and, when HTTP/2 tracing is enabled, of its Go-HTTP/2 step, each only if
it does not end in an error. And `DeployUProbes` runs all its passes whatever
their steps returned, its count being the sum of what the passes return. -/
theorem DeployUProbes_failed_step_adds_nothing (env : Env) :
    (∀ (pid : UPID) (rest : List UPID) (count : Nat) (m : UProbeManager) (e : String),
        (AttachOpenSSLUProbes env pid.pid m).1 = .error e →
        deployOpenSSLLoop env (pid :: rest) count m =
          deployOpenSSLLoop env rest count
            (if m.cfg_disable_self_probing_ = true ∧ pid.pid = env.getpid then m
              else (AttachOpenSSLUProbes env pid.pid m).2)) ∧
      (∀ (binary : String) (pid_vec : List Nat) (rest : List (String × List Nat)) (count : Nat)
        (m : UProbeManager),
        deployGoLoop env ((binary, pid_vec) :: rest) count m =
          deployGoLoop env rest (deployGoBinary env binary pid_vec count m).1
            (deployGoBinary env binary pid_vec count m).2) ∧
      (∀ (binary : String) (pid_vec : List Nat) (count : Nat) (m : UProbeManager),
        goBinaryDropped env binary pid_vec m →
        deployGoBinary env binary pid_vec count m = (count, m)) ∧
      (∀ (binary : String) (pid_vec : List Nat) (count : Nat) (m : UProbeManager)
        (elf : ElfReader) (dwarf : DwarfReader) (common : go_common_symaddrs_t),
        ¬ skipsSelf env m.cfg_disable_self_probing_ pid_vec →
        env.ElfReader_Create binary = .ok elf →
        (env.SymbolAddress elf "runtime.buildVersion").isSome = true →
        env.DwarfReader_Create binary = .ok dwarf →
        env.GoCommonSymAddrs elf dwarf = .ok common →
        ∃ tls http2,
          tls = AttachGoTLSUProbes env binary elf dwarf pid_vec
            { m with
              go_common_symaddrs_map_ :=
                updateValues (env.update_value_code "go_common_symaddrs_map") common pid_vec
                  m.go_common_symaddrs_map_ } ∧
          http2 = AttachGoHTTP2Probes env binary elf dwarf pid_vec tls.2 ∧
          deployGoBinary env binary pid_vec count m =
            if tls.2.cfg_enable_http2_tracing_ = true then
              (count + okCount tls.1 + okCount http2.1, http2.2)
            else (count + okCount tls.1, tls.2)) ∧
      (∀ e : String, okCount (.error e) = 0) ∧
      ∀ (pids : List UPID) (m : UProbeManager),
        ∃ m2 r3 r4 r5,
          CleanupSymaddrMaps (m.proc_tracker_.Update pids).deleted_upids
            { m with proc_tracker_ := m.proc_tracker_.Update pids } = m2 ∧
          DeployOpenSSLUProbes env m2.proc_tracker_.new_upids m2 = r3 ∧
          deployRescan env r3.1 r3.2 = r4 ∧
          DeployGoUProbes env r4.2.proc_tracker_.new_upids r4.2 = r5 ∧
          deployUProbesCount env pids m = (r4.1 + r5.1, r5.2) ∧
          r3.1 ≤ r4.1 := by
  refine ⟨?_, ?_, ?_, ?_, fun _ => rfl, ?_⟩
  · intro pid rest count m e he
    simp only [deployOpenSSLLoop]
    split
    · rfl
    · revert he
      generalize AttachOpenSSLUProbes env pid.pid m = r
      intro he
      rcases r with ⟨_ | _, m1⟩
      · cases he
      · rfl
  · intro binary pid_vec rest count m
    rfl
  · intro binary pid_vec count m h
    exact deployGoBinary_dropped env binary pid_vec count m h
  · intro binary pid_vec count m elf dwarf common hskip helf hgo hdwarf hcommon
    exact ⟨_, _, rfl, rfl,
      deployGoBinary_reached env binary pid_vec count m elf dwarf common hskip helf hgo hdwarf
        hcommon⟩
  · intro pids m
    refine ⟨_, _, _, _, rfl, rfl, rfl, rfl, rfl, ?_⟩
    unfold deployRescan
    split
    · exact Nat.le_add_right _ _
    · exact Nat.le_refl _

/-- The amended C19 on `goneHost`: the maps of process 101 cannot be read, so
`AttachOpenSSLUProbes` ends in an error, and the OpenSSL pass goes on with the
next pid without raising the count. -/
theorem DeployUProbes_failed_step_adds_nothing_witness :
    (AttachOpenSSLUProbes goneHost otherUPID.pid freshManager).1 = .error "process gone" ∧
      deployOpenSSLLoop goneHost [otherUPID, agentUPID] 0 freshManager =
        deployOpenSSLLoop goneHost [agentUPID] 0
          (if freshManager.cfg_disable_self_probing_ = true ∧ otherUPID.pid = goneHost.getpid then
            freshManager
          else (AttachOpenSSLUProbes goneHost otherUPID.pid freshManager).2) :=
  ⟨by decide,
    (DeployUProbes_failed_step_adds_nothing goneHost).1 otherUPID [agentUPID] 0 freshManager
      "process gone" (by decide)⟩

/-! ## The stages of one `DeployUProbes` call, on the states -/

/-- The states between the stages of one `DeployUProbes` call. First the
tracker is updated, nothing else changing (state `m1`). Then the cleanup removes
the deleted pids of the updated tracker from the Go-HTTP/2 table, the tables
still holding no entry that `m` did not hold (state `m2`). From then on no table
loses a key. The OpenSSL pass and the rescan statement lead to `m4`: they leave
the Go tables and the Go probed-binary sets as they were after the cleanup, and
issue the OpenSSL requests `ssl` only. The Go pass comes last: it leaves the
OpenSSL table, the OpenSSL probed-binary set, the tracker and the mmap-event
table as they are in `m4`, and its requests `go`, all of a Go family, follow
`ssl` in the log of the back end. -/
theorem DeployUProbes_stage_states (env : Env) (pids : List UPID) (m : UProbeManager) :
    ∃ (m1 m2 m4 : UProbeManager) (ssl go : List AttachCall),
      m1 = { m with proc_tracker_ := m.proc_tracker_.Update pids } ∧
      m2 = CleanupSymaddrMaps m1.proc_tracker_.deleted_upids m1 ∧
      m2 = { m1 with
              go_http2_symaddrs_map_ :=
                m1.proc_tracker_.deleted_upids.foldl
                  (fun t u => BPFHashTable.remove_value t u.pid) m.go_http2_symaddrs_map_ } ∧
      m4 = (deployRescan env (DeployOpenSSLUProbes env m2.proc_tracker_.new_upids m2).1
              (DeployOpenSSLUProbes env m2.proc_tracker_.new_upids m2).2).2 ∧
      DeployUProbes env pids m = (DeployGoUProbes env m4.proc_tracker_.new_upids m4).2 ∧
      OpenSSLPassEffect m2 m4 ∧
      m4.proc_tracker_ = m1.proc_tracker_ ∧
      m4.bcc_ = m.bcc_ ++ ssl ∧
      (∀ c ∈ ssl, c.family = Family.OpenSSL) ∧
      GoPassEffect (fun _ => True) m.cfg_enable_http2_tracing_ m4 (DeployUProbes env pids m) ∧
      Frame m4 (DeployUProbes env pids m) ∧
      (DeployUProbes env pids m).bcc_ = m.bcc_ ++ ssl ++ go ∧
      (∀ c ∈ go, c.family = Family.GoTLS ∨ c.family = Family.GoHTTP2) := by
  obtain ⟨m2, r3, r4, r5, h2, h3, h4, h5, h⟩ := DeployUProbes_stages env pids m
  have e2 : m2 = { ({ m with proc_tracker_ := m.proc_tracker_.Update pids } : UProbeManager) with
      go_http2_symaddrs_map_ :=
        (m.proc_tracker_.Update pids).deleted_upids.foldl
          (fun t u => BPFHashTable.remove_value t u.pid) m.go_http2_symaddrs_map_ } := by
    rw [← h2, CleanupSymaddrMaps_eq]
  have b2 : m2.bcc_ = m.bcc_ := by rw [e2]
  have t2 : m2.proc_tracker_ = m.proc_tracker_.Update pids := by rw [e2]
  have c2 : m2.cfg_enable_http2_tracing_ = m.cfg_enable_http2_tracing_ := by rw [e2]
  have f3 : Frame m2 r3.2 := by rw [← h3]; exact DeployOpenSSLUProbes_frame _ _ _
  have i3 : Issues (fun c => c.family = Family.OpenSSL) m2 r3.2 := by
    rw [← h3]; exact Issues_of_pass (deployOpenSSLLoop_pass env _ 0 _)
  have i4 : Issues (fun c => c.family = Family.OpenSSL) r3.2 r4.2 := by
    rw [← h4]; exact deployRescan_issues env r3.1 r3.2
  obtain ⟨ssl, hssl, hq⟩ := Issues_trans i3 i4
  have p3 : OpenSSLPassEffect m2 r3.2 := by rw [← h3]; exact deployOpenSSLLoop_effect env _ 0 _
  have p4 : OpenSSLPassEffect r3.2 r4.2 := by rw [← h4]; exact deployRescan_effect env r3.1 r3.2
  have fr4 := deployRescan_frame env r3.1 r3.2
  rw [h4] at fr4
  have g5 := DeployGoUProbes_effect env r4.2.proc_tracker_.new_upids r4.2
  rw [h5] at g5
  have f5 : Frame r4.2 r5.2 := by rw [← h5]; exact DeployGoUProbes_frame _ _ _
  have c4 : r4.2.cfg_enable_http2_tracing_ = m.cfg_enable_http2_tracing_ := by
    rw [fr4.2.2.1, f3.1, c2]
  rw [c4] at g5
  have g5t := GoPassEffect_mono (Q := fun _ => True) (fun _ _ => trivial) g5
  obtain ⟨go, hgo, hqg⟩ := g5t.2.2.2.2.2.2.2.2
  refine ⟨_, m2, r4.2, ssl, go, rfl, h2.symm, e2, ?_, ?_, OpenSSLPassEffect_trans p3 p4, ?_, ?_,
    hq, ?_, ?_, ?_, ?_⟩
  · rw [h3, h4]
  · rw [h, h5]
  · rw [fr4.1, f3.2.2.2.1, t2]
  · rw [hssl, b2]
  · rw [h]; exact g5t
  · rw [h]; exact f5
  · rw [h, hgo, hssl, b2]
  · intro c hc
    rcases hqg c hc with h1 | ⟨h1, _⟩
    · exact Or.inl h1
    · exact Or.inr h1

/-! ## C21: a probed binary is inserted first and never attached again -/

theorem ProbedGrows_refl (m : UProbeManager) : ProbedGrows m m :=
  ⟨fun _ _ h => h, [], by simp, by simp⟩

theorem ProbedGrows_trans {m m1 m2 : UProbeManager} (h1 : ProbedGrows m m1)
    (h2 : ProbedGrows m1 m2) : ProbedGrows m m2 := by
  obtain ⟨sub1, first, hfirst, hq1⟩ := h1
  obtain ⟨sub2, second, hsecond, hq2⟩ := h2
  refine ⟨fun F b h => sub2 F b (sub1 F b h), first ++ second, by simp [hsecond, hfirst], ?_⟩
  intro c hc
  rcases List.mem_append.1 hc with h | h
  · exact ⟨(hq1 c h).1, sub2 _ _ (hq1 c h).2⟩
  · exact ⟨fun hin => (hq2 c h).1 (sub1 _ _ hin), (hq2 c h).2⟩

/-- A change that touches neither the back end nor the probed-binary sets. -/
theorem ProbedGrows_quiet (m m1 : UProbeManager) (hb : m1.bcc_ = m.bcc_)
    (hp : ∀ G, m1.probed G = m.probed G) : ProbedGrows m m1 :=
  ⟨fun F b h => by rw [hp]; exact h, [], by simp [hb], by simp⟩

/-- An attach step only inserts, and its requests carry the inserted binary. -/
theorem ProbedGrows_of_step {F : Family} {P : String → Prop} {m m1 : UProbeManager}
    (h : AttachStep F P m m1) : ProbedGrows m m1 := by
  obtain ⟨_, _, hother, hcase⟩ := h
  have hsub : ∀ G x, x ∈ m.probed G → x ∈ m1.probed G := by
    intro G x hx
    by_cases hG : G = F
    · subst hG
      rcases hcase with ⟨_, h2⟩ | ⟨b, new, _, _, h2, _⟩
      · rw [h2]; exact hx
      · rw [h2]; exact List.mem_cons_of_mem _ hx
    · rw [hother G hG]; exact hx
  refine ⟨hsub, ?_⟩
  rcases hcase with ⟨hlog, _⟩ | ⟨b, new, _, hnot, hset, hlog, hnew⟩
  · exact ⟨[], by simp [hlog], by simp⟩
  · refine ⟨new, hlog, ?_⟩
    intro c hc
    obtain ⟨e1, _, e3⟩ := hnew c hc
    rw [e1, e3, hset]
    exact ⟨hnot, List.mem_cons_self _ _⟩

theorem deployOpenSSLLoop_grows (env : Env) (pids : List UPID) :
    ∀ (count : Nat) (m : UProbeManager),
      ProbedGrows m (deployOpenSSLLoop env pids count m).2 := by
  induction pids with
  | nil => intro count m; exact ProbedGrows_refl _
  | cons pid rest ih =>
    intro count m
    simp only [deployOpenSSLLoop]
    split
    · exact ih _ _
    · have h := ProbedGrows_of_step (AttachOpenSSLUProbes_step env pid.pid m)
      revert h
      generalize AttachOpenSSLUProbes env pid.pid m = r
      intro h
      rcases r with ⟨_ | _, m1⟩
      · exact ProbedGrows_trans h (ih _ _)
      · exact ProbedGrows_trans h (ih _ _)

theorem deployGoBinary_grows (env : Env) (binary : String) (pid_vec : List Nat) (count : Nat)
    (m : UProbeManager) : ProbedGrows m (deployGoBinary env binary pid_vec count m).2 := by
  unfold deployGoBinary
  split
  · exact ProbedGrows_refl _
  · split
    · exact ProbedGrows_refl _
    · rename_i elf _
      split
      · exact ProbedGrows_refl _
      · split
        · exact ProbedGrows_refl _
        · rename_i dwarf _
          have h1 : ProbedGrows m (UpdateGoCommonSymAddrs env elf dwarf pid_vec m).2 := by
            unfold UpdateGoCommonSymAddrs
            split
            · exact ProbedGrows_refl _
            · exact ProbedGrows_quiet _ _ rfl (fun G => by cases G <;> rfl)
          revert h1
          generalize UpdateGoCommonSymAddrs env elf dwarf pid_vec m = r1
          intro h1
          rcases r1 with ⟨_ | _, m1⟩
          · simp only []
            have h2 := ProbedGrows_of_step (AttachGoTLSUProbes_step env binary elf dwarf pid_vec m1)
            have h3 := ProbedGrows_of_step (AttachGoHTTP2Probes_step env binary elf dwarf pid_vec
              (AttachGoTLSUProbes env binary elf dwarf pid_vec m1).2)
            split
            · have h := ProbedGrows_trans h1 (ProbedGrows_trans h2 h3)
              split <;> exact h
            · exact ProbedGrows_trans h1 h2
          · exact h1

theorem deployGoLoop_grows (env : Env) (entries : List (String × List Nat)) :
    ∀ (count : Nat) (m : UProbeManager), ProbedGrows m (deployGoLoop env entries count m).2 := by
  induction entries with
  | nil => intro count m; exact ProbedGrows_refl _
  | cons e rest ih =>
    intro count m
    obtain ⟨binary, pid_vec⟩ := e
    simp only [deployGoLoop]
    exact ProbedGrows_trans (deployGoBinary_grows env binary pid_vec count m) (ih _ _)

theorem deployRescan_grows (env : Env) (count : Nat) (m : UProbeManager) :
    ProbedGrows m (deployRescan env count m).2 := by
  unfold deployRescan
  split
  · obtain ⟨t, ht⟩ := PIDsToRescanForUProbes_snd m
    refine ProbedGrows_trans ?_ (deployOpenSSLLoop_grows env _ 0 _)
    rw [ht]
    exact ProbedGrows_quiet _ _ rfl (fun G => by cases G <;> rfl)
  · exact ProbedGrows_refl _

theorem DeployUProbes_grows (env : Env) (pids : List UPID) (m : UProbeManager) :
    ProbedGrows m (DeployUProbes env pids m) := by
  obtain ⟨m2, r3, r4, r5, h2, h3, h4, h5, h⟩ := DeployUProbes_stages env pids m
  rw [h]
  have g2 : ProbedGrows m m2 := by
    rw [← h2, CleanupSymaddrMaps_eq]
    exact ProbedGrows_quiet _ _ rfl (fun G => by cases G <;> rfl)
  have g3 : ProbedGrows m2 r3.2 := by rw [← h3]; exact deployOpenSSLLoop_grows env _ 0 _
  have g4 : ProbedGrows r3.2 r4.2 := by rw [← h4]; exact deployRescan_grows env _ _
  have g5 : ProbedGrows r4.2 r5.2 := by rw [← h5]; exact deployGoLoop_grows env _ 0 _
  exact ProbedGrows_trans g2 (ProbedGrows_trans g3 (ProbedGrows_trans g4 g5))

theorem runDeploys_grows (calls : List DeployCall) :
    ∀ (m : UProbeManager), ProbedGrows m (runDeploys calls m) := by
  induction calls with
  | nil => intro m; exact ProbedGrows_refl _
  | cons call rest ih =>
    intro m
    simp only [runDeploys]
    refine ProbedGrows_trans ?_ (ih _)
    refine ProbedGrows_trans ?_ (DeployUProbes_grows _ _ _)
    exact ProbedGrows_quiet _ _ rfl (fun G => by cases G <;> rfl)

/-- A state `M` with a new binary `b` inserted in the family's set and no
request issued yet, followed by the requests of the loop `attach`. -/
theorem InsertsFirst_of_emits (F : Family) (attach : String → UProbeManager → UProbeManager)
    (m M r : UProbeManager) (b : String)
    (hE : Emits M.ghost_family M.ghost_invocation b M r) (hF : M.ghost_family = F)
    (hnot : b ∉ m.probed F) (hb : M.bcc_ = m.bcc_) (hs : M.probed F = b :: m.probed F)
    (hr : r = attach b M) : InsertsFirst F attach m r := by
  obtain ⟨new, hm, hnew⟩ := hE
  refine Or.inr ⟨b, M, new, hnot, hb, hs, hr, hm, ?_⟩
  intro c hc
  exact ⟨by rw [(hnew c hc).1, hF], (hnew c hc).2.2⟩

/-- `AttachGoTLSUProbes` inserts the binary before `AttachUProbeTmpl` runs. -/
theorem AttachGoTLSUProbes_insertsFirst (env : Env) (binary : String) (elf : ElfReader)
    (dwarf : DwarfReader) (pids : List Nat) (m : UProbeManager) :
    InsertsFirst Family.GoTLS
      (fun b M => (AttachUProbeTmpl env env.kGoTLSUProbeTmpls b elf M).2) m
      (AttachGoTLSUProbes env binary elf dwarf pids m).2 := by
  unfold AttachGoTLSUProbes UpdateGoTLSSymAddrs
  simp only []
  cases env.GoTLSSymAddrs elf dwarf with
  | error e => exact Or.inl ⟨rfl, fun G => by cases G <;> rfl⟩
  | ok symaddrs =>
    simp only []
    split
    · exact Or.inl ⟨rfl, fun G => by cases G <;> rfl⟩
    · rename_i hnot
      exact InsertsFirst_of_emits _ _ _ _ _ _
        (attachTmpls_emits env binary elf env.kGoTLSUProbeTmpls 0 _) rfl hnot rfl rfl rfl

/-- `AttachGoHTTP2Probes` inserts the binary before `AttachUProbeTmpl` runs. -/
theorem AttachGoHTTP2Probes_insertsFirst (env : Env) (binary : String) (elf : ElfReader)
    (dwarf : DwarfReader) (pids : List Nat) (m : UProbeManager) :
    InsertsFirst Family.GoHTTP2
      (fun b M => (AttachUProbeTmpl env env.kHTTP2ProbeTmpls b elf M).2) m
      (AttachGoHTTP2Probes env binary elf dwarf pids m).2 := by
  unfold AttachGoHTTP2Probes UpdateGoHTTP2SymAddrs
  simp only []
  cases env.GoHTTP2SymAddrs elf dwarf with
  | error e => exact Or.inl ⟨rfl, fun G => by cases G <;> rfl⟩
  | ok symaddrs =>
    simp only []
    split
    · exact Or.inl ⟨rfl, fun G => by cases G <;> rfl⟩
    · rename_i hnot
      exact InsertsFirst_of_emits _ _ _ _ _ _
        (attachTmpls_emits env binary elf env.kHTTP2ProbeTmpls 0 _) rfl hnot rfl rfl rfl

/-- `AttachOpenSSLUProbes` inserts the host libssl path before the loop over
the probe list runs. -/
theorem AttachOpenSSLUProbes_insertsFirst (env : Env) (pid : Nat) (m : UProbeManager) :
    InsertsFirst Family.OpenSSL
      (fun b M => (attachOpenSSLSpecs env b env.kOpenSSLUProbes M).2) m
      (AttachOpenSSLUProbes env pid m).2 := by
  have hq : InsertsFirst Family.OpenSSL
      (fun b M => (attachOpenSSLSpecs env b env.kOpenSSLUProbes M).2) m
      (enter Family.OpenSSL m) := Or.inl ⟨rfl, fun G => by cases G <;> rfl⟩
  unfold AttachOpenSSLUProbes
  simp only []
  split
  · exact hq
  · split
    · exact hq
    · split
      · exact hq
      · split
        · exact hq
        · unfold UpdateOpenSSLSymAddrs
          split
          · rename_i e m1 heq
            split at heq
            · simp only [Prod.mk.injEq] at heq
              obtain ⟨_, rfl⟩ := heq
              exact hq
            · simp at heq
          · rename_i v m1 heq
            split at heq
            · simp at heq
            · rename_i symaddrs _
              simp only [Prod.mk.injEq] at heq
              obtain ⟨_, rfl⟩ := heq
              split
              · exact Or.inl ⟨rfl, fun G => by cases G <;> rfl⟩
              · rename_i hnot
                refine InsertsFirst_of_emits _ _ _ _ _ _
                  (attachOpenSSLSpecs_result_emits env _ _ _ _) rfl hnot rfl rfl ?_
                simp only []
                generalize attachOpenSSLSpecs env _ env.kOpenSSLUProbes _ = r
                rcases r with ⟨_ | _, _⟩ <;> rfl

/-- C21. Each of `AttachOpenSSLUProbes`, `AttachGoTLSUProbes` and
`AttachGoHTTP2Probes` either issues no request and leaves the probed-binary
sets as they were, or inserts the binary into its family's set first and only
then runs its attach loop, whose requests are all of that family and for that
binary: whatever the loop returns, an error after some accepted requests
included, the binary is in the set afterwards and the requests issued remain in
the log of the back end. And over any later sequence of `DeployUProbes` calls
(any observations, flags and outcomes of the collaborators) no set loses a
binary, the log only grows, and no request is issued for a family and a binary
that is in the family's set: the probes that were not attached are never
attached. -/
theorem DeployUProbes_never_attaches_probed_binary_again (env : Env) :
    (∀ (pid : Nat) (m : UProbeManager),
        InsertsFirst Family.OpenSSL
          (fun b M => (attachOpenSSLSpecs env b env.kOpenSSLUProbes M).2) m
          (AttachOpenSSLUProbes env pid m).2) ∧
      (∀ (binary : String) (elf : ElfReader) (dwarf : DwarfReader) (pids : List Nat)
        (m : UProbeManager),
        InsertsFirst Family.GoTLS
          (fun b M => (AttachUProbeTmpl env env.kGoTLSUProbeTmpls b elf M).2) m
          (AttachGoTLSUProbes env binary elf dwarf pids m).2) ∧
      (∀ (binary : String) (elf : ElfReader) (dwarf : DwarfReader) (pids : List Nat)
        (m : UProbeManager),
        InsertsFirst Family.GoHTTP2
          (fun b M => (AttachUProbeTmpl env env.kHTTP2ProbeTmpls b elf M).2) m
          (AttachGoHTTP2Probes env binary elf dwarf pids m).2) ∧
      (∀ (F : Family) (attach : String → UProbeManager → UProbeManager) (m r : UProbeManager),
        InsertsFirst F attach m r →
        (∃ new, r.bcc_ = m.bcc_ ++ new) ∧ (∀ b, b ∈ m.probed F → b ∈ r.probed F) ∧
          ∀ c ∈ callsSince m r, c.family = F ∧ c.spec.binary_path ∈ r.probed F) ∧
      ∀ (calls : List DeployCall) (m : UProbeManager) (F : Family) (b : String),
        b ∈ m.probed F →
        b ∈ (runDeploys calls m).probed F ∧
          (∃ new, (runDeploys calls m).bcc_ = m.bcc_ ++ new) ∧
          ∀ c ∈ callsSince m (runDeploys calls m), ¬ (c.family = F ∧ c.spec.binary_path = b) := by
  refine ⟨fun pid m => AttachOpenSSLUProbes_insertsFirst env pid m,
    fun binary elf dwarf pids m => AttachGoTLSUProbes_insertsFirst env binary elf dwarf pids m,
    fun binary elf dwarf pids m => AttachGoHTTP2Probes_insertsFirst env binary elf dwarf pids m,
    ?_, ?_⟩
  · intro F attach m r h
    rcases h with ⟨hlog, hsets⟩ | ⟨b, M, new, _, hlog, hset, _, hr, hnew⟩
    · refine ⟨⟨[], by simp [hlog]⟩, fun b hb => by rw [hsets]; exact hb, ?_⟩
      intro c hc
      rw [callsSince, hlog] at hc
      simp at hc
    · have hp : r.probed F = b :: m.probed F := by rw [hr, probed_withCalls, hset]
      refine ⟨⟨new, by rw [hr, withCalls_bcc, hlog]⟩,
        fun x hx => by rw [hp]; exact List.mem_cons_of_mem _ hx, ?_⟩
      intro c hc
      rw [callsSince, hr, withCalls_bcc, hlog] at hc
      simp only [List.drop_left] at hc
      rw [hp, (hnew c hc).2]
      exact ⟨(hnew c hc).1, List.mem_cons_self _ _⟩
  · intro calls m F b hb
    obtain ⟨hsub, new, hlog, hnew⟩ := runDeploys_grows calls m
    refine ⟨hsub F b hb, ⟨new, hlog⟩, ?_⟩
    intro c hc hcb
    rw [callsSince, hlog] at hc
    simp only [List.drop_left] at hc
    apply (hnew c hc).1
    rw [hcb.1, hcb.2]
    exact hb

/-- C21 on `rejectReturnHost`. The first deploy attaches the entry probe of
`SSL_write` to the libssl of process 7 and its return probe is rejected; the
library is in the OpenSSL probed-binary set all the same. A later deploy on a
back end that accepts every request, with the new process 8 mapping the same
library, keeps the library in the set and issues no OpenSSL request for it: the
return probe is never attached. -/
theorem DeployUProbes_never_attaches_probed_binary_again_witness :
    (DeployUProbes rejectReturnHost [{ asid := 1, pid := 7, start_ts := 1 }] freshManager).bcc_.map
        (fun c => (c.family, c.spec.binary_path, c.spec.probe_fn, c.status))
        = [(Family.OpenSSL, "/usr/lib/libssl.so.1.1", "probe_entry_SSL_write", Status.OK),
           (Family.OpenSSL, "/usr/lib/libssl.so.1.1", "probe_ret_SSL_write",
             .error "attach rejected")] ∧
      "/usr/lib/libssl.so.1.1" ∈
        (runDeploys
          [{ env := opensslHost, enable_http2_tracing := false, disable_self_probing := false,
             rescan_for_dlopen := false,
             pids := [{ asid := 1, pid := 7, start_ts := 1 }, { asid := 1, pid := 8, start_ts := 2 }] }]
          (DeployUProbes rejectReturnHost [{ asid := 1, pid := 7, start_ts := 1 }]
            freshManager)).probed Family.OpenSSL ∧
      ∀ c ∈ callsSince
          (DeployUProbes rejectReturnHost [{ asid := 1, pid := 7, start_ts := 1 }] freshManager)
          (runDeploys
            [{ env := opensslHost, enable_http2_tracing := false, disable_self_probing := false,
               rescan_for_dlopen := false,
               pids := [{ asid := 1, pid := 7, start_ts := 1 },
                        { asid := 1, pid := 8, start_ts := 2 }] }]
            (DeployUProbes rejectReturnHost [{ asid := 1, pid := 7, start_ts := 1 }]
              freshManager)),
        ¬ (c.family = Family.OpenSSL ∧ c.spec.binary_path = "/usr/lib/libssl.so.1.1") :=
  ⟨by decide,
    ((DeployUProbes_never_attaches_probed_binary_again opensslHost).2.2.2.2 _ _ Family.OpenSSL
      "/usr/lib/libssl.so.1.1" (by decide)).1,
    ((DeployUProbes_never_attaches_probed_binary_again opensslHost).2.2.2.2 _ _ Family.OpenSSL
      "/usr/lib/libssl.so.1.1" (by decide)).2.2⟩

/-! ## C16, amended: deploying the same observation again -/

/-- Every entry of the map under construction keeps at least one pid. -/
theorem mapPushBack_nonempty (key : String) (pid : Nat) :
    ∀ (pids : List (String × List Nat)), (∀ e ∈ pids, e.2 ≠ []) →
      ∀ e ∈ mapPushBack pids key pid, e.2 ≠ [] := by
  intro pids
  induction pids with
  | nil =>
    intro _ e he
    simp only [mapPushBack, List.mem_singleton] at he
    subst he
    simp
  | cons head rest ih =>
    intro hp e he
    obtain ⟨k0, v0⟩ := head
    rw [mapPushBack] at he
    split at he
    · rcases List.mem_cons.1 he with rfl | he
      · simp
      · exact hp e (List.mem_cons_of_mem _ he)
    · split at he
      · rcases List.mem_cons.1 he with rfl | he
        · simp
        · exact hp e he
      · rcases List.mem_cons.1 he with rfl | he
        · exact hp _ (List.mem_cons_self _ _)
        · exact ih (fun e1 he1 => hp e1 (List.mem_cons_of_mem _ he1)) e he

theorem convertPIDsLoop_nonempty (env : Env) (upids : List UPID) :
    ∀ (pids : List (String × List Nat)), (∀ e ∈ pids, e.2 ≠ []) →
      ∀ e ∈ convertPIDsLoop env upids pids, e.2 ≠ [] := by
  induction upids with
  | nil => intro pids hp e he; exact hp e he
  | cons u rest ih =>
    intro pids hp e he
    rw [convertPIDsLoop] at he
    split at he
    · exact ih pids hp e he
    · split at he
      · exact ih pids hp e he
      · split at he
        · exact ih pids hp e he
        · simp only [] at he
          split at he
          · exact ih pids hp e he
          · exact ih _ (mapPushBack_nonempty _ _ pids hp) e he

/-- Every binary of the map `ConvertPIDsListToMap` builds is there for the pid
of one of the identities. -/
theorem ConvertPIDsListToMap_has_pid (env : Env) (upids : List UPID) (e : String × List Nat)
    (he : e ∈ ConvertPIDsListToMap env upids) : ∃ u ∈ upids, u.pid ∈ e.2 := by
  have hne : e.2 ≠ [] := by
    unfold ConvertPIDsListToMap at he
    split at he
    · cases he
    · exact convertPIDsLoop_nonempty env upids [] (fun _ h => by cases h) e he
  obtain ⟨k, hk⟩ := List.exists_mem_of_ne_nil _ hne
  obtain ⟨u, hu, huk⟩ := ConvertPIDsListToMap_pids env upids e he k hk
  exact ⟨u, hu, by rw [huk]; exact hk⟩

/-- A deploy of the observation the tracker already holds issues OpenSSL
requests only (those of its rescan pass). -/
theorem DeployUProbes_tracked_observation (env : Env) (pids : List UPID) (m : UProbeManager)
    (hcur : m.proc_tracker_.upids = pids) :
    ∀ c ∈ callsSince m (DeployUProbes env pids m), c.family = Family.OpenSSL := by
  have hnew : (m.proc_tracker_.Update pids).new_upids = [] := by
    simp [ProcTracker.Update, hcur]
  intro c hc
  have h := Issues_callsSince (DeployUProbes_issues env pids m) c hc
  rw [hnew, ConvertPIDsListToMap_nil] at h
  rcases h with h | ⟨_, e, he, _⟩
  · exact h
  · cases he

/-- A deploy issues Go-HTTP/2 requests only with HTTP/2 tracing enabled. -/
theorem DeployUProbes_http2_needs_flag (env : Env) (pids : List UPID) (m : UProbeManager) :
    ∀ c ∈ callsSince m (DeployUProbes env pids m), c.family = Family.GoHTTP2 →
      m.cfg_enable_http2_tracing_ = true := by
  obtain ⟨m2, r3, r4, r5, h2, h3, h4, h5, h⟩ := DeployUProbes_stages env pids m
  rw [h]
  have e2 : m2.bcc_ = m.bcc_ ∧ m2.cfg_enable_http2_tracing_ = m.cfg_enable_http2_tracing_ := by
    rw [← h2, CleanupSymaddrMaps_eq]
    exact ⟨rfl, rfl⟩
  have p3 : Pass (fun c => c.family = Family.OpenSSL) m2 r3.2 := by
    rw [← h3]; exact deployOpenSSLLoop_pass env _ 0 _
  have i4 : Issues (fun c => c.family = Family.OpenSSL) r3.2 r4.2 := by
    rw [← h4]; exact deployRescan_issues env _ _
  have f4 := deployRescan_frame env r3.1 r3.2
  rw [h4] at f4
  have c4 : r4.2.cfg_enable_http2_tracing_ = m.cfg_enable_http2_tracing_ := by
    rw [f4.2.2.1, p3.1.1, e2.2]
  have g5 := DeployGoUProbes_effect env r4.2.proc_tracker_.new_upids r4.2
  rw [h5, c4] at g5
  have i5 := g5.2.2.2.2.2.2.2.2
  have hall : Issues (fun c => c.family = Family.GoHTTP2 → m.cfg_enable_http2_tracing_ = true)
      m r5.2 := by
    refine Issues_trans (Issues_of_bcc_eq _ m m2 e2.1) ?_
    refine Issues_trans (Issues_mono (fun c hc hf => ?_) (Issues_of_pass p3)) ?_
    · rw [hc] at hf; cases hf
    refine Issues_trans (Issues_mono (fun c hc hf => ?_) i4) ?_
    · rw [hc] at hf; cases hf
    refine Issues_mono (fun c hc hf => ?_) i5
    rcases hc with hc | ⟨_, hc⟩
    · rw [hc] at hf; cases hf
    · exact hc
  exact Issues_callsSince hall

/-- C16, amended. After `DeployUProbes(S)` has run, changing the two
configuration values of `Init` (enabling HTTP/2 tracing, say), the flag
`FLAGS_stirling_rescan_for_dlopen` keeping its value, and calling
`DeployUProbes(S)` again with the same observation issues no attach request at
all. If the rescan flag is changed as well, or the mmap-event table received
entries in between, the second call issues OpenSSL requests at most (those of
its rescan pass): no Go-TLS and no Go-HTTP/2 request. And in every
`DeployUProbes` call a Go-HTTP/2 request is issued only with HTTP/2 tracing
enabled in that call, and only for a binary that is in the map of the call for
the pid of an identity that is new in the call. -/
theorem DeployUProbes_redeploy_after_enabling_http2 (env1 env2 : Env) (pids : List UPID)
    (m : UProbeManager) (enable_http2_tracing disable_self_probing rescan_for_dlopen : Bool) :
    (DeployUProbes env2 pids
        { DeployUProbes env1 pids m with
          cfg_enable_http2_tracing_ := enable_http2_tracing
          cfg_disable_self_probing_ := disable_self_probing }).bcc_ =
      (DeployUProbes env1 pids m).bcc_ ∧
      (∀ (mmap_events : BPFHashTable upid_t Bool),
        ∀ c ∈ callsSince (DeployUProbes env1 pids m)
            (DeployUProbes env2 pids
              { setFlags enable_http2_tracing disable_self_probing rescan_for_dlopen
                  (DeployUProbes env1 pids m) with
                mmap_events_ := mmap_events }),
          c.family = Family.OpenSSL) ∧
      ∀ c ∈ callsSince m (DeployUProbes env1 pids m), c.family = Family.GoHTTP2 →
        m.cfg_enable_http2_tracing_ = true ∧
          ∃ u ∈ (m.proc_tracker_.Update pids).new_upids,
            ∃ e ∈ ConvertPIDsListToMap env1 (m.proc_tracker_.Update pids).new_upids,
              c.spec.binary_path = e.1 ∧ u.pid ∈ e.2 := by
  obtain ⟨h1, h2, _, _, h5⟩ := DeployUProbes_frame env1 pids m
  refine ⟨?_, ?_, ?_⟩
  · rw [DeployUProbes_same_observation env2 pids]
    · show (DeployUProbes env1 pids m).proc_tracker_.upids = pids
      rw [h1]; rfl
    · intro hflag hne
      show (DeployUProbes env1 pids m).mmap_events_ = []
      have hflag1 : (DeployUProbes env1 pids m).FLAGS_stirling_rescan_for_dlopen = true := hflag
      rw [h2] at hflag1
      rw [h5]
      simp [hflag1, hne]
  · intro mmap_events c hc
    have hcur : (DeployUProbes env1 pids m).proc_tracker_.upids = pids := by rw [h1]; rfl
    exact DeployUProbes_tracked_observation env2 pids
      { setFlags enable_http2_tracing disable_self_probing rescan_for_dlopen
          (DeployUProbes env1 pids m) with
        mmap_events_ := mmap_events } hcur c hc
  · intro c hc hf
    refine ⟨DeployUProbes_http2_needs_flag env1 pids m c hc hf, ?_⟩
    rcases Issues_callsSince (DeployUProbes_issues env1 pids m) c hc with h | ⟨_, e, he, hpath, _⟩
    · rw [h] at hf; cases hf
    · obtain ⟨u, hu, hue⟩ := ConvertPIDsListToMap_has_pid env1 _ e he
      exact ⟨u, hu, e, he, hpath, hue⟩

/-! ## C20: the order of the effects of one `DeployUProbes` call -/

theorem filterMap_call_map_attach (calls : List AttachCall) :
    (calls.map Effect.attach).filterMap Effect.call? = calls := by
  induction calls with
  | nil => rfl
  | cons c rest ih => simp [Effect.call?, ih]

theorem Performs_refl (P : Effect → Prop) (s : Traced) : Performs P s s :=
  ⟨[], by simp, by simp, by simp⟩

theorem Performs_trans {P : Effect → Prop} {s s1 s2 : Traced} (h1 : Performs P s s1)
    (h2 : Performs P s1 s2) : Performs P s s2 := by
  obtain ⟨first, hfirst, hp1, hlog1⟩ := h1
  obtain ⟨second, hsecond, hp2, hlog2⟩ := h2
  refine ⟨first ++ second, by rw [hsecond, hfirst, List.append_assoc], ?_, ?_⟩
  · intro e he
    rcases List.mem_append.1 he with h | h
    · exact hp1 e h
    · exact hp2 e h
  · rw [hlog2, hlog1, List.filterMap_append, List.append_assoc]

theorem Performs_mono {P Q : Effect → Prop} {s s1 : Traced} (hPQ : ∀ e, P e → Q e)
    (h : Performs P s s1) : Performs Q s s1 := by
  obtain ⟨new, hnew, hp, hlog⟩ := h
  exact ⟨new, hnew, fun e he => hPQ e (hp e he), hlog⟩

/-- A step that leaves the trace and the log of the back end as they were. -/
theorem Performs_quiet (P : Effect → Prop) (s s1 : Traced) (he : s1.effects = s.effects)
    (hb : s1.m.bcc_ = s.m.bcc_) : Performs P s s1 :=
  ⟨[], by simp [he], by simp, by simp [hb]⟩

theorem updateValuesTraced_fst {ν : Type} (table : SymaddrTable) (code : Nat → Int)
    (symaddrs : ν) (pids : List Nat) :
    ∀ (t : BPFHashTable Nat ν) (effects : List Effect),
      (updateValuesTraced table code symaddrs pids t effects).1
        = updateValues code symaddrs pids t := by
  induction pids with
  | nil => intro t effects; rfl
  | cons pid rest ih => intro t effects; simp only [updateValuesTraced, updateValues, ih]

theorem updateValuesTraced_snd {ν : Type} (table : SymaddrTable) (code : Nat → Int)
    (symaddrs : ν) (pids : List Nat) :
    ∀ (t : BPFHashTable Nat ν) (effects : List Effect),
      (updateValuesTraced table code symaddrs pids t effects).2
        = effects ++ pids.map (Effect.publish table) := by
  induction pids with
  | nil => intro t effects; simp [updateValuesTraced]
  | cons pid rest ih => intro t effects; simp [updateValuesTraced, ih]

/-- The trace after an attach loop: the insertion and the requests, of the
family of the loop. -/
theorem afterAttachLoop_performs (P : Effect → Prop) (F : Family) (b : String)
    (s : Traced) (M m1 : UProbeManager) (hb : M.bcc_ = s.m.bcc_)
    (hE : Emits F M.ghost_invocation b M m1) (hins : P (Effect.insert F b))
    (hatt : ∀ c : AttachCall, c.family = F → P (Effect.attach c)) :
    Performs P s (afterAttachLoop F b s.effects M m1) := by
  obtain ⟨new, hm, hnew⟩ := hE
  refine ⟨[Effect.insert F b] ++ (callsSince M m1).map Effect.attach, ?_, ?_, ?_⟩
  · simp [afterAttachLoop]
  · intro e he
    rcases List.mem_append.1 he with h | h
    · rw [List.mem_singleton.1 h]; exact hins
    · obtain ⟨c, hc, rfl⟩ := List.mem_map.1 h
      rw [hm, callsSince_withCalls] at hc
      exact hatt c (hnew c hc).1
  · rw [List.filterMap_append, filterMap_call_map_attach]
    simp only [afterAttachLoop, List.filterMap_cons, Effect.call?, List.filterMap_nil,
      List.nil_append]
    rw [hm, callsSince_withCalls, withCalls_bcc, hb]

theorem filterMap_call_map_publish (table : SymaddrTable) (pids : List Nat) :
    (pids.map (Effect.publish table)).filterMap Effect.call? = [] := by
  induction pids with
  | nil => rfl
  | cons p rest ih => simp [Effect.call?, ih]

/-- The writes of one `Update*SymAddrs` loop, appended to the trace. -/
theorem publish_performs (P : Effect → Prop) (table : SymaddrTable) (pids : List Nat)
    (s s1 : Traced) (he : s1.effects = s.effects ++ pids.map (Effect.publish table))
    (hb : s1.m.bcc_ = s.m.bcc_) (hP : ∀ pid, P (Effect.publish table pid)) :
    Performs P s s1 := by
  refine ⟨pids.map (Effect.publish table), he, ?_, ?_⟩
  · intro e hmem
    obtain ⟨pid, _, rfl⟩ := List.mem_map.1 hmem
    exact hP pid
  · rw [filterMap_call_map_publish, hb]
    simp

/-- `AttachGoTLSUProbesTraced` computes what `AttachGoTLSUProbes` computes, and
performs effects of the Go pass. -/
theorem AttachGoTLSUProbesTraced_spec (env : Env) (binary : String) (elf : ElfReader)
    (dwarf : DwarfReader) (pids : List Nat) (s : Traced) :
    ((AttachGoTLSUProbesTraced env binary elf dwarf pids s).1,
        (AttachGoTLSUProbesTraced env binary elf dwarf pids s).2.m)
      = AttachGoTLSUProbes env binary elf dwarf pids s.m ∧
      Performs Effect.ofGoPass s (AttachGoTLSUProbesTraced env binary elf dwarf pids s).2 := by
  unfold AttachGoTLSUProbesTraced AttachGoTLSUProbes UpdateGoTLSSymAddrsTraced
    UpdateGoTLSSymAddrs
  simp only []
  cases env.GoTLSSymAddrs elf dwarf with
  | error e => exact ⟨rfl, Performs_quiet _ _ _ rfl rfl⟩
  | ok symaddrs =>
    simp only [updateValuesTraced_fst, updateValuesTraced_snd]
    have hpub : Performs Effect.ofGoPass s
        { m :=
            { enter Family.GoTLS s.m with
              go_tls_symaddrs_map_ :=
                updateValues (env.update_value_code "go_tls_symaddrs_map") symaddrs pids
                  (enter Family.GoTLS s.m).go_tls_symaddrs_map_ }
          effects := s.effects ++ pids.map (Effect.publish SymaddrTable.GoTLS) } :=
      publish_performs _ SymaddrTable.GoTLS pids _ _ rfl rfl (fun _ => trivial)
    by_cases hin : binary ∈ (enter Family.GoTLS s.m).go_tls_probed_binaries_
    · rw [if_pos hin, if_pos hin]
      exact ⟨rfl, hpub⟩
    · rw [if_neg hin, if_neg hin]
      refine ⟨rfl, Performs_trans hpub ?_⟩
      refine afterAttachLoop_performs _ _ _ _ _ _ rfl
        (attachTmpls_emits env binary elf env.kGoTLSUProbeTmpls 0 _) trivial ?_
      intro c hc
      exact Or.inl hc

/-- `AttachGoHTTP2ProbesTraced` computes what `AttachGoHTTP2Probes` computes, and
performs effects of the Go pass. -/
theorem AttachGoHTTP2ProbesTraced_spec (env : Env) (binary : String) (elf : ElfReader)
    (dwarf : DwarfReader) (pids : List Nat) (s : Traced) :
    ((AttachGoHTTP2ProbesTraced env binary elf dwarf pids s).1,
        (AttachGoHTTP2ProbesTraced env binary elf dwarf pids s).2.m)
      = AttachGoHTTP2Probes env binary elf dwarf pids s.m ∧
      Performs Effect.ofGoPass s (AttachGoHTTP2ProbesTraced env binary elf dwarf pids s).2 := by
  unfold AttachGoHTTP2ProbesTraced AttachGoHTTP2Probes UpdateGoHTTP2SymAddrsTraced
    UpdateGoHTTP2SymAddrs
  simp only []
  cases env.GoHTTP2SymAddrs elf dwarf with
  | error e => exact ⟨rfl, Performs_quiet _ _ _ rfl rfl⟩
  | ok symaddrs =>
    simp only [updateValuesTraced_fst, updateValuesTraced_snd]
    have hpub : Performs Effect.ofGoPass s
        { m :=
            { enter Family.GoHTTP2 s.m with
              go_http2_symaddrs_map_ :=
                updateValues (env.update_value_code "http2_symaddrs_map") symaddrs pids
                  (enter Family.GoHTTP2 s.m).go_http2_symaddrs_map_ }
          effects := s.effects ++ pids.map (Effect.publish SymaddrTable.GoHTTP2) } :=
      publish_performs _ SymaddrTable.GoHTTP2 pids _ _ rfl rfl (fun _ => trivial)
    by_cases hin : binary ∈ (enter Family.GoHTTP2 s.m).http2_probed_binaries_
    · rw [if_pos hin, if_pos hin]
      exact ⟨rfl, hpub⟩
    · rw [if_neg hin, if_neg hin]
      refine ⟨rfl, Performs_trans hpub ?_⟩
      refine afterAttachLoop_performs _ _ _ _ _ _ rfl
        (attachTmpls_emits env binary elf env.kHTTP2ProbeTmpls 0 _) trivial ?_
      intro c hc
      exact Or.inr hc

/-- `UpdateGoCommonSymAddrsTraced` computes what `UpdateGoCommonSymAddrs`
computes, and performs effects of the Go pass. -/
theorem UpdateGoCommonSymAddrsTraced_spec (env : Env) (elf : ElfReader) (dwarf : DwarfReader)
    (pids : List Nat) (s : Traced) :
    ((UpdateGoCommonSymAddrsTraced env elf dwarf pids s).1,
        (UpdateGoCommonSymAddrsTraced env elf dwarf pids s).2.m)
      = UpdateGoCommonSymAddrs env elf dwarf pids s.m ∧
      Performs Effect.ofGoPass s (UpdateGoCommonSymAddrsTraced env elf dwarf pids s).2 := by
  unfold UpdateGoCommonSymAddrsTraced UpdateGoCommonSymAddrs
  cases env.GoCommonSymAddrs elf dwarf with
  | error e => exact ⟨rfl, Performs_refl _ _⟩
  | ok symaddrs =>
    refine ⟨?_, ?_⟩
    · simp only [updateValuesTraced_fst]
    · exact publish_performs _ SymaddrTable.GoCommon pids _ _
        (by simp only [updateValuesTraced_snd]) rfl (fun _ => trivial)

/-- `AttachOpenSSLUProbesTraced` computes what `AttachOpenSSLUProbes` computes,
and performs effects of the OpenSSL pass. -/
theorem AttachOpenSSLUProbesTraced_spec (env : Env) (pid : Nat) (s : Traced) :
    ((AttachOpenSSLUProbesTraced env pid s).1, (AttachOpenSSLUProbesTraced env pid s).2.m)
      = AttachOpenSSLUProbes env pid s.m ∧
      Performs Effect.ofOpenSSLPass s (AttachOpenSSLUProbesTraced env pid s).2 := by
  have hq : Performs Effect.ofOpenSSLPass s
      { m := enter Family.OpenSSL s.m, effects := s.effects } :=
    Performs_quiet _ _ _ rfl rfl
  unfold AttachOpenSSLUProbesTraced AttachOpenSSLUProbes UpdateOpenSSLSymAddrsTraced
    UpdateOpenSSLSymAddrs
  simp only []
  cases FindLibraryPaths env ["libssl.so.1.1", "libcrypto.so.1.1"] pid with
  | error e => exact ⟨rfl, hq⟩
  | ok libs =>
    simp only []
    by_cases hempty : libs.getD 0 "" = "" ∨ libs.getD 1 "" = ""
    · rw [if_pos hempty, if_pos hempty]
      exact ⟨rfl, hq⟩
    · rw [if_neg hempty, if_neg hempty]
      cases env.fs_Exists (env.ToHostPath (libs.getD 0 "")) with
      | error e => exact ⟨rfl, hq⟩
      | ok _ =>
        simp only []
        cases env.fs_Exists (env.ToHostPath (libs.getD 1 "")) with
        | error e => exact ⟨rfl, hq⟩
        | ok _ =>
          simp only []
          cases env.OpenSSLSymAddrs (env.ToHostPath (libs.getD 1 "")) with
          | error e => exact ⟨rfl, hq⟩
          | ok symaddrs =>
            simp only []
            have hpub : Performs Effect.ofOpenSSLPass s
                { m :=
                    { enter Family.OpenSSL s.m with
                      openssl_symaddrs_map_ :=
                        (enter Family.OpenSSL s.m).openssl_symaddrs_map_.update_value
                          (env.update_value_code "openssl_symaddrs_map" pid) pid symaddrs }
                  effects := s.effects ++ [Effect.publish SymaddrTable.OpenSSL pid] } :=
              publish_performs _ SymaddrTable.OpenSSL [pid] _ _ rfl rfl (fun _ => trivial)
            by_cases hin : env.ToHostPath (libs.getD 0 "") ∈
                (enter Family.OpenSSL s.m).openssl_probed_binaries_
            · rw [if_pos hin, if_pos hin]
              exact ⟨rfl, hpub⟩
            · rw [if_neg hin, if_neg hin]
              have hE := attachOpenSSLSpecs_emits env (env.ToHostPath (libs.getD 0 ""))
                env.kOpenSSLUProbes
                { ({ enter Family.OpenSSL s.m with
                      openssl_symaddrs_map_ :=
                        (enter Family.OpenSSL s.m).openssl_symaddrs_map_.update_value
                          (env.update_value_code "openssl_symaddrs_map" pid) pid symaddrs } :
                    UProbeManager) with
                  openssl_probed_binaries_ :=
                    env.ToHostPath (libs.getD 0 "") ::
                      (enter Family.OpenSSL s.m).openssl_probed_binaries_ }
              revert hE
              generalize attachOpenSSLSpecs env (env.ToHostPath (libs.getD 0 ""))
                env.kOpenSSLUProbes _ = r
              intro hE
              rcases r with ⟨_ | _, m2⟩
              · exact ⟨rfl, Performs_trans hpub
                  (afterAttachLoop_performs _ _ _ _ _ _ rfl hE trivial (fun c hc => hc))⟩
              · exact ⟨rfl, Performs_trans hpub
                  (afterAttachLoop_performs _ _ _ _ _ _ rfl hE trivial (fun c hc => hc))⟩

/-- `CleanupSymaddrMapsTraced` computes what `CleanupSymaddrMaps` computes; its
effects are the removals from the Go-HTTP/2 table, one per deleted identity; it
issues no request. -/
theorem CleanupSymaddrMapsTraced_spec (deleted : List UPID) :
    ∀ (s : Traced),
      (CleanupSymaddrMapsTraced deleted s).m = CleanupSymaddrMaps deleted s.m ∧
        (CleanupSymaddrMapsTraced deleted s).effects =
          s.effects ++ deleted.map (fun u => Effect.remove SymaddrTable.GoHTTP2 u.pid) ∧
        (CleanupSymaddrMapsTraced deleted s).m.bcc_ = s.m.bcc_ := by
  induction deleted with
  | nil => intro s; simp [CleanupSymaddrMapsTraced, CleanupSymaddrMaps]
  | cons u rest ih =>
    intro s
    simp only [CleanupSymaddrMapsTraced, CleanupSymaddrMaps]
    obtain ⟨h1, h2, h3⟩ := ih
      { m := { s.m with go_http2_symaddrs_map_ := s.m.go_http2_symaddrs_map_.remove_value u.pid }
        effects := s.effects ++ [Effect.remove SymaddrTable.GoHTTP2 u.pid] }
    refine ⟨h1, ?_, h3⟩
    rw [h2]
    simp

/-- The OpenSSL loop with its trace computes what the loop computes, and
performs effects of the OpenSSL pass. -/
theorem deployOpenSSLLoopTraced_spec (env : Env) (pids : List UPID) :
    ∀ (count : Nat) (s : Traced),
      ((deployOpenSSLLoopTraced env pids count s).1,
          (deployOpenSSLLoopTraced env pids count s).2.m)
        = deployOpenSSLLoop env pids count s.m ∧
        Performs Effect.ofOpenSSLPass s (deployOpenSSLLoopTraced env pids count s).2 := by
  induction pids with
  | nil => intro count s; exact ⟨rfl, Performs_refl _ _⟩
  | cons pid rest ih =>
    intro count s
    simp only [deployOpenSSLLoopTraced, deployOpenSSLLoop]
    by_cases hskip : s.m.cfg_disable_self_probing_ = true ∧ pid.pid = env.getpid
    · rw [if_pos hskip, if_pos hskip]
      exact ih _ _
    · rw [if_neg hskip, if_neg hskip]
      obtain ⟨he, hp⟩ := AttachOpenSSLUProbesTraced_spec env pid.pid s
      rw [← he]
      revert hp
      generalize AttachOpenSSLUProbesTraced env pid.pid s = rT
      intro hp
      rcases rT with ⟨_ | _, s1⟩
      · exact ⟨(ih _ s1).1, Performs_trans hp (ih _ s1).2⟩
      · exact ⟨(ih _ s1).1, Performs_trans hp (ih _ s1).2⟩

/-- One entry of the Go pass with its trace computes what the entry computes,
and performs effects of the Go pass. -/
theorem deployGoBinaryTraced_spec (env : Env) (binary : String) (pid_vec : List Nat)
    (count : Nat) (s : Traced) :
    ((deployGoBinaryTraced env binary pid_vec count s).1,
        (deployGoBinaryTraced env binary pid_vec count s).2.m)
      = deployGoBinary env binary pid_vec count s.m ∧
      Performs Effect.ofGoPass s (deployGoBinaryTraced env binary pid_vec count s).2 := by
  unfold deployGoBinaryTraced deployGoBinary
  by_cases hskip : s.m.cfg_disable_self_probing_ = true ∧ pid_vec.length = 1 ∧
      pid_vec.head? = some env.getpid
  · rw [if_pos hskip, if_pos hskip]
    exact ⟨rfl, Performs_refl _ _⟩
  · rw [if_neg hskip, if_neg hskip]
    cases env.ElfReader_Create binary with
    | error e => exact ⟨rfl, Performs_refl _ _⟩
    | ok elf =>
      simp only []
      by_cases hgo : (env.SymbolAddress elf "runtime.buildVersion").isSome = false
      · rw [if_pos hgo, if_pos hgo]
        exact ⟨rfl, Performs_refl _ _⟩
      · rw [if_neg hgo, if_neg hgo]
        cases env.DwarfReader_Create binary with
        | error e => exact ⟨rfl, Performs_refl _ _⟩
        | ok dwarf =>
          simp only []
          obtain ⟨he1, hp1⟩ := UpdateGoCommonSymAddrsTraced_spec env elf dwarf pid_vec s
          rw [← he1]
          revert hp1
          generalize UpdateGoCommonSymAddrsTraced env elf dwarf pid_vec s = r1
          intro hp1
          rcases r1 with ⟨_ | _, s1⟩
          · simp only []
            obtain ⟨he2, hp2⟩ := AttachGoTLSUProbesTraced_spec env binary elf dwarf pid_vec s1
            rw [← he2]
            revert hp2
            generalize AttachGoTLSUProbesTraced env binary elf dwarf pid_vec s1 = r2
            intro hp2
            simp only []
            by_cases hflag : r2.2.m.cfg_enable_http2_tracing_ = true
            · rw [if_pos hflag, if_pos hflag]
              obtain ⟨he3, hp3⟩ :=
                AttachGoHTTP2ProbesTraced_spec env binary elf dwarf pid_vec r2.2
              rw [← he3]
              revert hp3
              generalize AttachGoHTTP2ProbesTraced env binary elf dwarf pid_vec r2.2 = r3
              intro hp3
              have hp := Performs_trans hp1 (Performs_trans hp2 hp3)
              rcases r3 with ⟨_ | _, s3⟩
              · exact ⟨rfl, hp⟩
              · exact ⟨rfl, hp⟩
            · rw [if_neg hflag, if_neg hflag]
              exact ⟨rfl, Performs_trans hp1 hp2⟩
          · exact ⟨rfl, hp1⟩

/-- The Go loop with its trace computes what the loop computes, and performs
effects of the Go pass. -/
theorem deployGoLoopTraced_spec (env : Env) (entries : List (String × List Nat)) :
    ∀ (count : Nat) (s : Traced),
      ((deployGoLoopTraced env entries count s).1, (deployGoLoopTraced env entries count s).2.m)
        = deployGoLoop env entries count s.m ∧
        Performs Effect.ofGoPass s (deployGoLoopTraced env entries count s).2 := by
  induction entries with
  | nil => intro count s; exact ⟨rfl, Performs_refl _ _⟩
  | cons e rest ih =>
    intro count s
    obtain ⟨binary, pid_vec⟩ := e
    simp only [deployGoLoopTraced, deployGoLoop]
    obtain ⟨he, hp⟩ := deployGoBinaryTraced_spec env binary pid_vec count s
    rw [← he]
    exact ⟨(ih _ _).1, Performs_trans hp (ih _ _).2⟩

/-- The rescan loop with its trace computes what the loop computes; its effects
are removals from the mmap-event table. -/
theorem rescanLoopTraced_spec (asid : Nat) (events : List (upid_t × Bool)) :
    ∀ (acc : List UPID) (s : Traced),
      ((rescanLoopTraced asid events acc s).1, (rescanLoopTraced asid events acc s).2.m)
        = rescanLoop asid events acc s.m ∧
        Performs Effect.ofOpenSSLPass s (rescanLoopTraced asid events acc s).2 := by
  induction events with
  | nil => intro acc s; exact ⟨rfl, Performs_refl _ _⟩
  | cons ev rest ih =>
    intro acc s
    simp only [rescanLoopTraced, rescanLoop]
    refine ⟨(ih _ _).1, Performs_trans ?_ (ih _ _).2⟩
    exact ⟨[Effect.mmapRemove ev.1], rfl, by simp [Effect.ofOpenSSLPass],
      by simp [Effect.call?]⟩

/-- `PIDsToRescanForUProbesTraced` computes what `PIDsToRescanForUProbes`
computes; its effects are removals from the mmap-event table. -/
theorem PIDsToRescanForUProbesTraced_spec (s : Traced) :
    ((PIDsToRescanForUProbesTraced s).1, (PIDsToRescanForUProbesTraced s).2.m)
      = PIDsToRescanForUProbes s.m ∧
      Performs Effect.ofOpenSSLPass s (PIDsToRescanForUProbesTraced s).2 := by
  unfold PIDsToRescanForUProbesTraced PIDsToRescanForUProbes
  simp only []
  cases s.m.proc_tracker_.upids with
  | nil => exact ⟨rfl, Performs_refl _ _⟩
  | cons first rest => exact rescanLoopTraced_spec _ _ _ _

/-- The rescan statement with its trace computes what the statement computes,
and performs effects of the OpenSSL and rescan passes. -/
theorem deployRescanTraced_spec (env : Env) (count : Nat) (s : Traced) :
    ((deployRescanTraced env count s).1, (deployRescanTraced env count s).2.m)
      = deployRescan env count s.m ∧
      Performs Effect.ofOpenSSLPass s (deployRescanTraced env count s).2 := by
  unfold deployRescanTraced deployRescan
  by_cases hflag : s.m.FLAGS_stirling_rescan_for_dlopen = true
  · rw [if_pos hflag, if_pos hflag]
    obtain ⟨he, hp⟩ := PIDsToRescanForUProbesTraced_spec s
    obtain ⟨he2, hp2⟩ := deployOpenSSLLoopTraced_spec env (PIDsToRescanForUProbesTraced s).1 0
      (PIDsToRescanForUProbesTraced s).2
    simp only [DeployOpenSSLUProbesTraced, DeployOpenSSLUProbes]
    rw [← he, ← he2]
    exact ⟨rfl, Performs_trans hp hp2⟩
  · rw [if_neg hflag, if_neg hflag]
    exact ⟨rfl, Performs_refl _ _⟩

theorem Effect.stage_of_openssl (e : Effect) (h : e.ofOpenSSLPass) : e.stage = 2 := by
  rcases e with _ | ⟨t, _⟩ | ⟨t, _⟩ | ⟨f, _⟩ | c | _
  · exact h.elim
  · exact h.elim
  · cases t <;> first | rfl | exact h.elim
  · cases f <;> first | rfl | exact h.elim
  · have hc : c.family = Family.OpenSSL := h
    simp [Effect.stage, hc]
  · rfl

theorem Effect.stage_of_go (e : Effect) (h : e.ofGoPass) : e.stage = 3 := by
  rcases e with _ | ⟨t, _⟩ | ⟨t, _⟩ | ⟨f, _⟩ | c | _
  · exact h.elim
  · exact h.elim
  · cases t <;> first | rfl | exact h.elim
  · cases f <;> first | rfl | exact h.elim
  · have hc : c.family = Family.GoTLS ∨ c.family = Family.GoHTTP2 := h
    rcases hc with hc | hc <;> simp [Effect.stage, hc]
  · exact h.elim

theorem Effect.stage_of_removal (e : Effect) (h : e.isRemoval) : e.stage = 1 := by
  cases e <;> first | rfl | exact h.elim

theorem Effect.stage_of_trackerUpdate (e : Effect) (h : e.isTrackerUpdate) : e.stage = 0 := by
  cases e <;> first | rfl | exact h.elim

theorem Effect.stage_of_publication (e : Effect) (h : e.isPublication) : 2 ≤ e.stage := by
  rcases e with _ | ⟨t, _⟩ | ⟨t, _⟩ | ⟨f, _⟩ | c | _
  · exact h.elim
  · exact h.elim
  · cases t <;> simp [Effect.stage]
  · exact h.elim
  · exact h.elim
  · exact h.elim

/-- A trace whose effects all belong to one stage is in stage order. -/
theorem pairwise_stage_of_const (k : Nat) (l : List Effect) (h : ∀ e ∈ l, e.stage = k) :
    l.Pairwise (fun a b => a.stage ≤ b.stage) := by
  induction l with
  | nil => exact List.Pairwise.nil
  | cons x rest ih =>
    refine List.Pairwise.cons ?_ (ih (fun e he => h e (List.mem_cons_of_mem _ he)))
    intro b hb
    rw [h x (List.mem_cons_self _ _), h b (List.mem_cons_of_mem _ hb)]

/-- The trace of one `DeployUProbes` call: what the call computes, and the
segments of its trace. -/
theorem DeployUProbesTraced_segments (env : Env) (pids : List UPID) (s : Traced) :
    (DeployUProbesTraced env pids s).m = DeployUProbes env pids s.m ∧
      ∃ ssl go,
        (DeployUProbesTraced env pids s).effects =
          s.effects ++ (Effect.trackerUpdate pids ::
            ((s.m.proc_tracker_.Update pids).deleted_upids.map
                (fun u => Effect.remove SymaddrTable.GoHTTP2 u.pid) ++ (ssl ++ go))) ∧
        (∀ e ∈ ssl, e.ofOpenSSLPass) ∧ (∀ e ∈ go, e.ofGoPass) ∧
        (DeployUProbesTraced env pids s).m.bcc_ =
          s.m.bcc_ ++ (ssl.filterMap Effect.call? ++ go.filterMap Effect.call?) := by
  unfold DeployUProbesTraced DeployUProbes deployUProbesCount
  simp only []
  obtain ⟨hc1, hc2, hc3⟩ := CleanupSymaddrMapsTraced_spec
    (s.m.proc_tracker_.Update pids).deleted_upids
    { m := { s.m with proc_tracker_ := s.m.proc_tracker_.Update pids }
      effects := s.effects ++ [Effect.trackerUpdate pids] }
  revert hc1 hc2 hc3
  generalize CleanupSymaddrMapsTraced (s.m.proc_tracker_.Update pids).deleted_upids
    { m := { s.m with proc_tracker_ := s.m.proc_tracker_.Update pids }
      effects := s.effects ++ [Effect.trackerUpdate pids] } = s2
  intro hc1 hc2 hc3
  simp only [] at hc1 hc2 hc3
  rw [← hc1]
  obtain ⟨he3, hp3⟩ := deployOpenSSLLoopTraced_spec env s2.m.proc_tracker_.new_upids 0 s2
  simp only [DeployOpenSSLUProbesTraced, DeployOpenSSLUProbes]
  rw [← he3]
  revert hp3
  generalize deployOpenSSLLoopTraced env s2.m.proc_tracker_.new_upids 0 s2 = r3
  intro hp3
  simp only []
  obtain ⟨he4, hp4⟩ := deployRescanTraced_spec env r3.1 r3.2
  rw [← he4]
  revert hp4
  generalize deployRescanTraced env r3.1 r3.2 = r4
  intro hp4
  simp only []
  obtain ⟨he5, hp5⟩ := deployGoLoopTraced_spec env
    (ConvertPIDsListToMap env r4.2.m.proc_tracker_.new_upids) 0 r4.2
  simp only [DeployGoUProbesTraced, DeployGoUProbes]
  rw [← he5]
  revert hp5
  generalize deployGoLoopTraced env (ConvertPIDsListToMap env r4.2.m.proc_tracker_.new_upids) 0
    r4.2 = r5
  intro hp5
  simp only []
  obtain ⟨ssl, hssl, hpssl, hlssl⟩ := Performs_trans hp3 hp4
  obtain ⟨go, hgo, hpgo, hlgo⟩ := hp5
  refine ⟨trivial, ssl, go, ?_, hpssl, hpgo, ?_⟩
  · rw [hgo, hssl, hc2]
    simp
  · rw [hlgo, hlssl, hc3]
    simp

/-- C20. The trace of effects of one `DeployUProbes` call, in the order the
call performs them, is: the tracker update; then the removals of the cleanup
(one from the Go-HTTP/2 table per identity of the deleted set of the updated
tracker); then the effects `ssl` of the OpenSSL pass and of the rescan pass
(writes to the OpenSSL table, insertions into the OpenSSL probed-binary set,
OpenSSL requests, removals from the mmap-event table); then the effects `go` of
the Go pass (writes to the Go tables, insertions into the Go probed-binary
sets, Go-TLS and Go-HTTP/2 requests). So in the trace no removal from a symbol
table precedes the tracker update, no publication precedes a removal, and no
effect of the Go pass precedes an effect of the OpenSSL or rescan pass. The
traced call computes the manager that `DeployUProbes` computes, and the attach
requests of its trace are the requests the back end received, in order. -/
theorem DeployUProbes_effects_in_order (env : Env) (pids : List UPID) (m : UProbeManager) :
    (DeployUProbesTraced env pids { m := m, effects := [] }).m = DeployUProbes env pids m ∧
      (∃ ssl go,
        (DeployUProbesTraced env pids { m := m, effects := [] }).effects =
          Effect.trackerUpdate pids ::
            ((m.proc_tracker_.Update pids).deleted_upids.map
                (fun u => Effect.remove SymaddrTable.GoHTTP2 u.pid) ++ (ssl ++ go)) ∧
        (∀ e ∈ ssl, e.ofOpenSSLPass) ∧ (∀ e ∈ go, e.ofGoPass)) ∧
      (DeployUProbesTraced env pids { m := m, effects := [] }).effects.Pairwise
        (fun a b => ¬ (a.isRemoval ∧ b.isTrackerUpdate)) ∧
      (DeployUProbesTraced env pids { m := m, effects := [] }).effects.Pairwise
        (fun a b => ¬ (a.isPublication ∧ b.isRemoval)) ∧
      (DeployUProbesTraced env pids { m := m, effects := [] }).effects.Pairwise
        (fun a b => ¬ (a.ofGoPass ∧ b.ofOpenSSLPass)) ∧
      (DeployUProbesTraced env pids { m := m, effects := [] }).effects.filterMap Effect.call?
        = callsSince m (DeployUProbes env pids m) := by
  obtain ⟨hm, ssl, go, heff, hssl, hgo, hlog⟩ :=
    DeployUProbesTraced_segments env pids { m := m, effects := [] }
  simp only [List.nil_append] at heff hm hlog
  have hstage : (DeployUProbesTraced env pids { m := m, effects := [] }).effects.Pairwise
      (fun a b => a.stage ≤ b.stage) := by
    rw [heff]
    have hrem : ∀ e ∈ (m.proc_tracker_.Update pids).deleted_upids.map
        (fun u => Effect.remove SymaddrTable.GoHTTP2 u.pid), e.stage = 1 := by
      intro e he
      obtain ⟨u, _, rfl⟩ := List.mem_map.1 he
      rfl
    have hs2 : ∀ e ∈ ssl, e.stage = 2 := fun e he => Effect.stage_of_openssl e (hssl e he)
    have hs3 : ∀ e ∈ go, e.stage = 3 := fun e he => Effect.stage_of_go e (hgo e he)
    refine List.Pairwise.cons ?_ ?_
    · intro b _
      exact Nat.zero_le _
    · refine List.pairwise_append.2 ⟨pairwise_stage_of_const 1 _ hrem, ?_, ?_⟩
      · refine List.pairwise_append.2
          ⟨pairwise_stage_of_const 2 _ hs2, pairwise_stage_of_const 3 _ hs3, ?_⟩
        intro a ha b hb
        rw [hs2 a ha, hs3 b hb]
        decide
      · intro a ha b hb
        rw [hrem a ha]
        rcases List.mem_append.1 hb with h | h
        · rw [hs2 b h]; decide
        · rw [hs3 b h]; decide
  refine ⟨hm, ⟨ssl, go, heff, hssl, hgo⟩, ?_, ?_, ?_, ?_⟩
  · refine hstage.imp ?_
    intro a b hab hcontra
    rw [Effect.stage_of_removal a hcontra.1, Effect.stage_of_trackerUpdate b hcontra.2] at hab
    exact absurd hab (by decide)
  · refine hstage.imp ?_
    intro a b hab hcontra
    have h2 := Effect.stage_of_publication a hcontra.1
    rw [Effect.stage_of_removal b hcontra.2] at hab
    omega
  · refine hstage.imp ?_
    intro a b hab hcontra
    rw [Effect.stage_of_go a hcontra.1, Effect.stage_of_openssl b hcontra.2] at hab
    exact absurd hab (by decide)
  · rw [← hm]
    simp only [callsSince, hlog, List.drop_left]
    rw [heff]
    have hrem0 : ((m.proc_tracker_.Update pids).deleted_upids.map
        (fun u => Effect.remove SymaddrTable.GoHTTP2 u.pid)).filterMap Effect.call? = [] := by
      induction (m.proc_tracker_.Update pids).deleted_upids with
      | nil => rfl
      | cons u rest ih => simp [Effect.call?, ih]
    simp only [List.filterMap_cons, Effect.call?, List.filterMap_append, hrem0, List.nil_append]

/-- C20 on `mixedHost`, with HTTP/2 tracing enabled. The first deploy of the
process (1, 200, 1) performs the tracker update, four effects of the OpenSSL
pass and seven of the Go pass, in this order. Then the process is gone and its
pid is reused by (1, 200, 9): the next deploy updates the tracker, removes the
entry of pid 200 from the Go-HTTP/2 table, and only then publishes, first for
OpenSSL and then for Go; no publication precedes the removal. -/
theorem DeployUProbes_effects_in_order_witness :
    (DeployUProbesTraced mixedHost [{ asid := 1, pid := 200, start_ts := 1 }]
        { m := setFlags true false false freshManager, effects := [] }).effects.map Effect.stage
        = [0, 2, 2, 2, 2, 3, 3, 3, 3, 3, 3, 3] ∧
      (DeployUProbesTraced mixedHost [{ asid := 1, pid := 200, start_ts := 9 }]
        { m := DeployUProbes mixedHost [{ asid := 1, pid := 200, start_ts := 1 }]
            (setFlags true false false freshManager),
          effects := [] }).effects
        = [Effect.trackerUpdate [{ asid := 1, pid := 200, start_ts := 9 }],
           Effect.remove SymaddrTable.GoHTTP2 200,
           Effect.publish SymaddrTable.OpenSSL 200,
           Effect.publish SymaddrTable.GoCommon 200,
           Effect.publish SymaddrTable.GoTLS 200,
           Effect.publish SymaddrTable.GoHTTP2 200] ∧
      (DeployUProbesTraced mixedHost [{ asid := 1, pid := 200, start_ts := 9 }]
        { m := DeployUProbes mixedHost [{ asid := 1, pid := 200, start_ts := 1 }]
            (setFlags true false false freshManager),
          effects := [] }).effects.Pairwise (fun a b => ¬ (a.isPublication ∧ b.isRemoval)) :=
  ⟨by decide, by decide,
    (DeployUProbes_effects_in_order mixedHost [{ asid := 1, pid := 200, start_ts := 9 }]
      (DeployUProbes mixedHost [{ asid := 1, pid := 200, start_ts := 1 }]
        (setFlags true false false freshManager))).2.2.2.1⟩

end UProbeManager

namespace bcc_bpf

/-! ## C22: the events of `probe_http2_client_operate_headers` -/

/-- The loop submits the events of the header fields from index `i` up to the
smaller of `fields.len` and `HEADER_COUNT`. -/
theorem operateHeadersLoop_eq (k : Kernel) (fields_ptr : Nat) (fields_len : Int) :
    ∀ (d i : Nat) (event : go_grpc_http2_header_event_t)
      (out : List go_grpc_http2_header_event_t), HEADER_COUNT - i = d →
      operateHeadersLoop k fields_ptr fields_len i event out =
        out ++ headerEvents k fields_ptr (min fields_len.toNat HEADER_COUNT - i) i event := by
  intro d
  induction d with
  | zero =>
    intro i event out hd
    rw [operateHeadersLoop]
    have h1 : ¬ (i < HEADER_COUNT ∧ (i : Int) < fields_len) := by omega
    have h2 : min fields_len.toNat HEADER_COUNT - i = 0 := by omega
    rw [if_neg h1, h2]
    simp [headerEvents]
  | succ d ih =>
    intro i event out hd
    rw [operateHeadersLoop]
    by_cases h1 : i < HEADER_COUNT ∧ (i : Int) < fields_len
    · rw [if_pos h1]
      have h2 : min fields_len.toNat HEADER_COUNT - i
          = (min fields_len.toNat HEADER_COUNT - (i + 1)) + 1 := by omega
      rw [h2]
      simp only [headerEvents]
      rw [ih (i + 1) _ _ (by omega)]
      simp
    · rw [if_neg h1]
      have h2 : min fields_len.toNat HEADER_COUNT - i = 0 := by omega
      rw [h2]
      simp [headerEvents]

theorem headerEvents_length (k : Kernel) (fields_ptr : Nat) :
    ∀ (n i : Nat) (event : go_grpc_http2_header_event_t),
      (headerEvents k fields_ptr n i event).length = n := by
  intro n
  induction n with
  | zero => intro i event; rfl
  | succ n ih => intro i event; simp [headerEvents, ih]

/-- The event at position `j`: the type, `fd`, stream id and probe info of the
first event, and the sizes of the name and the value of the header field at
index `i + j`. -/
theorem headerEvents_getElem (k : Kernel) (fields_ptr : Nat) :
    ∀ (n i : Nat) (event : go_grpc_http2_header_event_t) (j : Nat)
      (ev : go_grpc_http2_header_event_t),
      (headerEvents k fields_ptr n i event)[j]? = some ev →
      ev.type = event.type ∧ ev.fd = event.fd ∧ ev.stream_id = event.stream_id ∧
        ev.entry_probe = event.entry_probe ∧
        ev.name.size =
          k.BPF_LEN_CAP
            (k.bpf_probe_read_field (fields_ptr + (i + j) * k.sizeof_HPackHeaderField)).name.len
            k.HEADER_FIELD_STR_SIZE ∧
        ev.value.size =
          k.BPF_LEN_CAP
            (k.bpf_probe_read_field (fields_ptr + (i + j) * k.sizeof_HPackHeaderField)).value.len
            k.HEADER_FIELD_STR_SIZE := by
  intro n
  induction n with
  | zero => intro i event j ev h; simp [headerEvents] at h
  | succ n ih =>
    intro i event j ev h
    cases j with
    | zero =>
      simp only [headerEvents, List.getElem?_cons_zero, Option.some.injEq] at h
      subst h
      exact ⟨rfl, rfl, rfl, rfl, rfl, rfl⟩
    | succ j =>
      simp only [headerEvents, List.getElem?_cons_succ] at h
      have h1 := ih (i + 1) _ j ev h
      have e : i + 1 + j = i + (j + 1) := by omega
      rw [e] at h1
      exact h1

/-- C22. `probe_http2_client_operate_headers` returns 0 in every case. When
the slice `fields` it reads has `len > 100`, `len <= 0` or `cap <= 0`, it
submits no event. Otherwise it submits exactly `min(len, HEADER_COUNT)` events
(`HEADER_COUNT` is 64), after those already in the perf buffer: the events of
the header fields at the indices 0, 1, ... in order, the event at position `j`
carrying the type `kGRPCOperateHeaders`, the `fd` and the stream id the probe
read, and the sizes of the name and the value of the header field at index `j`. -/
theorem probe_http2_client_operate_headers_submits (k : Kernel) (ctx : pt_regs)
    (go_grpc_header_events : List go_grpc_http2_header_event_t) :
    HEADER_COUNT = 64 ∧
      (probe_http2_client_operate_headers k ctx go_grpc_header_events).1 = 0 ∧
      ((operateHeadersFields k ctx).len > 100 ∨ (operateHeadersFields k ctx).len ≤ 0 ∨
          (operateHeadersFields k ctx).cap ≤ 0 →
        (probe_http2_client_operate_headers k ctx go_grpc_header_events).2
          = go_grpc_header_events) ∧
      (¬ ((operateHeadersFields k ctx).len > 100 ∨ (operateHeadersFields k ctx).len ≤ 0 ∨
          (operateHeadersFields k ctx).cap ≤ 0) →
        ∃ events,
          (probe_http2_client_operate_headers k ctx go_grpc_header_events).2
            = go_grpc_header_events ++ events ∧
          (events.length : Int) = min (operateHeadersFields k ctx).len HEADER_COUNT ∧
          events = headerEvents k (operateHeadersFields k ctx).ptr events.length 0
            (operateHeadersEvent k ctx) ∧
          ∀ (j : Nat) (ev : go_grpc_http2_header_event_t), events[j]? = some ev →
            ev.type = EventType.kGRPCOperateHeaders ∧ ev.fd = operateHeadersFd k ctx ∧
              ev.stream_id = operateHeadersStreamId k ctx ∧
              ev.entry_probe = fill_probe_info k ∧
              ev.name.size =
                k.BPF_LEN_CAP
                  (k.bpf_probe_read_field
                    ((operateHeadersFields k ctx).ptr + j * k.sizeof_HPackHeaderField)).name.len
                  k.HEADER_FIELD_STR_SIZE ∧
              ev.value.size =
                k.BPF_LEN_CAP
                  (k.bpf_probe_read_field
                    ((operateHeadersFields k ctx).ptr + j * k.sizeof_HPackHeaderField)).value.len
                  k.HEADER_FIELD_STR_SIZE) := by
  refine ⟨rfl, ?_, ?_, ?_⟩
  · unfold probe_http2_client_operate_headers
    simp only []
    split <;> rfl
  · intro hguard
    unfold operateHeadersFields at hguard
    unfold probe_http2_client_operate_headers
    simp only []
    rw [if_pos hguard]
  · intro hguard
    have hlen : ((min (operateHeadersFields k ctx).len.toNat HEADER_COUNT : Nat) : Int)
        = min (operateHeadersFields k ctx).len HEADER_COUNT := by
      have h1 : 0 < (operateHeadersFields k ctx).len := by
        by_contra hneg
        exact hguard (Or.inr (Or.inl (by omega)))
      omega
    have hrun : (probe_http2_client_operate_headers k ctx go_grpc_header_events).2 =
        go_grpc_header_events ++
          headerEvents k (operateHeadersFields k ctx).ptr
            (min (operateHeadersFields k ctx).len.toNat HEADER_COUNT) 0
            (operateHeadersEvent k ctx) := by
      unfold operateHeadersFields at hguard
      unfold probe_http2_client_operate_headers operateHeadersFields operateHeadersEvent
        operateHeadersFd operateHeadersStreamId
      simp only []
      rw [if_neg hguard]
      exact operateHeadersLoop_eq k _ _ _ 0 _ _ rfl
    refine ⟨_, hrun, ?_, ?_, ?_⟩
    · rw [headerEvents_length]
      exact hlen
    · rw [headerEvents_length]
    · intro j ev hev
      have h := headerEvents_getElem k _ _ 0 _ j ev hev
      rw [Nat.zero_add] at h
      exact h

/-- C22 on `twoHeaders`: the slice has two header fields, and the probe submits
two events, in the order of the fields, both of type `kGRPCOperateHeaders` with
the file descriptor 5 and the stream 3; the sizes are those of the names and
values of the two fields (7 and 3, then 12 and, capped, 128). -/
theorem probe_http2_client_operate_headers_submits_witness :
    (probe_http2_client_operate_headers twoHeaders { sp := 0 } []).1 = 0 ∧
      (probe_http2_client_operate_headers twoHeaders { sp := 0 } []).2.map
          (fun e => (e.type, e.fd, e.stream_id, e.name.size, e.value.size))
        = [(EventType.kGRPCOperateHeaders, 5, 3, 7, 3),
           (EventType.kGRPCOperateHeaders, 5, 3, 12, 128)] := by
  obtain ⟨events, hrun, hlen, hev, _⟩ :=
    (probe_http2_client_operate_headers_submits twoHeaders { sp := 0 } []).2.2.2 (by decide)
  have hmin : min (operateHeadersFields twoHeaders { sp := 0 }).len (HEADER_COUNT : Int) = 2 := by
    decide
  have h2 : events.length = 2 := by omega
  rw [h2] at hev
  refine ⟨(probe_http2_client_operate_headers_submits twoHeaders { sp := 0 } []).2.1, ?_⟩
  rw [hrun, hev]
  decide

end bcc_bpf

end pl.stirling
